import Mathlib

/-!
# RoboSherlock plane annotator: a shallow embedding

The definitions below follow `src/detection/src/PlaneAnnotator.cpp`; the lookup tables
and the depth display of the image preprocessor follow
`src/utils/src/ImagePreprocessor.cpp`.
C++ `int` values are integers (`Int`); `/` and `%` on `int` are the truncating
`Int.tdiv` and `Int.tmod`.  `float` coefficients are rationals: the code only
copies, negates and compares them with zero, which is exact on finite floats.
OpenCV and PCL calls are modelled by what they are documented to do; the two
estimators of PCL (`SACSegmentation::segment`,
`OrganizedMultiPlaneSegmentation::segmentAndRefine`), the pose solver of OpenCV
(`solvePnPRansac`, `Rodrigues`) and `rs::DepthImageProcessing::project` are function
parameters.
-/

namespace RoboSherlock

/-! ## OpenCV values -/

/-- The `cv::Size` pair of `int`. -/
structure Size where
  width : Int
  height : Int
deriving DecidableEq, Repr

/-- The `cv::Rect` rectangle: top-left corner, width, height (all `int`). -/
structure Rect where
  x : Int
  y : Int
  width : Int
  height : Int
deriving DecidableEq, Repr

/-- A single-channel 8-bit `cv::Mat`: `data` holds the rows, top to bottom. -/
structure Mat where
  rows : Int
  cols : Int
  data : List (List Nat)
deriving DecidableEq, Repr

/-- The failure of a `CV_Assert`, thrown as `cv::Exception`. -/
inductive CvError where
  | roiOutOfRange
deriving DecidableEq, Repr

deriving instance DecidableEq for Except

/-- The matrix `cv::Mat::zeros(rows, cols, CV_8U)`. -/
def Mat.zeros (rows cols : Int) : Mat :=
  { rows := rows, cols := cols,
    data := List.replicate rows.toNat (List.replicate cols.toNat 0) }

/-- The read `m.at<uint8_t>(y, x)`; outside the buffer (undefined in C++) it reads 0. -/
def Mat.at (m : Mat) (y x : Int) : Nat :=
  if 0 ≤ y ∧ 0 ≤ x then (m.data.getD y.toNat []).getD x.toNat 0 else 0

/-- The write `m.at<uint8_t>(y, x) = v`.  `at` does not check its arguments in a
release build; a write outside the buffer (undefined in C++) leaves the model unchanged. -/
def Mat.set (m : Mat) (y x : Int) (v : Nat) : Mat :=
  if 0 ≤ y ∧ y < m.rows ∧ 0 ≤ x ∧ x < m.cols then
    { m with data := m.data.set y.toNat ((m.data.getD y.toNat []).set x.toNat v) }
  else m

/-- The sub-matrix `m(roi)` followed by `copyTo`: OpenCV's `Mat(const Mat&, const Rect&)`
asserts `0 <= roi.x && 0 <= roi.width && roi.x + roi.width <= m.cols && 0 <= roi.y &&
0 <= roi.height && roi.y + roi.height <= m.rows` and throws otherwise. -/
def Mat.roi (m : Mat) (r : Rect) : Except CvError Mat :=
  if 0 ≤ r.x ∧ 0 ≤ r.width ∧ r.x + r.width ≤ m.cols ∧
      0 ≤ r.y ∧ 0 ≤ r.height ∧ r.y + r.height ≤ m.rows then
    .ok { rows := r.height, cols := r.width,
          data := ((m.data.drop r.y.toNat).take r.height.toNat).map
                    (fun row => (row.drop r.x.toNat).take r.width.toNat) }
  else .error CvError.roiOutOfRange

/-! ## getMask -/

/-- Column of a linear index: `index % size.width` on `int`. -/
def pixelX (index width : Int) : Int := Int.tmod index width

/-- Row of a linear index: `index / size.width` on `int`. -/
def pixelY (index width : Int) : Int := Int.tdiv index width

/-- Row and column as `drawImageWithLock` computes them, on `size_t`:
`r = index / disp.cols`, `c = index % disp.cols`. -/
def drawRowCol (index cols : Nat) : Nat × Nat := (index / cols, index % cols)

/-- The local variables of `getMask` while its loop runs. -/
structure MaskScan where
  tmp : Mat
  minX : Int
  maxX : Int
  minY : Int
  maxY : Int
deriving DecidableEq, Repr

/-- The locals of `getMask` before the loop. -/
def getMaskInit (size : Size) : MaskScan :=
  { tmp := Mat.zeros size.height size.width,
    minX := size.width, maxX := 0, minY := size.height, maxY := 0 }

/-- One iteration of the loop of `getMask`. -/
def getMaskStep (size : Size) (s : MaskScan) (index : Int) : MaskScan :=
  let x := pixelX index size.width
  let y := pixelY index size.width
  { tmp := s.tmp.set y x 255,
    minX := min s.minX x, maxX := max s.maxX x,
    minY := min s.minY y, maxY := max s.maxY y }

/-- The loop of `getMask` over `inliers.indices`. -/
def getMaskScan (inliers : List Int) (size : Size) : MaskScan :=
  inliers.foldl (getMaskStep size) (getMaskInit size)

/-- The rectangle `getMask` assigns to `roi` (before the sub-matrix is taken). -/
def getMaskRoi (inliers : List Int) (size : Size) : Rect :=
  let s := getMaskScan inliers size
  { x := s.minX, y := s.minY,
    width := (s.maxX - s.minX) + 1, height := (s.maxY - s.minY) + 1 }

/-- The function `PlaneAnnotator::getMask`: the outputs `(mask, roi)`, or the
exception of `tmp(roi)`. -/
def getMask (inliers : List Int) (size : Size) : Except CvError (Mat × Rect) :=
  let s := getMaskScan inliers size
  let roi := getMaskRoi inliers size
  match s.tmp.roi roi with
  | .ok mask => .ok (mask, roi)
  | .error e => .error e


/-! ## Point clouds, the scene and the annotator -/

/-- A point of the cloud; a coordinate that is NaN or infinite is `none`. -/
structure PointXYZRGBA where
  x : Option ℚ
  y : Option ℚ
  z : Option ℚ
  rgba : Nat
deriving DecidableEq, Repr

/-- An organized `pcl::PointCloud<pcl::PointXYZRGBA>`. -/
structure PointCloud where
  width : Nat
  height : Nat
  points : List PointXYZRGBA
deriving DecidableEq, Repr

/-- A freshly constructed cloud, `new pcl::PointCloud<pcl::PointXYZRGBA>()`. -/
def PointCloud.empty : PointCloud := { width := 0, height := 0, points := [] }

/-- A surface normal with its curvature (`pcl::Normal`). -/
structure Normal where
  normal_x : Option ℚ
  normal_y : Option ℚ
  normal_z : Option ℚ
  curvature : Option ℚ
deriving DecidableEq, Repr

/-- The test `pcl_isfinite(x) && pcl_isfinite(y) && pcl_isfinite(z)`. -/
def PointXYZRGBA.isFinite (p : PointXYZRGBA) : Bool :=
  p.x.isSome && p.y.isSome && p.z.isSome

/-- The loop of `pcl::removeNaNFromPointCloud` from position `i` on: the points kept,
each with its position in the input cloud. -/
def removeNaNLoop : List PointXYZRGBA → Int → List (PointXYZRGBA × Int)
  | [], _ => []
  | p :: ps, i =>
    if p.isFinite then (p, i) :: removeNaNLoop ps (i + 1) else removeNaNLoop ps (i + 1)

/-- The call `pcl::removeNaNFromPointCloud(cloud_in, cloud_out, index)`: the finite
points in order, and for each of them its index in `cloud_in`.  (On a cloud flagged
dense the library copies every point; that is the same result when the flag is true
to the data, as no point is dropped here either.) -/
def removeNaNFromPointCloud (cloud : PointCloud) : List PointXYZRGBA × List Int :=
  let kept := removeNaNLoop cloud.points 0
  (kept.map Prod.fst, kept.map Prod.snd)

/-- What `SACSegmentation::segment` writes: inlier indices and model coefficients. -/
structure SacResult where
  inliers : List Int
  coefficients : List ℚ
deriving DecidableEq, Repr

/-- A `pcl::PlanarRegion`: its `getCoefficients()` (four floats) and `getCount()`. -/
structure PlanarRegion where
  c0 : ℚ
  c1 : ℚ
  c2 : ℚ
  c3 : ℚ
  count : Nat
deriving DecidableEq, Repr

/-- The three output vectors of `segmentAndRefine` that the annotator keeps. -/
structure MpsResult where
  regions : List PlanarRegion
  modelCoefficients : List (List ℚ)
  inlierIndices : List (List Int)
deriving DecidableEq, Repr

/-- An `rs::Board` annotation: matched image and world points. -/
structure Board where
  pointsImage : List (ℚ × ℚ)
  pointsWorld : List (ℚ × ℚ × ℚ)
deriving DecidableEq, Repr

/-- An `rs::Plane` annotation; a feature that was never set is `none`. -/
structure Plane where
  model : Option (List ℚ)
  inliers : Option (List Int)
  roi : Option Rect
  mask : Option Mat
deriving DecidableEq, Repr

/-- An annotation of the scene. -/
inductive Annot where
  | board (b : Board)
  | plane (p : Plane)
deriving DecidableEq, Repr

/-- The `rs::Scene`: its list of annotations. -/
structure Scene where
  annotations : List Annot
deriving DecidableEq, Repr

/-- The call `scene.annotations.append(plane)`. -/
def Scene.append (scene : Scene) (p : Plane) : Scene :=
  { annotations := scene.annotations ++ [Annot.plane p] }

/-- The planes among the annotations of a scene, in order. -/
def Scene.planes (scene : Scene) : List Plane :=
  scene.annotations.filterMap fun a =>
    match a with
    | Annot.plane p => some p
    | Annot.board _ => none

/-- The views of the CAS the plane estimators read; a view that is not set is `none`. -/
structure CAS where
  cloud : Option PointCloud
  normals : Option (List Normal)
deriving DecidableEq, Repr

/-- The call `cas.get(VIEW_CLOUD, *cloud)` into a fresh cloud: a missing view leaves it empty. -/
def CAS.getCloud (cas : CAS) : PointCloud := cas.cloud.getD PointCloud.empty

/-- The call `cas.get(VIEW_NORMALS, *normals)` into a fresh cloud of normals. -/
def CAS.getNormals (cas : CAS) : List Normal := cas.normals.getD []

/-- The enum `mode`. -/
inductive Mode where
  | PCL
  | BOARD
  | MPS
deriving DecidableEq, Repr

/-- The members of `PlaneAnnotator` that the point-cloud estimators read and write. -/
structure PlaneAnnotator where
  mode : Mode
  plane_inliers : List Int
  cloud : PointCloud
  mapping_indices : List Int
  regions : List PlanarRegion
  modelCoefficients : List (List ℚ)
  inlierIndices : List (List Int)
  foundPlane : Bool
  min_plane_inliers : Int
  max_iterations : Int
  distance_threshold : ℚ
  max_curvature : ℚ
  angular_threshold_deg : ℚ
deriving DecidableEq, Repr

/-- The size `cv::Size(cloud->width, cloud->height)`. -/
def PointCloud.size (cloud : PointCloud) : Size :=
  { width := (cloud.width : Int), height := (cloud.height : Int) }

/-! ## Single-plane mode -/

/-- The function `PlaneAnnotator::process_cloud`.  `segment` is the configured
`plane_segmentation.segment` applied to the cloud without NaN.  Returns the `bool`,
the annotator afterwards and the coefficients written to `plane_coefficients`. -/
def process_cloud (self : PlaneAnnotator) (segment : List PointXYZRGBA → SacResult) :
    Bool × PlaneAnnotator × List ℚ :=
  let filtered := removeNaNFromPointCloud self.cloud
  let res := segment filtered.1
  let sorted := res.inliers.insertionSort (· ≤ ·)
  let self1 := { self with mapping_indices := filtered.2, plane_inliers := sorted }
  if sorted.length = 0 then (false, self1, res.coefficients)
  else (true, self1, res.coefficients)

/-- The state a method leaves behind: the annotator, the scene, and the exception
that ended the method early, if any. -/
structure Outcome where
  self : PlaneAnnotator
  scene : Scene
  thrown : Option CvError
deriving DecidableEq, Repr

/-- The read `v[i]` of a `std::vector<int>` at an `int` position; outside the vector
(undefined in C++) the model reads 0. -/
def vecAt (v : List Int) (i : Int) : Int :=
  if 0 ≤ i then v.getD i.toNat 0 else 0

/-- The function `PlaneAnnotator::estimateFromPCL`. -/
def estimateFromPCL (self : PlaneAnnotator) (cas : CAS) (scene : Scene)
    (segment : List PointXYZRGBA → SacResult) : Outcome :=
  let self0 := { self with cloud := cas.getCloud }
  let r := process_cloud self0 segment
  if r.1 then
    let self1 := { r.2.1 with foundPlane := true }
    let values := r.2.2
    let planeModel : List ℚ :=
      [values.getD 0 0, values.getD 1 0, values.getD 2 0, values.getD 3 0]
    let temp := self1.plane_inliers.map (vecAt self1.mapping_indices)
    let self2 := { self1 with plane_inliers := temp }
    match getMask self2.plane_inliers self2.cloud.size with
    | .error e => { self := self2, scene := scene, thrown := some e }
    | .ok (mask, roi) =>
      let plane : Plane :=
        { model := some planeModel, inliers := some self2.plane_inliers,
          roi := some roi, mask := some mask }
      { self := self2, scene := scene.append plane, thrown := none }
  else
    { self := r.2.1, scene := scene, thrown := none }

/-! ## Multi-region mode -/

/-- The sign rule in the loop of `estimateFromMPS`: `planeModel` from `model`. -/
def mpsPlaneModel (region : PlanarRegion) : List ℚ :=
  if region.c3 < 0 then [region.c0, region.c1, region.c2, region.c3]
  else [-region.c0, -region.c1, -region.c2, -region.c3]

/-- The state of `estimateFromMPS` while its loop runs. -/
structure MpsState where
  self : PlaneAnnotator
  scene : Scene
  biggest : Nat
  biggest_planeModel : List ℚ
  thrown : Option CvError
deriving DecidableEq, Repr

/-- The region `regions[i]`; outside the vector (undefined in C++) a zero region. -/
def regionAt (regions : List PlanarRegion) (i : Nat) : PlanarRegion :=
  regions.getD i { c0 := 0, c1 := 0, c2 := 0, c3 := 0, count := 0 }

/-- Iteration `i` of the loop of `estimateFromMPS`; once `getMask` has thrown, the
remaining iterations do not run. -/
def mpsStep (st : MpsState) (i : Nat) : MpsState :=
  match st.thrown with
  | some _ => st
  | none =>
    let region := regionAt st.self.regions i
    let planeModel := mpsPlaneModel region
    let indices := st.self.inlierIndices.getD i []
    match getMask indices st.self.cloud.size with
    | .error e => { st with thrown := some e }
    | .ok (mask, roi) =>
      let plane : Plane :=
        { model := some planeModel, inliers := some indices,
          roi := some roi, mask := some mask }
      let bigger : Bool := decide (region.count > (regionAt st.self.regions st.biggest).count)
      { self := { st.self with plane_inliers := st.self.plane_inliers ++ indices },
        scene := st.scene.append plane,
        biggest := if bigger then i else st.biggest,
        biggest_planeModel := if bigger then planeModel else st.biggest_planeModel,
        thrown := none }

/-- The state of `estimateFromMPS` when its loop starts: the members are reset, the
cloud and the normals are read, the segmenter has run, `biggest` is 0 and
`biggest_planeModel` is a vector of four zeros.  `mps` is the configured
`mps.segmentAndRefine` applied to the cloud and the normals of the frame. -/
def mpsInit (self : PlaneAnnotator) (cas : CAS) (scene : Scene)
    (mps : PointCloud → List Normal → MpsResult) : MpsState :=
  let cloud := cas.getCloud
  let normals := cas.getNormals
  let seg := mps cloud normals
  { self := { self with cloud := cloud, plane_inliers := [], regions := seg.regions,
                        modelCoefficients := seg.modelCoefficients,
                        inlierIndices := seg.inlierIndices },
    scene := scene, biggest := 0, biggest_planeModel := [0, 0, 0, 0], thrown := none }

/-- The function `PlaneAnnotator::estimateFromMPS`: the loop over `regions`, then the
update of `foundPlane`. -/
def estimateFromMPS (self : PlaneAnnotator) (cas : CAS) (scene : Scene)
    (mps : PointCloud → List Normal → MpsResult) : MpsState :=
  let st0 := mpsInit self cas scene mps
  let st := (List.range st0.self.regions.length).foldl mpsStep st0
  match st.thrown with
  | some _ => st
  | none =>
    if st.self.regions.isEmpty then st
    else { st with self := { st.self with foundPlane := true } }

/-- Whether position `i` of the original cloud holds a finite point: the test used
to drop originally-invalid positions from an index list. -/
def PointCloud.validAt (cloud : PointCloud) (i : Int) : Bool :=
  decide (0 ≤ i) &&
    (match cloud.points[i.toNat]? with
     | some p => p.isFinite
     | none => false)

/-- An index list without the positions whose original point is invalid. -/
def PointCloud.dropInvalid (cloud : PointCloud) (l : List Int) : List Int :=
  l.filter cloud.validAt

/-! ## Fiducial (board) mode -/

/-- The message `sensor_msgs::CameraInfo`: image size, intrinsic matrix `K` (nine
entries, row-major) and distortion coefficients `D`. -/
structure CameraInfo where
  height : Nat
  width : Nat
  K : List ℚ
  D : List ℚ
deriving DecidableEq, Repr

/-- A default-constructed `sensor_msgs::CameraInfo`: what `cas.get` leaves when the
view is missing. -/
def CameraInfo.init : CameraInfo :=
  { height := 0, width := 0, K := [0, 0, 0, 0, 0, 0, 0, 0, 0], D := [] }

/-- A 3 x 1 matrix of `double`. -/
structure Vec3 where
  v0 : ℚ
  v1 : ℚ
  v2 : ℚ
deriving DecidableEq, Repr

/-- A 3 x 3 matrix of `double`, `mij` in row `i` and column `j`. -/
structure Mat3 where
  m00 : ℚ
  m01 : ℚ
  m02 : ℚ
  m10 : ℚ
  m11 : ℚ
  m12 : ℚ
  m20 : ℚ
  m21 : ℚ
  m22 : ℚ
deriving DecidableEq, Repr

/-- The matrix product `m * v` of a 3 x 3 and a 3 x 1 matrix. -/
def Mat3.mulVec (m : Mat3) (v : Vec3) : Vec3 :=
  { v0 := m.m00 * v.v0 + m.m01 * v.v1 + m.m02 * v.v2,
    v1 := m.m10 * v.v0 + m.m11 * v.v1 + m.m12 * v.v2,
    v2 := m.m20 * v.v0 + m.m21 * v.v1 + m.m22 * v.v2 }

/-- The product `a.dot(b)` of two 3 x 1 matrices. -/
def Vec3.dot (a b : Vec3) : ℚ := a.v0 * b.v0 + a.v1 * b.v1 + a.v2 * b.v2

/-- A pose: rotation vector and translation, the two outputs of `cv::solvePnPRansac`. -/
structure Pose where
  rotation : Vec3
  translation : Vec3
deriving DecidableEq, Repr

/-- The members of `PlaneAnnotator` listed under `// BOARD`; an empty `cv::Mat` is
`none`. -/
structure BoardMembers where
  cameraMatrix : List ℚ
  distortionCoefficients : List ℚ
  rotation : Option Vec3
  translation : Option Vec3
  planeNormal : Option Vec3
  planeDistance : ℚ
deriving DecidableEq, Repr

/-- The function `PlaneAnnotator::readCameraInfo`: the nine entries of `K` and the
entries of `D` are copied. -/
def readCameraInfo (bm : BoardMembers) (camInfo : CameraInfo) : BoardMembers :=
  { bm with
    cameraMatrix := [camInfo.K.getD 0 0, camInfo.K.getD 1 0, camInfo.K.getD 2 0,
                     camInfo.K.getD 3 0, camInfo.K.getD 4 0, camInfo.K.getD 5 0,
                     camInfo.K.getD 6 0, camInfo.K.getD 7 0, camInfo.K.getD 8 0],
    distortionCoefficients := camInfo.D }

/-- The boards among the annotations of a scene, in order: `scene.annotations.filter(boards)`. -/
def Scene.boards (scene : Scene) : List Board :=
  scene.annotations.filterMap fun a =>
    match a with
    | Annot.board b => some b
    | Annot.plane _ => none

/-- The state `estimateFromBoard` leaves behind. -/
structure BoardOutcome where
  self : PlaneAnnotator
  board : BoardMembers
  scene : Scene
deriving DecidableEq, Repr

/-- The plane model `estimateFromBoard` derives from the rotation matrix and the
translation: the normal is `rotW2C * (0, 0, 1)ᵗ`, the distance its product with the
translation, and all four entries are negated. -/
def boardPlaneModel (rotW2C : Mat3) (translation : Vec3) : List ℚ :=
  let planeNormal := rotW2C.mulVec { v0 := 0, v1 := 0, v2 := 1 }
  let planeDistance := planeNormal.dot translation
  [-planeNormal.v0, -planeNormal.v1, -planeNormal.v2, -planeDistance]

/-- The function `PlaneAnnotator::estimateFromBoard`.  `camInfoHD` is the view
`VIEW_CAMERA_INFO_HD`.  `solvePnPRansac` is the pose solver applied to the points of the
board, the camera matrix, the distortion coefficients and the extrinsic guess (passed
only when both `rotation` and `translation` are non-empty); `Rodrigues` turns the
rotation vector into the rotation matrix. -/
def estimateFromBoard (self : PlaneAnnotator) (bm : BoardMembers)
    (camInfoHD : Option CameraInfo) (scene : Scene)
    (solvePnPRansac : Board → List ℚ → List ℚ → Option Pose → Pose)
    (Rodrigues : Vec3 → Mat3) : BoardOutcome :=
  let camInfo := camInfoHD.getD CameraInfo.init
  let bm1 := readCameraInfo bm camInfo
  match scene.boards with
  | [] => { self := { self with foundPlane := false }, board := bm1, scene := scene }
  | board :: _ =>
    let guess : Option Pose :=
      match bm1.rotation, bm1.translation with
      | some r, some t => some { rotation := r, translation := t }
      | _, _ => none
    let pose := solvePnPRansac board bm1.cameraMatrix bm1.distortionCoefficients guess
    let rotW2C := Rodrigues pose.rotation
    let planeNormal := rotW2C.mulVec { v0 := 0, v1 := 0, v2 := 1 }
    let planeDistance := planeNormal.dot pose.translation
    let planeModel : List ℚ :=
      [-planeNormal.v0, -planeNormal.v1, -planeNormal.v2, -planeDistance]
    let plane : Plane :=
      { model := some planeModel, inliers := none, roi := none, mask := none }
    { self := { self with foundPlane := true },
      board := { bm1 with rotation := some pose.rotation, translation := some pose.translation,
                          planeNormal := some planeNormal, planeDistance := planeDistance },
      scene := scene.append plane }

/-- The pose `estimateFromBoard` obtains for the board `b`: the solver applied to the
camera matrix and distortion coefficients just read, with the previous rotation and
translation as guess when both are non-empty. -/
def boardPose (bm : BoardMembers) (camInfoHD : Option CameraInfo)
    (solvePnPRansac : Board → List ℚ → List ℚ → Option Pose → Pose) (b : Board) : Pose :=
  let bm1 := readCameraInfo bm (camInfoHD.getD CameraInfo.init)
  let guess : Option Pose :=
    match bm1.rotation, bm1.translation with
    | some r, some t => some { rotation := r, translation := t }
    | _, _ => none
  solvePnPRansac b bm1.cameraMatrix bm1.distortionCoefficients guess

/-! ## Configuration and dispatch -/

/-- The error code `UIMA_ERR_NONE`. -/
def UIMA_ERR_NONE : Int := 0

/-- The parameters of the `AnnotatorContext` that `initialize` asks for; a parameter
that is not defined is `none`. -/
structure AnnotatorContext where
  mode : Option String
  min_plane_inliers : Option Int
  max_iterations : Option Int
  distance_threshold : Option ℚ
  max_curvature : Option ℚ
  angular_threshold_deg : Option ℚ
deriving DecidableEq, Repr

/-- The chain of comparisons on the mode name in `initialize`. -/
def selectMode (self : PlaneAnnotator) (sMode : String) : PlaneAnnotator :=
  if sMode = "BOARD" then { self with mode := Mode.BOARD }
  else if sMode = "PCL" then { self with mode := Mode.PCL }
  else if sMode = "MPS" then { self with mode := Mode.MPS }
  else self

/-- The five `isParameterDefined` / `extractValue` blocks of `initialize`, in order. -/
def readTunables (self : PlaneAnnotator) (ctx : AnnotatorContext) : PlaneAnnotator :=
  let s2 : PlaneAnnotator :=
    match ctx.min_plane_inliers with
    | some v => { self with min_plane_inliers := v }
    | none => self
  let s3 : PlaneAnnotator :=
    match ctx.max_iterations with
    | some v => { s2 with max_iterations := v }
    | none => s2
  let s4 : PlaneAnnotator :=
    match ctx.distance_threshold with
    | some v => { s3 with distance_threshold := v }
    | none => s3
  let s5 : PlaneAnnotator :=
    match ctx.max_curvature with
    | some v => { s4 with max_curvature := v }
    | none => s4
  match ctx.angular_threshold_deg with
  | some v => { s5 with angular_threshold_deg := v }
  | none => s5

/-- The function `PlaneAnnotator::initialize`: the returned code and the annotator.
Everything happens inside `if(ctx.isParameterDefined("mode"))`: the mode name is
compared, then the tunables are read. -/
def initializePlaneAnnotator (self : PlaneAnnotator) (ctx : AnnotatorContext) :
    Int × PlaneAnnotator :=
  match ctx.mode with
  | none => (UIMA_ERR_NONE, self)
  | some sMode => (UIMA_ERR_NONE, readTunables (selectMode self sMode) ctx)

/-- The state `processWithLock` leaves behind and what it returns: the error code, or
the exception that left the method. -/
structure FrameOutcome where
  self : PlaneAnnotator
  board : BoardMembers
  scene : Scene
  result : Except CvError Int
deriving DecidableEq, Repr

/-- The function `PlaneAnnotator::processWithLock`: the dispatch on `mode`.  (The colour
image it fetches is only drawn later and is left out.) -/
def processWithLock (self : PlaneAnnotator) (bm : BoardMembers) (cas : CAS)
    (camInfoHD : Option CameraInfo) (scene : Scene)
    (segment : List PointXYZRGBA → SacResult)
    (mps : PointCloud → List Normal → MpsResult)
    (solvePnPRansac : Board → List ℚ → List ℚ → Option Pose → Pose)
    (Rodrigues : Vec3 → Mat3) : FrameOutcome :=
  match self.mode with
  | Mode.BOARD =>
    let o := estimateFromBoard self bm camInfoHD scene solvePnPRansac Rodrigues
    { self := o.self, board := o.board, scene := o.scene, result := .ok UIMA_ERR_NONE }
  | Mode.PCL =>
    let o := estimateFromPCL self cas scene segment
    { self := o.self, board := bm, scene := o.scene,
      result := match o.thrown with
        | some e => .error e
        | none => .ok UIMA_ERR_NONE }
  | Mode.MPS =>
    let o := estimateFromMPS self cas scene mps
    { self := o.self, board := bm, scene := o.scene,
      result := match o.thrown with
        | some e => .error e
        | none => .ok UIMA_ERR_NONE }

/-- The state of the loop of `estimateFromMPS` when iteration `i` starts. -/
def mpsBefore (self : PlaneAnnotator) (cas : CAS) (scene : Scene)
    (mps : PointCloud → List Normal → MpsResult) (i : Nat) : MpsState :=
  (List.range i).foldl mpsStep (mpsInit self cas scene mps)

/-- The index at which iteration `i` reads `regions[biggest]` in its comparison. -/
def mpsComparedIndex (self : PlaneAnnotator) (cas : CAS) (scene : Scene)
    (mps : PointCloud → List Normal → MpsResult) (i : Nat) : Nat :=
  (mpsBefore self cas scene mps i).biggest

/-! ## The lookup tables of the image preprocessor -/

/-- The function `ImagePreprocessor::createLookup`: the rows `(lookupX, lookupY)`, one
entry per column and per row of the image: `(c - cx) * fx` and `(r - cy) * fy` with
`fx = 1 / K[0]`, `fy = 1 / K[4]`, `cx = K[2]`, `cy = K[5]`. -/
def createLookup (camInfo : CameraInfo) : List ℚ × List ℚ :=
  let fx : ℚ := 1 / camInfo.K.getD 0 0
  let fy : ℚ := 1 / camInfo.K.getD 4 0
  let cx : ℚ := camInfo.K.getD 2 0
  let cy : ℚ := camInfo.K.getD 5 0
  let lookupY := (List.range camInfo.height).map fun (r : Nat) => ((r : ℚ) - cy) * fy
  let lookupX := (List.range camInfo.width).map fun (c : Nat) => ((c : ℚ) - cx) * fx
  (lookupX, lookupY)

/-- The members of `ImagePreprocessor` that `createCloud` reads and writes; a lookup
row is the list of its entries and `lookupX.empty()` is the empty list. -/
structure ImagePreprocessor where
  lookupX : List ℚ
  lookupY : List ℚ
  alpha : Mat
  depth : List (List Nat)
  color : List (List Nat)
  cloud : PointCloud
  forceNewCloud : Bool
  hasDepth : Bool
  hasColor : Bool
deriving DecidableEq, Repr

/-- The function `ImagePreprocessor::createCloud`: the preprocessor and the CAS
afterwards.  `camInfoView` is the view `VIEW_CAMERA_INFO`; `project` is
`rs::DepthImageProcessing::project`, which reads the images and the lookup rows and
fills the cloud. -/
def createCloud (self : ImagePreprocessor) (cas : CAS) (camInfoView : Option CameraInfo)
    (project : List (List Nat) → List (List Nat) → Mat → List ℚ → List ℚ → PointCloud)
    : ImagePreprocessor × CAS :=
  let built : Option ImagePreprocessor :=
    if self.lookupX.isEmpty then
      match camInfoView with
      | none => none
      | some camInfo =>
        some { self with lookupX := (createLookup camInfo).1,
                         lookupY := (createLookup camInfo).2,
                         alpha := Mat.zeros camInfo.height camInfo.width }
    else some self
  match built with
  | none => (self, cas)
  | some s1 =>
    if (s1.forceNewCloud || cas.cloud.isNone) && s1.hasDepth && s1.hasColor then
      let cloud := project s1.depth s1.color s1.alpha s1.lookupX s1.lookupY
      ({ s1 with cloud := cloud }, { cas with cloud := some cloud })
    else (s1, cas)

/-- The preprocessor after `createCloud` has run on each frame of a list in turn; a
frame is its CAS and its camera info view. -/
def createCloudFrames (self : ImagePreprocessor)
    (project : List (List Nat) → List (List Nat) → Mat → List ℚ → List ℚ → PointCloud)
    (frames : List (CAS × Option CameraInfo)) : ImagePreprocessor :=
  frames.foldl (fun s f => (createCloud s f.1 f.2 project).1) self

/-! ## Frames in sequence, the constructor, the depth display -/

/-- The annotator after `processWithLock` has run on each frame of a list in turn; a
frame is its CAS, its camera info view and its scene.  The members persist from one
frame to the next, whatever `processWithLock` returned. -/
def processFrames (self : PlaneAnnotator) (bm : BoardMembers)
    (segment : List PointXYZRGBA → SacResult)
    (mps : PointCloud → List Normal → MpsResult)
    (solvePnPRansac : Board → List ℚ → List ℚ → Option Pose → Pose)
    (Rodrigues : Vec3 → Mat3)
    (frames : List (CAS × Option CameraInfo × Scene)) : PlaneAnnotator × BoardMembers :=
  frames.foldl
    (fun s f =>
      ((processWithLock s.1 s.2 f.1 f.2.1 f.2.2 segment mps solvePnPRansac Rodrigues).self,
       (processWithLock s.1 s.2 f.1 f.2.1 f.2.2 segment mps solvePnPRansac Rodrigues).board))
    (self, bm)

/-- The constructor `PlaneAnnotator()`: its initialiser list sets `mode(BOARD)`; the
vectors start empty; `foundPlane` and the five tunables are not initialised and hold
whatever values are given here. -/
def PlaneAnnotator.ctor (foundPlane : Bool) (min_plane_inliers max_iterations : Int)
    (distance_threshold max_curvature angular_threshold_deg : ℚ) : PlaneAnnotator :=
  { mode := Mode.BOARD, plane_inliers := [], cloud := PointCloud.empty,
    mapping_indices := [], regions := [], modelCoefficients := [], inlierIndices := [],
    foundPlane := foundPlane, min_plane_inliers := min_plane_inliers,
    max_iterations := max_iterations, distance_threshold := distance_threshold,
    max_curvature := max_curvature, angular_threshold_deg := angular_threshold_deg }

/-- The enum `displayMode` of `ImagePreprocessor`. -/
inductive DisplayMode where
  | COLOR
  | DEPTH
  | THERMAL
  | THERMAL_RGB
  | THERMAL_DEPTH
  | THERMAL_FUSED
  | RGBD
  | DT
deriving DecidableEq, Repr

/-- The constant `maxValue` of `dispDepth`. -/
def maxValue : Int := 10000

/-- The constant `maxInt` of `dispDepth`. -/
def maxInt : Int := 255

/-- One pixel of the loop of `dispDepth`: `(uint8_t)(*itI * maxInt / maxValue)` for the
`uint16_t` value `d`, which is promoted to `int`; the product and the truncating
division are on `int`, and the cast keeps the value modulo 256. -/
def dispDepthPixel (d : Nat) : Nat :=
  ((Int.tdiv ((d : Int) * maxInt) maxValue) % 256).toNat

/-- The loop of `dispDepth` over the rows and columns of `tmpDepth`. -/
def dispDepthScale (tmpDepth : List (List Nat)) : List (List Nat) :=
  tmpDepth.map fun row => row.map dispDepthPixel

/-- What `dispDepth` leaves in `disp`: a 16-bit image of zeros of the given size, or
the JET colour map of an 8-bit image. -/
inductive DispImage where
  | zeros16 (rows cols : Nat)
  | colorMapJet (tmp : List (List Nat))
deriving DecidableEq, Repr

/-- The function `ImagePreprocessor::dispDepth`; an image is the list of its rows and
is empty when it has no pixel. -/
def dispDepth (displayMode : DisplayMode) (depth thermalDepth : List (List Nat)) :
    DispImage :=
  let tmpDepth : List (List Nat) :=
    match displayMode with
    | DisplayMode.COLOR => depth
    | DisplayMode.DEPTH => depth
    | DisplayMode.RGBD => depth
    | DisplayMode.THERMAL => thermalDepth
    | DisplayMode.THERMAL_DEPTH => thermalDepth
    | DisplayMode.THERMAL_RGB => thermalDepth
    | DisplayMode.THERMAL_FUSED => thermalDepth
    | DisplayMode.DT => thermalDepth
  if tmpDepth.all List.isEmpty then DispImage.zeros16 640 480
  else DispImage.colorMapJet (dispDepthScale tmpDepth)

/-! ## Sample inputs -/

/-- A finite point. -/
def samplePoint : PointXYZRGBA := { x := some 0, y := some 0, z := some 1, rgba := 0 }

/-- A point whose coordinates are NaN. -/
def nanPoint : PointXYZRGBA := { x := none, y := none, z := none, rgba := 0 }

/-- A 2 x 2 organized cloud whose second point is NaN. -/
def sampleCloud : PointCloud :=
  { width := 2, height := 2, points := [samplePoint, nanPoint, samplePoint, samplePoint] }

/-- A 2 x 1 organized cloud with NaN points only. -/
def nanCloud : PointCloud := { width := 2, height := 1, points := [nanPoint, nanPoint] }

/-- A frame whose cloud view is `cloud` and whose normals view is empty. -/
def sampleCas (cloud : PointCloud) : CAS := { cloud := some cloud, normals := some [] }

/-- A scene without annotations. -/
def emptyScene : Scene := { annotations := [] }

/-- An annotator before a frame, with the given mode and plane-found flag. -/
def sampleAnnotator (mode : Mode) (foundPlane : Bool) : PlaneAnnotator :=
  { mode := mode, plane_inliers := [], cloud := PointCloud.empty, mapping_indices := [],
    regions := [], modelCoefficients := [], inlierIndices := [], foundPlane := foundPlane,
    min_plane_inliers := 2, max_iterations := 50, distance_threshold := 1,
    max_curvature := 1, angular_threshold_deg := 5 }

/-- A solver that reports the compact points 2 and 0 of a non-empty cloud as inliers of
the plane `z - 1 = 0`, and nothing on an empty cloud. -/
def sampleSegment (pts : List PointXYZRGBA) : SacResult :=
  if pts.isEmpty then { inliers := [], coefficients := [] }
  else { inliers := [2, 0], coefficients := [0, 0, 1, -1] }

/-- A solver that reports the first point of a non-empty cloud as the only inlier of
the plane `z - 1 = 0`, and nothing on an empty cloud. -/
def firstPointSegment (pts : List PointXYZRGBA) : SacResult :=
  if pts.isEmpty then { inliers := [], coefficients := [] }
  else { inliers := [0], coefficients := [0, 0, 1, -1] }

/-- A segmenter that reports one region, the plane `z - 1 = 0` through the grid
positions 0 and 2. -/
def sampleMps (_cloud : PointCloud) (_normals : List Normal) : MpsResult :=
  { regions := [{ c0 := 0, c1 := 0, c2 := 1, c3 := -1, count := 2 }],
    modelCoefficients := [[0, 0, 1, -1]], inlierIndices := [[0, 2]] }

/-- A segmenter that reports no region. -/
def noRegionMps (_cloud : PointCloud) (_normals : List Normal) : MpsResult :=
  { regions := [], modelCoefficients := [], inlierIndices := [] }

/-- A board with four matched points. -/
def sampleBoard : Board :=
  { pointsImage := [(0, 0), (1, 0), (0, 1), (1, 1)],
    pointsWorld := [(0, 0, 0), (1, 0, 0), (0, 1, 0), (1, 1, 0)] }

/-- A scene whose only annotation is the sample board. -/
def boardScene : Scene := { annotations := [Annot.board sampleBoard] }

/-- The board members before the first frame: every matrix is empty. -/
def sampleBoardMembers : BoardMembers :=
  { cameraMatrix := [], distortionCoefficients := [], rotation := none,
    translation := none, planeNormal := none, planeDistance := 0 }

/-- A pose solver that reports the translation `(1, 2, 3)`. -/
def sampleSolvePnP (_board : Board) (_cameraMatrix _distortion : List ℚ)
    (_guess : Option Pose) : Pose :=
  { rotation := { v0 := 1, v1 := 0, v2 := 0 }, translation := { v0 := 1, v1 := 2, v2 := 3 } }

/-- A rotation matrix for every rotation vector: the quarter turn about the x axis. -/
def sampleRodrigues (_rotation : Vec3) : Mat3 :=
  { m00 := 1, m01 := 0, m02 := 0,
    m10 := 0, m11 := 0, m12 := -1,
    m20 := 0, m21 := 1, m22 := 0 }

/-- A configuration with an unknown mode name and a negative distance threshold. -/
def invalidContext : AnnotatorContext :=
  { mode := some "FOO", min_plane_inliers := none, max_iterations := none,
    distance_threshold := some (-1), max_curvature := none, angular_threshold_deg := none }

/-- A segmenter that reports two regions, the first with more points than the second. -/
def twoRegionMps (_cloud : PointCloud) (_normals : List Normal) : MpsResult :=
  { regions := [{ c0 := 0, c1 := 0, c2 := 1, c3 := -1, count := 2 },
                { c0 := 1, c1 := 0, c2 := 0, c3 := 1, count := 1 }],
    modelCoefficients := [[0, 0, 1, -1], [1, 0, 0, 1]], inlierIndices := [[0, 2], [3]] }

/-- A camera info for a 2 x 3 image with unit focal lengths. -/
def sampleCamInfo : CameraInfo :=
  { height := 3, width := 2, K := [1, 0, 1, 0, 1, 1, 0, 0, 1], D := [] }

/-- A camera info for a 4 x 4 image with other intrinsics. -/
def otherCamInfo : CameraInfo :=
  { height := 4, width := 4, K := [2, 0, 2, 0, 2, 2, 0, 0, 1], D := [] }

/-- A preprocessor whose lookup rows were built for the sample camera info. -/
def samplePreprocessor : ImagePreprocessor :=
  { lookupX := [-1, 0], lookupY := [-1, 0, 1], alpha := Mat.zeros 3 2,
    depth := [], color := [], cloud := PointCloud.empty,
    forceNewCloud := false, hasDepth := true, hasColor := true }

/-- A projection that returns the empty cloud. -/
def sampleProject (_depth _color : List (List Nat)) (_alpha : Mat)
    (_lookupX _lookupY : List ℚ) : PointCloud := PointCloud.empty

/-! ## Matrices: shape and cells -/

/-- A matrix whose buffer has the shape its header announces. -/
def Mat.WF (m : Mat) : Prop :=
  0 ≤ m.rows ∧ 0 ≤ m.cols ∧ m.data.length = m.rows.toNat ∧
    ∀ row ∈ m.data, row.length = m.cols.toNat

theorem Mat.zeros_WF (rows cols : Int) (hr : 0 ≤ rows) (hc : 0 ≤ cols) :
    (Mat.zeros rows cols).WF := by
  refine ⟨hr, hc, by simp [Mat.zeros], ?_⟩
  intro row hrow
  simp only [Mat.zeros] at hrow
  rw [List.eq_of_mem_replicate hrow]
  simp [Mat.zeros]

theorem Mat.zeros_at (rows cols y x : Int) : (Mat.zeros rows cols).at y x = 0 := by
  unfold Mat.at Mat.zeros
  split
  · simp only [List.getD_eq_getElem?_getD, List.getElem?_replicate]
    split
    · simp only [Option.getD_some, List.getElem?_replicate]
      split <;> rfl
    · rfl
  · rfl

theorem Mat.set_rows (m : Mat) (y x : Int) (v : Nat) : (m.set y x v).rows = m.rows := by
  unfold Mat.set; split <;> rfl

theorem Mat.set_cols (m : Mat) (y x : Int) (v : Nat) : (m.set y x v).cols = m.cols := by
  unfold Mat.set; split <;> rfl

theorem Mat.set_WF (m : Mat) (y x : Int) (v : Nat) (hm : m.WF) : (m.set y x v).WF := by
  obtain ⟨hr, hc, hlen, hrows⟩ := hm
  unfold Mat.set
  split
  · refine ⟨hr, hc, by simpa using hlen, ?_⟩
    intro row hrow
    simp only at hrow
    rcases List.mem_or_eq_of_mem_set hrow with h | h
    · exact hrows row h
    · subst h
      rw [List.length_set]
      rename_i hin
      have hy : y.toNat < m.data.length := by
        rw [hlen]; omega
      rw [List.getD_eq_getElem?_getD, List.getElem?_eq_getElem hy]
      exact hrows _ (List.getElem_mem hy)
  · exact ⟨hr, hc, hlen, hrows⟩

theorem Mat.at_set (m : Mat) (y x y1 x1 : Int) (v : Nat) (hm : m.WF)
    (hy : 0 ≤ y ∧ y < m.rows) (hx : 0 ≤ x ∧ x < m.cols)
    (hy1 : 0 ≤ y1) (hx1 : 0 ≤ x1) :
    (m.set y x v).at y1 x1 = if y1 = y ∧ x1 = x then v else m.at y1 x1 := by
  obtain ⟨hr, hc, hlen, hrows⟩ := hm
  have hyl : y.toNat < m.data.length := by rw [hlen]; omega
  have hrow : (m.data[y.toNat]).length = m.cols.toNat := hrows _ (List.getElem_mem hyl)
  have hxl : x.toNat < (m.data[y.toNat]).length := by rw [hrow]; omega
  have hs : m.set y x v =
      { m with data := m.data.set y.toNat ((m.data.getD y.toNat []).set x.toNat v) } := by
    unfold Mat.set
    rw [if_pos ⟨hy.1, hy.2, hx.1, hx.2⟩]
  have hat : ∀ m1 : Mat, m1.at y1 x1 = (m1.data[y1.toNat]?.getD [])[x1.toNat]?.getD 0 := by
    intro m1
    unfold Mat.at
    rw [if_pos ⟨hy1, hx1⟩]
    simp only [List.getD_eq_getElem?_getD]
  rw [hs, hat, hat]
  simp only [List.getD_eq_getElem?_getD, List.getElem?_set]
  by_cases hyy : y1 = y
  · subst hyy
    simp only [if_true, if_pos hyl, Option.getD_some, List.getElem?_set, true_and]
    rw [List.getElem?_eq_getElem hyl]
    simp only [Option.getD_some]
    by_cases hxx : x1 = x
    · subst hxx
      simp [hxl]
    · have hne : ¬ x.toNat = x1.toNat := by omega
      simp [hne, hxx]
  · have hne : ¬ y.toNat = y1.toNat := by omega
    simp [hne, hyy]

theorem Mat.roi_ok (m : Mat) (r : Rect) (hm : m.WF)
    (hx : 0 ≤ r.x) (hw : 0 ≤ r.width) (hxw : r.x + r.width ≤ m.cols)
    (hy : 0 ≤ r.y) (hh : 0 ≤ r.height) (hyh : r.y + r.height ≤ m.rows) :
    ∃ sub, m.roi r = .ok sub ∧ sub.rows = r.height ∧ sub.cols = r.width ∧
      sub.data.length = r.height.toNat ∧ (∀ row ∈ sub.data, row.length = r.width.toNat) ∧
      ∀ y1 x1 : Int, 0 ≤ y1 → y1 < r.height → 0 ≤ x1 → x1 < r.width →
        sub.at y1 x1 = m.at (y1 + r.y) (x1 + r.x) := by
  obtain ⟨hr, hc, hlen, hrows⟩ := hm
  refine ⟨_, by rw [Mat.roi, if_pos ⟨hx, hw, hxw, hy, hh, hyh⟩], rfl, rfl, ?_, ?_, ?_⟩
  · simp only [List.length_map, List.length_take, List.length_drop, hlen]
    omega
  · intro row hrow
    simp only [List.mem_map] at hrow
    obtain ⟨row0, hrow0, rfl⟩ := hrow
    have hmem : row0 ∈ m.data := List.mem_of_mem_drop (List.mem_of_mem_take hrow0)
    simp only [List.length_take, List.length_drop, hrows row0 hmem]
    omega
  · intro y1 x1 hy1 hy1h hx1 hx1w
    unfold Mat.at
    rw [if_pos ⟨hy1, hx1⟩, if_pos ⟨by omega, by omega⟩]
    have e1 : (y1 + r.y).toNat = r.y.toNat + y1.toNat := by omega
    have e2 : (x1 + r.x).toNat = r.x.toNat + x1.toNat := by omega
    have l1 : y1.toNat < r.height.toNat := by omega
    have l2 : x1.toNat < r.width.toNat := by omega
    simp only [List.getD_eq_getElem?_getD, List.getElem?_map, List.getElem?_take,
      List.getElem?_drop, if_pos l1, e1, e2]
    cases m.data[r.y.toNat + y1.toNat]? with
    | none => simp
    | some row => simp [List.getElem?_take, List.getElem?_drop, l2]

/-! ## The scan of getMask -/

theorem pixelX_eq (i w : Int) (hi : 0 ≤ i) (hw : 0 < w) : pixelX i w = i % w :=
  Int.tmod_eq_emod hi (le_of_lt hw)

theorem pixelY_eq (i w : Int) (hi : 0 ≤ i) (hw : 0 < w) : pixelY i w = i / w :=
  Int.tdiv_eq_ediv hi (le_of_lt hw)

theorem rowcol_unique (i w y x : Int) (hw : 0 < w) (hx : 0 ≤ x) (hxw : x < w) :
    (y = i / w ∧ x = i % w) ↔ y * w + x = i := by
  constructor
  · rintro ⟨rfl, rfl⟩
    have := Int.ediv_add_emod i w
    linarith [mul_comm w (i / w)]
  · rintro rfl
    have hne : w ≠ 0 := ne_of_gt hw
    constructor
    · rw [add_comm, Int.add_mul_ediv_right _ _ hne, Int.ediv_eq_zero_of_lt hx hxw, zero_add]
    · rw [add_comm, Int.add_mul_emod_self, Int.emod_eq_of_lt hx hxw]

theorem foldl_min_spec (f : Int → Int) (l : List Int) (m0 : Int) :
    l.foldl (fun m i => min m (f i)) m0 ≤ m0 ∧
    (∀ i ∈ l, l.foldl (fun m i => min m (f i)) m0 ≤ f i) ∧
    (l.foldl (fun m i => min m (f i)) m0 = m0 ∨
      ∃ i ∈ l, f i = l.foldl (fun m i => min m (f i)) m0) := by
  induction l generalizing m0 with
  | nil => simp
  | cons a t ih =>
    obtain ⟨h1, h2, h3⟩ := ih (min m0 (f a))
    simp only [List.foldl_cons, List.mem_cons, forall_eq_or_imp, exists_eq_or_imp]
    refine ⟨le_trans h1 (min_le_left _ _), ⟨le_trans h1 (min_le_right _ _), h2⟩, ?_⟩
    rcases h3 with h3 | h3
    · rcases min_choice m0 (f a) with hm | hm
      · left; rw [h3, hm]
      · right; left; rw [h3, hm]
    · right; right; exact h3

theorem foldl_max_spec (f : Int → Int) (l : List Int) (m0 : Int) :
    m0 ≤ l.foldl (fun m i => max m (f i)) m0 ∧
    (∀ i ∈ l, f i ≤ l.foldl (fun m i => max m (f i)) m0) ∧
    (l.foldl (fun m i => max m (f i)) m0 = m0 ∨
      ∃ i ∈ l, f i = l.foldl (fun m i => max m (f i)) m0) := by
  induction l generalizing m0 with
  | nil => simp
  | cons a t ih =>
    obtain ⟨h1, h2, h3⟩ := ih (max m0 (f a))
    simp only [List.foldl_cons, List.mem_cons, forall_eq_or_imp, exists_eq_or_imp]
    refine ⟨le_trans (le_max_left _ _) h1, ⟨le_trans (le_max_right _ _) h1, h2⟩, ?_⟩
    rcases h3 with h3 | h3
    · rcases max_choice m0 (f a) with hm | hm
      · left; rw [h3, hm]
      · right; left; rw [h3, hm]
    · right; right; exact h3

theorem scan_minX (size : Size) (l : List Int) (s : MaskScan) :
    (l.foldl (getMaskStep size) s).minX =
      l.foldl (fun m i => min m (pixelX i size.width)) s.minX := by
  induction l generalizing s with
  | nil => rfl
  | cons a t ih => simp only [List.foldl_cons, ih]; rfl

theorem scan_maxX (size : Size) (l : List Int) (s : MaskScan) :
    (l.foldl (getMaskStep size) s).maxX =
      l.foldl (fun m i => max m (pixelX i size.width)) s.maxX := by
  induction l generalizing s with
  | nil => rfl
  | cons a t ih => simp only [List.foldl_cons, ih]; rfl

theorem scan_minY (size : Size) (l : List Int) (s : MaskScan) :
    (l.foldl (getMaskStep size) s).minY =
      l.foldl (fun m i => min m (pixelY i size.width)) s.minY := by
  induction l generalizing s with
  | nil => rfl
  | cons a t ih => simp only [List.foldl_cons, ih]; rfl

theorem scan_maxY (size : Size) (l : List Int) (s : MaskScan) :
    (l.foldl (getMaskStep size) s).maxY =
      l.foldl (fun m i => max m (pixelY i size.width)) s.maxY := by
  induction l generalizing s with
  | nil => rfl
  | cons a t ih => simp only [List.foldl_cons, ih]; rfl

theorem scan_tmp (size : Size) (l : List Int) (s : MaskScan) (hw : 0 < size.width)
    (hWF : s.tmp.WF) (hrows : s.tmp.rows = size.height) (hcols : s.tmp.cols = size.width)
    (hl : ∀ i ∈ l, 0 ≤ i ∧ i < size.width * size.height) :
    (l.foldl (getMaskStep size) s).tmp.WF ∧
    (l.foldl (getMaskStep size) s).tmp.rows = size.height ∧
    (l.foldl (getMaskStep size) s).tmp.cols = size.width ∧
    ∀ y x : Int, 0 ≤ y → 0 ≤ x → x < size.width →
      (l.foldl (getMaskStep size) s).tmp.at y x =
        if y * size.width + x ∈ l then 255 else s.tmp.at y x := by
  induction l generalizing s with
  | nil => exact ⟨hWF, hrows, hcols, by simp⟩
  | cons a t ih =>
    have ha := hl a (List.mem_cons_self a t)
    have hyr : 0 ≤ pixelY a size.width ∧ pixelY a size.width < s.tmp.rows := by
      rw [pixelY_eq a _ ha.1 hw, hrows]
      refine ⟨Int.ediv_nonneg ha.1 (le_of_lt hw), Int.ediv_lt_of_lt_mul hw ?_⟩
      rw [mul_comm]; exact ha.2
    have hxr : 0 ≤ pixelX a size.width ∧ pixelX a size.width < s.tmp.cols := by
      rw [pixelX_eq a _ ha.1 hw, hcols]
      exact ⟨Int.emod_nonneg a (ne_of_gt hw), Int.emod_lt_of_pos a hw⟩
    have hstep : (getMaskStep size s a).tmp =
        s.tmp.set (pixelY a size.width) (pixelX a size.width) 255 := rfl
    obtain ⟨h1, h2, h3, h4⟩ := ih (getMaskStep size s a)
      (by rw [hstep]; exact Mat.set_WF _ _ _ _ hWF)
      (by rw [hstep, Mat.set_rows]; exact hrows)
      (by rw [hstep, Mat.set_cols]; exact hcols)
      (fun i hi => hl i (List.mem_cons_of_mem a hi))
    refine ⟨h1, h2, h3, ?_⟩
    intro y x hy hx hxw
    simp only [List.foldl_cons]
    rw [h4 y x hy hx hxw, hstep, Mat.at_set _ _ _ _ _ _ hWF hyr hxr hy hx,
      pixelY_eq a _ ha.1 hw, pixelX_eq a _ ha.1 hw]
    have huniq := rowcol_unique a size.width y x hw hx hxw
    by_cases hmem : y * size.width + x ∈ t
    · rw [if_pos hmem, if_pos (List.mem_cons_of_mem a hmem)]
    · rw [if_neg hmem]
      by_cases heq : y * size.width + x = a
      · rw [if_pos (huniq.mpr heq), if_pos (by rw [heq]; exact List.mem_cons_self a t)]
      · have hn : ¬ (y = a / size.width ∧ x = a % size.width) := fun h => heq (huniq.mp h)
        have hnm : ¬ y * size.width + x ∈ a :: t := by
          intro hc
          rcases List.mem_cons.mp hc with h | h
          · exact heq h
          · exact hmem h
        rw [if_neg hn, if_neg hnm]

/-- Running minimum from a start value above every `f i`: attained on a non-empty list. -/
theorem foldl_min_attained (f : Int → Int) (l : List Int) (m0 : Int) (hne : l ≠ [])
    (hlt : ∀ i ∈ l, f i < m0) :
    (∀ i ∈ l, l.foldl (fun m i => min m (f i)) m0 ≤ f i) ∧
    ∃ i ∈ l, f i = l.foldl (fun m i => min m (f i)) m0 := by
  obtain ⟨h1, h2, h3⟩ := foldl_min_spec f l m0
  refine ⟨h2, ?_⟩
  rcases h3 with h3 | h3
  · obtain ⟨a, ha⟩ := List.exists_mem_of_ne_nil l hne
    have := h2 a ha
    have := hlt a ha
    omega
  · exact h3

/-- Running maximum from a start value below every `f i`: attained on a non-empty list. -/
theorem foldl_max_attained (f : Int → Int) (l : List Int) (m0 : Int) (hne : l ≠ [])
    (hle : ∀ i ∈ l, m0 ≤ f i) :
    (∀ i ∈ l, f i ≤ l.foldl (fun m i => max m (f i)) m0) ∧
    ∃ i ∈ l, f i = l.foldl (fun m i => max m (f i)) m0 := by
  obtain ⟨h1, h2, h3⟩ := foldl_max_spec f l m0
  refine ⟨h2, ?_⟩
  rcases h3 with h3 | h3
  · obtain ⟨a, ha⟩ := List.exists_mem_of_ne_nil l hne
    refine ⟨a, ha, ?_⟩
    have := h2 a ha
    have := hle a ha
    omega
  · exact h3

theorem inlier_col_row (w h i : Int) (hw : 0 < w) (hi : 0 ≤ i ∧ i < w * h) :
    0 ≤ i % w ∧ i % w < w ∧ 0 ≤ i / w ∧ i / w < h :=
  ⟨Int.emod_nonneg i (ne_of_gt hw), Int.emod_lt_of_pos i hw,
    Int.ediv_nonneg hi.1 (le_of_lt hw),
    Int.ediv_lt_of_lt_mul hw (by rw [mul_comm]; exact hi.2)⟩

/-- The rectangle of `getMask` is the bounding box of the inlier pixels. -/
theorem getMaskRoi_spec (w h : Int) (inliers : List Int) (hw : 0 < w) (hne : inliers ≠ [])
    (hin : ∀ i ∈ inliers, 0 ≤ i ∧ i < w * h) :
    (∀ i ∈ inliers,
      (getMaskRoi inliers ⟨w, h⟩).x ≤ i % w ∧
      i % w ≤ (getMaskRoi inliers ⟨w, h⟩).x + (getMaskRoi inliers ⟨w, h⟩).width - 1 ∧
      (getMaskRoi inliers ⟨w, h⟩).y ≤ i / w ∧
      i / w ≤ (getMaskRoi inliers ⟨w, h⟩).y + (getMaskRoi inliers ⟨w, h⟩).height - 1) ∧
    (∃ i ∈ inliers, i % w = (getMaskRoi inliers ⟨w, h⟩).x) ∧
    (∃ i ∈ inliers,
      i % w = (getMaskRoi inliers ⟨w, h⟩).x + (getMaskRoi inliers ⟨w, h⟩).width - 1) ∧
    (∃ i ∈ inliers, i / w = (getMaskRoi inliers ⟨w, h⟩).y) ∧
    (∃ i ∈ inliers,
      i / w = (getMaskRoi inliers ⟨w, h⟩).y + (getMaskRoi inliers ⟨w, h⟩).height - 1) := by
  have hX : ∀ i ∈ inliers, pixelX i w = i % w := fun i hi => pixelX_eq i w (hin i hi).1 hw
  have hY : ∀ i ∈ inliers, pixelY i w = i / w := fun i hi => pixelY_eq i w (hin i hi).1 hw
  have hcr := fun i hi => inlier_col_row w h i hw (hin i hi)
  obtain ⟨a1, a2⟩ := foldl_min_attained (fun i => pixelX i w) inliers w hne
    (fun i hi => by show pixelX i w < w; rw [hX i hi]; exact (hcr i hi).2.1)
  obtain ⟨b1, b2⟩ := foldl_max_attained (fun i => pixelX i w) inliers 0 hne
    (fun i hi => by show 0 ≤ pixelX i w; rw [hX i hi]; exact (hcr i hi).1)
  obtain ⟨c1, c2⟩ := foldl_min_attained (fun i => pixelY i w) inliers h hne
    (fun i hi => by show pixelY i w < h; rw [hY i hi]; exact (hcr i hi).2.2.2)
  obtain ⟨d1, d2⟩ := foldl_max_attained (fun i => pixelY i w) inliers 0 hne
    (fun i hi => by show 0 ≤ pixelY i w; rw [hY i hi]; exact (hcr i hi).2.2.1)
  have ex : (getMaskRoi inliers ⟨w, h⟩).x =
      inliers.foldl (fun m i => min m (pixelX i w)) w := by
    simp only [getMaskRoi, getMaskScan, scan_minX]; rfl
  have ey : (getMaskRoi inliers ⟨w, h⟩).y =
      inliers.foldl (fun m i => min m (pixelY i w)) h := by
    simp only [getMaskRoi, getMaskScan, scan_minY]; rfl
  have ew : (getMaskRoi inliers ⟨w, h⟩).x + (getMaskRoi inliers ⟨w, h⟩).width - 1 =
      inliers.foldl (fun m i => max m (pixelX i w)) 0 := by
    simp only [getMaskRoi, getMaskScan, scan_minX, scan_maxX, getMaskInit]; ring
  have eh : (getMaskRoi inliers ⟨w, h⟩).y + (getMaskRoi inliers ⟨w, h⟩).height - 1 =
      inliers.foldl (fun m i => max m (pixelY i w)) 0 := by
    simp only [getMaskRoi, getMaskScan, scan_minY, scan_maxY, getMaskInit]; ring
  rw [ew, eh, ex, ey]
  refine ⟨fun i hi => ⟨?_, ?_, ?_, ?_⟩, ?_, ?_, ?_, ?_⟩
  · rw [← hX i hi]; exact a1 i hi
  · rw [← hX i hi]; exact b1 i hi
  · rw [← hY i hi]; exact c1 i hi
  · rw [← hY i hi]; exact d1 i hi
  · obtain ⟨i, hi, e⟩ := a2; exact ⟨i, hi, by rw [← hX i hi]; exact e⟩
  · obtain ⟨i, hi, e⟩ := b2; exact ⟨i, hi, by rw [← hX i hi]; exact e⟩
  · obtain ⟨i, hi, e⟩ := c2; exact ⟨i, hi, by rw [← hY i hi]; exact e⟩
  · obtain ⟨i, hi, e⟩ := d2; exact ⟨i, hi, by rw [← hY i hi]; exact e⟩

/-- The rectangle of `getMask` lies inside the grid. -/
theorem getMaskRoi_bounds (w h : Int) (inliers : List Int) (hw : 0 < w) (hne : inliers ≠ [])
    (hin : ∀ i ∈ inliers, 0 ≤ i ∧ i < w * h) :
    0 ≤ (getMaskRoi inliers ⟨w, h⟩).x ∧ 1 ≤ (getMaskRoi inliers ⟨w, h⟩).width ∧
    (getMaskRoi inliers ⟨w, h⟩).x + (getMaskRoi inliers ⟨w, h⟩).width ≤ w ∧
    0 ≤ (getMaskRoi inliers ⟨w, h⟩).y ∧ 1 ≤ (getMaskRoi inliers ⟨w, h⟩).height ∧
    (getMaskRoi inliers ⟨w, h⟩).y + (getMaskRoi inliers ⟨w, h⟩).height ≤ h := by
  obtain ⟨hall, ⟨i1, m1, e1⟩, ⟨i2, m2, e2⟩, ⟨i3, m3, e3⟩, ⟨i4, m4, e4⟩⟩ :=
    getMaskRoi_spec w h inliers hw hne hin
  have q1 := inlier_col_row w h i1 hw (hin i1 m1)
  have q2 := inlier_col_row w h i2 hw (hin i2 m2)
  have q3 := inlier_col_row w h i3 hw (hin i3 m3)
  have q4 := inlier_col_row w h i4 hw (hin i4 m4)
  have r1 := hall i1 m1
  have r3 := hall i3 m3
  refine ⟨?_, ?_, ?_, ?_, ?_, ?_⟩ <;> omega

/-- On a non-empty in-range inlier list `getMask` returns, and the mask is the window
of the scanned image under the rectangle. -/
theorem getMask_ok (w h : Int) (inliers : List Int) (hw : 0 < w) (hne : inliers ≠ [])
    (hin : ∀ i ∈ inliers, 0 ≤ i ∧ i < w * h) :
    ∃ mask, getMask inliers ⟨w, h⟩ = .ok (mask, getMaskRoi inliers ⟨w, h⟩) ∧
      mask.rows = (getMaskRoi inliers ⟨w, h⟩).height ∧
      mask.cols = (getMaskRoi inliers ⟨w, h⟩).width ∧
      mask.data.length = (getMaskRoi inliers ⟨w, h⟩).height.toNat ∧
      (∀ row ∈ mask.data, row.length = (getMaskRoi inliers ⟨w, h⟩).width.toNat) ∧
      ∀ r c : Int, 0 ≤ r → r < (getMaskRoi inliers ⟨w, h⟩).height →
        0 ≤ c → c < (getMaskRoi inliers ⟨w, h⟩).width →
        mask.at r c =
          if (r + (getMaskRoi inliers ⟨w, h⟩).y) * w + (c + (getMaskRoi inliers ⟨w, h⟩).x)
              ∈ inliers then 255 else 0 := by
  obtain ⟨b1, b2, b3, b4, b5, b6⟩ := getMaskRoi_bounds w h inliers hw hne hin
  have hh : 0 ≤ h := by omega
  obtain ⟨t1, t2, t3, t4⟩ := scan_tmp ⟨w, h⟩ inliers (getMaskInit ⟨w, h⟩) hw
    (Mat.zeros_WF h w hh (le_of_lt hw)) rfl rfl hin
  obtain ⟨sub, s1, s2, s3, s4, s5, s6⟩ :=
    Mat.roi_ok (getMaskScan inliers ⟨w, h⟩).tmp (getMaskRoi inliers ⟨w, h⟩) t1
      b1 (by omega) (by rw [getMaskScan, t3]; exact b3)
      b4 (by omega) (by rw [getMaskScan, t2]; exact b6)
  refine ⟨sub, ?_, s2, s3, s4, s5, ?_⟩
  · simp only [getMask, s1]
  · intro r c hr hrh hc hcw
    rw [s6 r c hr hrh hc hcw]
    have := t4 (r + (getMaskRoi inliers ⟨w, h⟩).y) (c + (getMaskRoi inliers ⟨w, h⟩).x)
      (by omega) (by omega) (by simp only at b3 ⊢; omega)
    simp only [getMaskScan] at this ⊢
    rw [this]
    simp only [getMaskInit, Mat.zeros_at]

/-! ## Claims on getMask -/

/-- C1: on a grid of width `w > 0` and height `h`, for a non-empty inlier list with
indices in `[0, w*h)`, `getMask` returns a mask with `roi.height` rows and `roi.width`
columns, and mask cell `(r, c)` is 255 exactly when the linear index
`(r + roi.y) * w + (c + roi.x)` is an inlier, and 0 otherwise. -/
theorem getMask_mask_iff_inlier (w h : Int) (inliers : List Int) (hw : 0 < w)
    (hne : inliers ≠ []) (hin : ∀ i ∈ inliers, 0 ≤ i ∧ i < w * h) :
    ∃ mask roi, getMask inliers ⟨w, h⟩ = .ok (mask, roi) ∧
      mask.rows = roi.height ∧ mask.cols = roi.width ∧
      mask.data.length = roi.height.toNat ∧
      (∀ row ∈ mask.data, row.length = roi.width.toNat) ∧
      ∀ r c : Int, 0 ≤ r → r < roi.height → 0 ≤ c → c < roi.width →
        (mask.at r c = 255 ↔ (r + roi.y) * w + (c + roi.x) ∈ inliers) ∧
        ((r + roi.y) * w + (c + roi.x) ∉ inliers → mask.at r c = 0) := by
  obtain ⟨mask, h1, h2, h3, h4, h5, h6⟩ := getMask_ok w h inliers hw hne hin
  refine ⟨mask, _, h1, h2, h3, h4, h5, ?_⟩
  intro r c hr hrh hc hcw
  rw [h6 r c hr hrh hc hcw]
  constructor
  · constructor
    · intro hv
      by_contra hmem
      rw [if_neg hmem] at hv
      exact absurd hv (by decide)
    · intro hmem
      rw [if_pos hmem]
  · intro hmem
    rw [if_neg hmem]

theorem getMask_mask_iff_inlier_witness :
    (0 : Int) < 4 ∧ ([5, 7, 10] : List Int) ≠ [] ∧
    (∀ i ∈ ([5, 7, 10] : List Int), 0 ≤ i ∧ i < 4 * 3) ∧
    ∃ mask roi, getMask [5, 7, 10] ⟨4, 3⟩ = .ok (mask, roi) ∧
      mask.rows = roi.height ∧ mask.cols = roi.width ∧
      mask.data.length = roi.height.toNat ∧
      (∀ row ∈ mask.data, row.length = roi.width.toNat) ∧
      ∀ r c : Int, 0 ≤ r → r < roi.height → 0 ≤ c → c < roi.width →
        (mask.at r c = 255 ↔ (r + roi.y) * 4 + (c + roi.x) ∈ ([5, 7, 10] : List Int)) ∧
        ((r + roi.y) * 4 + (c + roi.x) ∉ ([5, 7, 10] : List Int) → mask.at r c = 0) :=
  ⟨by decide, by decide, by decide,
    getMask_mask_iff_inlier 4 3 [5, 7, 10] (by decide) (by decide) (by decide)⟩

/-- C2: on a grid of width `w > 0`, for a non-empty inlier list with indices in
`[0, w*h)`, the rectangle returned by `getMask` is
`(minCol, minRow, maxCol - minCol + 1, maxRow - minRow + 1)`, where `minCol`, `maxCol`
bound the columns `i % w` of the inliers and are attained, and `minRow`, `maxRow` bound
the rows `i / w` and are attained: every inlier lies inside the rectangle and each of
its four border lines holds an inlier. -/
theorem getMask_roi_bounding_box (w h : Int) (inliers : List Int) (hw : 0 < w)
    (hne : inliers ≠ []) (hin : ∀ i ∈ inliers, 0 ≤ i ∧ i < w * h) :
    ∃ mask roi minCol maxCol minRow maxRow,
      getMask inliers ⟨w, h⟩ = .ok (mask, roi) ∧
      roi = ⟨minCol, minRow, maxCol - minCol + 1, maxRow - minRow + 1⟩ ∧
      (∀ i ∈ inliers, minCol ≤ i % w ∧ i % w ≤ maxCol ∧ minRow ≤ i / w ∧ i / w ≤ maxRow) ∧
      (∃ i ∈ inliers, i % w = minCol) ∧ (∃ i ∈ inliers, i % w = maxCol) ∧
      (∃ i ∈ inliers, i / w = minRow) ∧ (∃ i ∈ inliers, i / w = maxRow) ∧
      (∀ i ∈ inliers, roi.x ≤ pixelX i w ∧ pixelX i w < roi.x + roi.width ∧
        roi.y ≤ pixelY i w ∧ pixelY i w < roi.y + roi.height) ∧
      (∃ i ∈ inliers, pixelX i w = roi.x) ∧
      (∃ i ∈ inliers, pixelX i w = roi.x + roi.width - 1) ∧
      (∃ i ∈ inliers, pixelY i w = roi.y) ∧
      (∃ i ∈ inliers, pixelY i w = roi.y + roi.height - 1) := by
  obtain ⟨mask, h1, -⟩ := getMask_ok w h inliers hw hne hin
  obtain ⟨hall, e1, e2, e3, e4⟩ := getMaskRoi_spec w h inliers hw hne hin
  have hX : ∀ i ∈ inliers, pixelX i w = i % w := fun i hi => pixelX_eq i w (hin i hi).1 hw
  have hY : ∀ i ∈ inliers, pixelY i w = i / w := fun i hi => pixelY_eq i w (hin i hi).1 hw
  refine ⟨mask, getMaskRoi inliers ⟨w, h⟩, (getMaskRoi inliers ⟨w, h⟩).x,
    (getMaskRoi inliers ⟨w, h⟩).x + (getMaskRoi inliers ⟨w, h⟩).width - 1,
    (getMaskRoi inliers ⟨w, h⟩).y,
    (getMaskRoi inliers ⟨w, h⟩).y + (getMaskRoi inliers ⟨w, h⟩).height - 1,
    h1, ?_, hall, e1, e2, e3, e4, ?_, ?_, ?_, ?_, ?_⟩
  · cases hroi : getMaskRoi inliers ⟨w, h⟩ with
    | mk x y width height =>
      simp only [Rect.mk.injEq, true_and]
      constructor <;> ring
  · intro i hi
    have := hall i hi
    rw [hX i hi, hY i hi]
    refine ⟨this.1, ?_, this.2.2.1, ?_⟩ <;> omega
  · obtain ⟨i, hi, e⟩ := e1; exact ⟨i, hi, by rw [hX i hi]; exact e⟩
  · obtain ⟨i, hi, e⟩ := e2; exact ⟨i, hi, by rw [hX i hi]; exact e⟩
  · obtain ⟨i, hi, e⟩ := e3; exact ⟨i, hi, by rw [hY i hi]; exact e⟩
  · obtain ⟨i, hi, e⟩ := e4; exact ⟨i, hi, by rw [hY i hi]; exact e⟩

theorem getMask_roi_bounding_box_witness :
    (0 : Int) < 4 ∧ ([5, 7, 10] : List Int) ≠ [] ∧
    (∀ i ∈ ([5, 7, 10] : List Int), 0 ≤ i ∧ i < 4 * 3) ∧
    ∃ mask roi minCol maxCol minRow maxRow,
      getMask [5, 7, 10] ⟨4, 3⟩ = .ok (mask, roi) ∧
      roi = ⟨minCol, minRow, maxCol - minCol + 1, maxRow - minRow + 1⟩ ∧
      (∀ i ∈ ([5, 7, 10] : List Int),
        minCol ≤ i % 4 ∧ i % 4 ≤ maxCol ∧ minRow ≤ i / 4 ∧ i / 4 ≤ maxRow) ∧
      (∃ i ∈ ([5, 7, 10] : List Int), i % 4 = minCol) ∧
      (∃ i ∈ ([5, 7, 10] : List Int), i % 4 = maxCol) ∧
      (∃ i ∈ ([5, 7, 10] : List Int), i / 4 = minRow) ∧
      (∃ i ∈ ([5, 7, 10] : List Int), i / 4 = maxRow) ∧
      (∀ i ∈ ([5, 7, 10] : List Int), roi.x ≤ pixelX i 4 ∧ pixelX i 4 < roi.x + roi.width ∧
        roi.y ≤ pixelY i 4 ∧ pixelY i 4 < roi.y + roi.height) ∧
      (∃ i ∈ ([5, 7, 10] : List Int), pixelX i 4 = roi.x) ∧
      (∃ i ∈ ([5, 7, 10] : List Int), pixelX i 4 = roi.x + roi.width - 1) ∧
      (∃ i ∈ ([5, 7, 10] : List Int), pixelY i 4 = roi.y) ∧
      (∃ i ∈ ([5, 7, 10] : List Int), pixelY i 4 = roi.y + roi.height - 1) :=
  ⟨by decide, by decide, by decide,
    getMask_roi_bounding_box 4 3 [5, 7, 10] (by decide) (by decide) (by decide)⟩

/-- C3: for a width `w > 0` and an index `i ≥ 0`, the coordinates `getMask` computes are
`row = i / w` and `col = i % w`; they satisfy `row * w + col = i` and `0 ≤ col < w`,
`row < h` whenever `i < w * h`, and the conversion undoes the linear index formula.
`drawImageWithLock` computes the same pair on unsigned values. -/
theorem pixel_rowcol_inverse (w i : Int) (hw : 0 < w) (hi : 0 ≤ i) :
    pixelY i w = i / w ∧ pixelX i w = i % w ∧
    pixelY i w * w + pixelX i w = i ∧
    0 ≤ pixelX i w ∧ pixelX i w < w ∧ 0 ≤ pixelY i w ∧
    (∀ h : Int, i < w * h → pixelY i w < h) ∧
    (∀ row col : Int, 0 ≤ row → 0 ≤ col → col < w →
      pixelY (row * w + col) w = row ∧ pixelX (row * w + col) w = col) ∧
    drawRowCol i.toNat w.toNat = ((pixelY i w).toNat, (pixelX i w).toNat) := by
  have hX := pixelX_eq i w hi hw
  have hY := pixelY_eq i w hi hw
  refine ⟨hY, hX, ?_, ?_, ?_, ?_, ?_, ?_, ?_⟩
  · rw [hX, hY]
    exact (rowcol_unique i w (i / w) (i % w) hw (Int.emod_nonneg i (ne_of_gt hw))
      (Int.emod_lt_of_pos i hw)).mp ⟨rfl, rfl⟩
  · rw [hX]; exact Int.emod_nonneg i (ne_of_gt hw)
  · rw [hX]; exact Int.emod_lt_of_pos i hw
  · rw [hY]; exact Int.ediv_nonneg hi (le_of_lt hw)
  · intro h hlt
    rw [hY]
    exact Int.ediv_lt_of_lt_mul hw (by rw [mul_comm]; exact hlt)
  · intro row col hrow hcol hcw
    have hnn : 0 ≤ row * w + col := add_nonneg (mul_nonneg hrow (le_of_lt hw)) hcol
    rw [pixelX_eq _ w hnn hw, pixelY_eq _ w hnn hw]
    have := (rowcol_unique (row * w + col) w row col hw hcol hcw).mpr rfl
    exact ⟨this.1.symm, this.2.symm⟩
  · rw [hX, hY]
    obtain ⟨n, rfl⟩ := Int.eq_ofNat_of_zero_le hi
    obtain ⟨m, rfl⟩ := Int.eq_ofNat_of_zero_le (le_of_lt hw)
    simp only [drawRowCol, Int.toNat_ofNat]
    rw [← Int.ofNat_ediv, ← Int.ofNat_emod]
    simp only [Int.toNat_ofNat]

theorem pixel_rowcol_inverse_witness :
    (0 : Int) < 4 ∧ (0 : Int) ≤ 10 ∧
    (pixelY 10 4 = 10 / 4 ∧ pixelX 10 4 = 10 % 4 ∧
    pixelY 10 4 * 4 + pixelX 10 4 = 10 ∧
    0 ≤ pixelX 10 4 ∧ pixelX 10 4 < 4 ∧ 0 ≤ pixelY 10 4 ∧
    (∀ h : Int, 10 < 4 * h → pixelY 10 4 < h) ∧
    (∀ row col : Int, 0 ≤ row → 0 ≤ col → col < 4 →
      pixelY (row * 4 + col) 4 = row ∧ pixelX (row * 4 + col) 4 = col) ∧
    drawRowCol (10 : Int).toNat (4 : Int).toNat =
      ((pixelY 10 4).toNat, (pixelX 10 4).toNat)) :=
  ⟨by decide, by decide, pixel_rowcol_inverse 4 10 (by decide) (by decide)⟩

/-- C4 (counterexample): on the 4 x 3 grid the empty inlier list makes `getMask`
compute the rectangle `(4, 3, -3, -2)` and the extraction `tmp(roi)` raises the
OpenCV error; no mask is returned. -/
theorem getMask_empty_raises :
    getMaskRoi [] ⟨4, 3⟩ = ⟨4, 3, -3, -2⟩ ∧
    getMask [] ⟨4, 3⟩ = .error CvError.roiOutOfRange ∧
    ¬ ∃ mask roi, getMask [] ⟨4, 3⟩ = .ok (mask, roi) := by
  refine ⟨by decide, by decide, ?_⟩
  rintro ⟨mask, roi, h⟩
  have he : getMask [] ⟨4, 3⟩ = .error CvError.roiOutOfRange := by decide
  rw [he] at h
  exact absurd h (by simp)

/-- C4 (amended): on a grid of width `w ≥ 0` and height `h ≥ 0` the empty inlier list
makes `getMask` compute the rectangle `(w, h, 1 - w, 1 - h)`, whose width or height is
non-positive unless the grid is 0 x 0; on the 1 x 1 grid `getMask` returns the empty
mask with the rectangle `(1, 1, 0, 0)`, and on every other grid the extraction
`tmp(roi)` raises the OpenCV error. -/
theorem getMask_empty (w h : Int) (hw : 0 ≤ w) (hh : 0 ≤ h) :
    getMaskRoi [] ⟨w, h⟩ = ⟨w, h, 1 - w, 1 - h⟩ ∧
    (¬ (w = 0 ∧ h = 0) →
      (getMaskRoi [] ⟨w, h⟩).width ≤ 0 ∨ (getMaskRoi [] ⟨w, h⟩).height ≤ 0) ∧
    (w = 1 ∧ h = 1 → getMask [] ⟨w, h⟩ = .ok (⟨0, 0, []⟩, ⟨1, 1, 0, 0⟩)) ∧
    (¬ (w = 1 ∧ h = 1) → getMask [] ⟨w, h⟩ = .error CvError.roiOutOfRange) := by
  have hroi : getMaskRoi [] ⟨w, h⟩ = ⟨w, h, 1 - w, 1 - h⟩ := by
    simp only [getMaskRoi, getMaskScan, getMaskInit, List.foldl_nil, Rect.mk.injEq, true_and]
    constructor <;> ring
  refine ⟨hroi, ?_, ?_, ?_⟩
  · intro hne
    rw [hroi]
    simp only
    omega
  · rintro ⟨rfl, rfl⟩
    decide
  · intro hne
    simp only [getMask, hroi, getMaskScan, getMaskInit, List.foldl_nil, Mat.roi, Mat.zeros]
    rw [if_neg]
    intro hc
    apply hne
    omega

theorem getMask_empty_witness :
    (0 : Int) ≤ 4 ∧ (0 : Int) ≤ 3 ∧
    (getMaskRoi [] ⟨4, 3⟩ = ⟨4, 3, 1 - 4, 1 - 3⟩ ∧
    (¬ ((4 : Int) = 0 ∧ (3 : Int) = 0) →
      (getMaskRoi [] ⟨4, 3⟩).width ≤ 0 ∨ (getMaskRoi [] ⟨4, 3⟩).height ≤ 0) ∧
    ((4 : Int) = 1 ∧ (3 : Int) = 1 → getMask [] ⟨4, 3⟩ = .ok (⟨0, 0, []⟩, ⟨1, 1, 0, 0⟩)) ∧
    (¬ ((4 : Int) = 1 ∧ (3 : Int) = 1) →
      getMask [] ⟨4, 3⟩ = .error CvError.roiOutOfRange)) :=
  ⟨by decide, by decide, getMask_empty 4 3 (by decide) (by decide)⟩

/-! ## The index mapping of the single-plane fitter -/

theorem removeNaNLoop_snd (pts : List PointXYZRGBA) (i0 : Int) :
    ((removeNaNLoop pts i0).map Prod.snd).Pairwise (· < ·) ∧
    ∀ j ∈ (removeNaNLoop pts i0).map Prod.snd, i0 ≤ j ∧ j < i0 + pts.length ∧
      ∃ p, pts[(j - i0).toNat]? = some p ∧ p.isFinite = true := by
  induction pts generalizing i0 with
  | nil => simp [removeNaNLoop]
  | cons p ps ih =>
    obtain ⟨ih1, ih2⟩ := ih (i0 + 1)
    have tail : ∀ j ∈ (removeNaNLoop ps (i0 + 1)).map Prod.snd,
        i0 < j ∧ i0 ≤ j ∧ j < i0 + ((p :: ps).length : Int) ∧
          ∃ q, (p :: ps)[(j - i0).toNat]? = some q ∧ q.isFinite = true := by
      intro j hj
      obtain ⟨a, b, q, hq, hfin⟩ := ih2 j hj
      refine ⟨by omega, by omega, by simp only [List.length_cons]; push_cast; omega,
        q, ?_, hfin⟩
      have e : (j - i0).toNat = (j - (i0 + 1)).toNat + 1 := by omega
      rw [e, List.getElem?_cons_succ]
      exact hq
    by_cases hp : p.isFinite = true
    · simp only [removeNaNLoop, hp, if_true, List.map_cons, List.pairwise_cons,
        List.mem_cons, forall_eq_or_imp]
      refine ⟨⟨fun j hj => (tail j hj).1, ih1⟩, ⟨le_refl _, ?_, p, ?_, hp⟩,
        fun j hj => (tail j hj).2⟩
      · simp only [List.length_cons]; push_cast; omega
      · simp
    · simp only [removeNaNLoop, hp]
      exact ⟨ih1, fun j hj => (tail j hj).2⟩

theorem removeNaN_lengths (cloud : PointCloud) :
    (removeNaNFromPointCloud cloud).2.length = (removeNaNFromPointCloud cloud).1.length := by
  simp [removeNaNFromPointCloud]

theorem vecAt_eq (v : List Int) (i : Int) (h0 : 0 ≤ i) (hlt : i.toNat < v.length) :
    vecAt v i = v[i.toNat] := by
  unfold vecAt
  rw [if_pos h0, List.getD_eq_getElem v 0 hlt]

/-- Every remapped index is a position of the original cloud that holds a finite point. -/
theorem remap_mem (cloud : PointCloud) (l : List Int)
    (hl : ∀ i ∈ l, 0 ≤ i ∧ i < ((removeNaNFromPointCloud cloud).1.length : Int)) :
    ∀ j ∈ l.map (vecAt (removeNaNFromPointCloud cloud).2),
      0 ≤ j ∧ j < (cloud.points.length : Int) ∧ cloud.validAt j = true := by
  intro j hj
  obtain ⟨i, hi, rfl⟩ := List.mem_map.mp hj
  obtain ⟨h0, h1⟩ := hl i hi
  rw [← removeNaN_lengths] at h1
  have hlt : i.toNat < (removeNaNFromPointCloud cloud).2.length := by omega
  rw [vecAt_eq _ i h0 hlt]
  obtain ⟨a, b, q, hq, hfin⟩ := (removeNaNLoop_snd cloud.points 0).2 _ (List.getElem_mem hlt)
  refine ⟨a, by omega, ?_⟩
  simp only [sub_zero] at hq
  simp only [PointCloud.validAt, hq, hfin, a, decide_True, Bool.and_self]

/-- Remapping a strictly increasing list of compact indices gives a strictly
increasing list. -/
theorem remap_sorted (cloud : PointCloud) (l : List Int)
    (hl : ∀ i ∈ l, 0 ≤ i ∧ i < ((removeNaNFromPointCloud cloud).1.length : Int))
    (hs : l.Sorted (· < ·)) :
    (l.map (vecAt (removeNaNFromPointCloud cloud).2)).Sorted (· < ·) := by
  have hpw := (removeNaNLoop_snd cloud.points 0).1
  rw [List.pairwise_iff_getElem] at hpw
  unfold List.Sorted
  rw [List.pairwise_map]
  refine List.Pairwise.imp_of_mem ?_ hs
  intro a b ha hb hab
  obtain ⟨a0, a1⟩ := hl a ha
  obtain ⟨b0, b1⟩ := hl b hb
  rw [← removeNaN_lengths] at a1 b1
  have la : a.toNat < (removeNaNFromPointCloud cloud).2.length := by omega
  have lb : b.toNat < (removeNaNFromPointCloud cloud).2.length := by omega
  rw [vecAt_eq _ a a0 la, vecAt_eq _ b b0 lb]
  exact hpw a.toNat b.toNat la lb (by omega)

theorem sorted_inliers_mem (l : List Int) (i : Int) :
    i ∈ l.insertionSort (· ≤ ·) ↔ i ∈ l :=
  (List.perm_insertionSort (· ≤ ·) l).mem_iff

theorem sorted_inliers_ne_nil (l : List Int) :
    (l.insertionSort (· ≤ ·)).length = 0 ↔ l = [] := by
  rw [List.length_insertionSort, List.length_eq_zero]

/-- With an organized cloud and a non-empty solver result that indexes the filtered
cloud, `estimateFromPCL` appends one plane holding the remapped sorted inliers. -/
theorem estimateFromPCL_emits (self : PlaneAnnotator) (cas : CAS) (scene : Scene)
    (segment : List PointXYZRGBA → SacResult)
    (horg : cas.getCloud.points.length = cas.getCloud.width * cas.getCloud.height)
    (hidx : ∀ i ∈ (segment (removeNaNFromPointCloud cas.getCloud).1).inliers,
      0 ≤ i ∧ i < ((removeNaNFromPointCloud cas.getCloud).1.length : Int))
    (hne : (segment (removeNaNFromPointCloud cas.getCloud).1).inliers ≠ []) :
    ∃ plane mask roi,
      (estimateFromPCL self cas scene segment).scene = scene.append plane ∧
      (estimateFromPCL self cas scene segment).thrown = none ∧
      (estimateFromPCL self cas scene segment).self.foundPlane = true ∧
      (estimateFromPCL self cas scene segment).self.plane_inliers =
        ((segment (removeNaNFromPointCloud cas.getCloud).1).inliers.insertionSort
          (· ≤ ·)).map (vecAt (removeNaNFromPointCloud cas.getCloud).2) ∧
      plane.inliers = some (estimateFromPCL self cas scene segment).self.plane_inliers ∧
      plane.model = some
        [(segment (removeNaNFromPointCloud cas.getCloud).1).coefficients.getD 0 0,
         (segment (removeNaNFromPointCloud cas.getCloud).1).coefficients.getD 1 0,
         (segment (removeNaNFromPointCloud cas.getCloud).1).coefficients.getD 2 0,
         (segment (removeNaNFromPointCloud cas.getCloud).1).coefficients.getD 3 0] ∧
      plane.roi = some roi ∧ plane.mask = some mask ∧
      getMask (estimateFromPCL self cas scene segment).self.plane_inliers
        cas.getCloud.size = .ok (mask, roi) := by
  set cloud := cas.getCloud with hcloud
  set res := segment (removeNaNFromPointCloud cloud).1 with hres
  set sorted := res.inliers.insertionSort (· ≤ ·) with hsorted
  set final := sorted.map (vecAt (removeNaNFromPointCloud cloud).2) with hfinal
  have hsidx : ∀ i ∈ sorted, 0 ≤ i ∧ i < ((removeNaNFromPointCloud cloud).1.length : Int) :=
    fun i hi => hidx i ((sorted_inliers_mem _ i).mp hi)
  have hmem := remap_mem cloud sorted hsidx
  have hlen : ¬ sorted.length = 0 := fun h => hne ((sorted_inliers_ne_nil _).mp h)
  have hfne : final ≠ [] := by
    intro h
    apply hlen
    rw [← List.length_map sorted (vecAt (removeNaNFromPointCloud cloud).2), ← hfinal, h]
    rfl
  have hN : ((cloud.points.length : Nat) : Int) = (cloud.width : Int) * (cloud.height : Int) := by
    rw [horg]; push_cast; rfl
  have hin : ∀ i ∈ final, 0 ≤ i ∧ i < (cloud.width : Int) * (cloud.height : Int) := by
    intro i hi
    obtain ⟨a, b, -⟩ := hmem i hi
    exact ⟨a, by rw [← hN]; exact b⟩
  have hw : (0 : Int) < (cloud.width : Int) := by
    obtain ⟨a, ha⟩ := List.exists_mem_of_ne_nil final hfne
    obtain ⟨h0, h1⟩ := hin a ha
    have hwn : (0 : Int) ≤ (cloud.width : Int) := Int.ofNat_nonneg _
    have hhn : (0 : Int) ≤ (cloud.height : Int) := Int.ofNat_nonneg _
    rcases eq_or_lt_of_le hwn with h | h
    · rw [← h, zero_mul] at h1; omega
    · exact h
  obtain ⟨mask, hmask, -⟩ := getMask_ok (cloud.width : Int) (cloud.height : Int) final hw hfne hin
  have hout : estimateFromPCL self cas scene segment =
      { self := { self with cloud := cloud, mapping_indices := (removeNaNFromPointCloud cloud).2,
                            plane_inliers := final, foundPlane := true },
        scene := scene.append
          { model := some [res.coefficients.getD 0 0, res.coefficients.getD 1 0,
                           res.coefficients.getD 2 0, res.coefficients.getD 3 0],
            inliers := some final,
            roi := some (getMaskRoi final ⟨(cloud.width : Int), (cloud.height : Int)⟩),
            mask := some mask },
        thrown := none } := by
    simp only [estimateFromPCL, process_cloud, ← hcloud, ← hres, ← hsorted, hlen, if_false,
      if_true, ← hfinal, PointCloud.size, hmask]
  rw [hout]
  exact ⟨_, mask, _, rfl, rfl, rfl, rfl, rfl, rfl, rfl, rfl, hmask⟩

/-! ## Evaluations on the sample inputs -/

/-- The inliers 5, 7, 10 of a 4 x 3 grid: pixels (1,1), (1,3), (2,2). -/
theorem getMask_sample :
    getMask [5, 7, 10] ⟨4, 3⟩ =
      .ok (⟨2, 3, [[255, 0, 255], [0, 255, 0]]⟩, ⟨1, 1, 3, 2⟩) := by decide

/-- The empty list on the 0 x 0 grid gives the rectangle `(0, 0, 1, 1)`. -/
theorem getMaskRoi_empty_zero_grid : getMaskRoi [] ⟨0, 0⟩ = ⟨0, 0, 1, 1⟩ := by decide

/-- The single-plane estimator on the sample cloud. -/
theorem estimateFromPCL_sample :
    estimateFromPCL (sampleAnnotator Mode.PCL false) (sampleCas sampleCloud) emptyScene
      sampleSegment =
    { self := { sampleAnnotator Mode.PCL true with
                  cloud := sampleCloud, mapping_indices := [0, 2, 3], plane_inliers := [0, 3] },
      scene := { annotations := [Annot.plane
        { model := some [0, 0, 1, -1], inliers := some [0, 3],
          roi := some ⟨0, 0, 2, 2⟩, mask := some ⟨2, 2, [[255, 0], [0, 255]]⟩ }] },
      thrown := none } := by decide

/-- The multi-region estimator on the sample cloud. -/
theorem estimateFromMPS_sample :
    (estimateFromMPS (sampleAnnotator Mode.MPS false) (sampleCas sampleCloud) emptyScene
      sampleMps).scene =
    { annotations := [Annot.plane
        { model := some [0, 0, 1, -1], inliers := some [0, 2],
          roi := some ⟨0, 0, 1, 2⟩, mask := some ⟨2, 1, [[255], [255]]⟩ }] } := by decide

/-! ## The loop of the multi-region estimator -/

theorem mpsPlaneModel_form (r : PlanarRegion) :
    ∃ a b c d : ℚ, mpsPlaneModel r = [a, b, c, d] ∧ d ≤ 0 := by
  unfold mpsPlaneModel
  by_cases h : r.c3 < 0
  · exact ⟨r.c0, r.c1, r.c2, r.c3, by rw [if_pos h], le_of_lt h⟩
  · refine ⟨-r.c0, -r.c1, -r.c2, -r.c3, by rw [if_neg h], ?_⟩
    have := not_lt.mp h
    linarith

/-- The planes one iteration appends: none after an exception, otherwise one whose model
follows the sign rule. -/
theorem mpsStep_emits (st : MpsState) (i : Nat) :
    ∃ em : List Plane,
      (mpsStep st i).scene.annotations = st.scene.annotations ++ em.map Annot.plane ∧
      (∀ p ∈ em, ∃ r, p.model = some (mpsPlaneModel r)) ∧
      ((mpsStep st i).thrown = none → st.thrown = none ∧ em.length = 1) := by
  unfold mpsStep
  cases hth : st.thrown with
  | some e => exact ⟨[], by simp, by simp, by simp [hth]⟩
  | none =>
    simp only
    cases hg : getMask (st.self.inlierIndices.getD i []) st.self.cloud.size with
    | error e => exact ⟨[], by simp, by simp, by simp⟩
    | ok v =>
      obtain ⟨mask, roi⟩ := v
      refine ⟨[_], by simp only [Scene.append, List.map_cons, List.map_nil]; rfl, ?_, by simp⟩
      intro p hp
      rw [List.mem_singleton] at hp
      subst hp
      exact ⟨_, rfl⟩

theorem mpsFold_emits (l : List Nat) (st : MpsState) :
    ∃ em : List Plane,
      (l.foldl mpsStep st).scene.annotations = st.scene.annotations ++ em.map Annot.plane ∧
      (∀ p ∈ em, ∃ r, p.model = some (mpsPlaneModel r)) ∧
      ((l.foldl mpsStep st).thrown = none → st.thrown = none ∧ em.length = l.length) := by
  induction l generalizing st with
  | nil => exact ⟨[], by simp, by simp, by simp⟩
  | cons i t ih =>
    obtain ⟨em1, a1, a2, a3⟩ := mpsStep_emits st i
    obtain ⟨em2, b1, b2, b3⟩ := ih (mpsStep st i)
    refine ⟨em1 ++ em2, ?_, ?_, ?_⟩
    · simp only [List.foldl_cons, b1, a1, List.map_append, List.append_assoc]
    · intro p hp
      rcases List.mem_append.mp hp with h | h
      · exact a2 p h
      · exact b2 p h
    · intro hth
      simp only [List.foldl_cons] at hth
      obtain ⟨c1, c2⟩ := b3 hth
      obtain ⟨d1, d2⟩ := a3 c1
      exact ⟨d1, by simp only [List.length_append, List.length_cons, d2, c2]; omega⟩

/-- The scene and the exception after `estimateFromMPS` are those after its loop. -/
theorem estimateFromMPS_scene (self : PlaneAnnotator) (cas : CAS) (scene : Scene)
    (mps : PointCloud → List Normal → MpsResult) :
    (estimateFromMPS self cas scene mps).scene =
      ((List.range (mps cas.getCloud cas.getNormals).regions.length).foldl mpsStep
        (mpsInit self cas scene mps)).scene ∧
    (estimateFromMPS self cas scene mps).thrown =
      ((List.range (mps cas.getCloud cas.getNormals).regions.length).foldl mpsStep
        (mpsInit self cas scene mps)).thrown := by
  have hlen : (mpsInit self cas scene mps).self.regions.length =
      (mps cas.getCloud cas.getNormals).regions.length := rfl
  constructor
  · unfold estimateFromMPS
    simp only [hlen]
    split
    · rfl
    · split <;> rfl
  · unfold estimateFromMPS
    simp only [hlen]
    split
    · rfl
    · split <;> rfl

/-- What `estimateFromMPS` appends: planes whose models follow the sign rule, one for
every region when no exception ends the loop. -/
theorem estimateFromMPS_emits (self : PlaneAnnotator) (cas : CAS) (scene : Scene)
    (mps : PointCloud → List Normal → MpsResult) :
    ∃ em : List Plane,
      (estimateFromMPS self cas scene mps).scene.annotations =
        scene.annotations ++ em.map Annot.plane ∧
      (∀ p ∈ em, ∃ r, p.model = some (mpsPlaneModel r)) ∧
      ((estimateFromMPS self cas scene mps).thrown = none →
        em.length = (mps cas.getCloud cas.getNormals).regions.length) := by
  obtain ⟨h3, h4⟩ := estimateFromMPS_scene self cas scene mps
  obtain ⟨em, e1, e2, e3⟩ :=
    mpsFold_emits (List.range (mps cas.getCloud cas.getNormals).regions.length)
      (mpsInit self cas scene mps)
  refine ⟨em, by rw [h3, e1]; rfl, e2, ?_⟩
  intro hth
  rw [h4] at hth
  rw [(e3 hth).2, List.length_range]

/-- With no region the loop does not run and the method changes neither the scene nor
the plane-found flag. -/
theorem estimateFromMPS_no_regions (self : PlaneAnnotator) (cas : CAS) (scene : Scene)
    (mps : PointCloud → List Normal → MpsResult)
    (hzero : (mps cas.getCloud cas.getNormals).regions = []) :
    (estimateFromMPS self cas scene mps).scene = scene ∧
    (estimateFromMPS self cas scene mps).thrown = none ∧
    (estimateFromMPS self cas scene mps).self.foundPlane = self.foundPlane := by
  simp [estimateFromMPS, mpsInit, hzero]

/-! ## Claims on the multi-region estimator -/

/-- C5: whatever regions the segmenter returns, every plane `estimateFromMPS` appends
to the scene has a four-coefficient model whose fourth coefficient is `≤ 0`; when no
exception ends the loop there is one such plane per region. -/
theorem estimateFromMPS_offset_nonpos (self : PlaneAnnotator) (cas : CAS) (scene : Scene)
    (mps : PointCloud → List Normal → MpsResult) :
    ∃ em : List Plane,
      (estimateFromMPS self cas scene mps).scene.annotations =
        scene.annotations ++ em.map Annot.plane ∧
      (∀ p ∈ em, ∃ a b c d : ℚ, p.model = some [a, b, c, d] ∧ d ≤ 0) ∧
      ((estimateFromMPS self cas scene mps).thrown = none →
        em.length = (mps cas.getCloud cas.getNormals).regions.length) := by
  obtain ⟨em, h1, h2, h3⟩ := estimateFromMPS_emits self cas scene mps
  refine ⟨em, h1, ?_, h3⟩
  intro p hp
  obtain ⟨r, hr⟩ := h2 p hp
  obtain ⟨a, b, c, d, hm, hd⟩ := mpsPlaneModel_form r
  exact ⟨a, b, c, d, by rw [hr, hm], hd⟩

/-- C6 (counterexample): for one region with model `(0, 0, 1, -1)` the appended plane
is `(0, 0, 1, -1)`, and the camera origin gives `a*0 + b*0 + c*0 + d = -1`, which is
not `≥ 0`. -/
theorem estimateFromMPS_origin_negative :
    ∃ p ∈ (estimateFromMPS (sampleAnnotator Mode.MPS false) (sampleCas sampleCloud)
        emptyScene sampleMps).scene.planes,
      ∃ a b c d : ℚ, p.model = some [a, b, c, d] ∧ ¬ (a * 0 + b * 0 + c * 0 + d ≥ 0) := by
  refine ⟨{ model := some [0, 0, 1, -1], inliers := some [0, 2],
            roi := some ⟨0, 0, 1, 2⟩, mask := some ⟨2, 1, [[255], [255]]⟩ }, by decide,
    0, 0, 1, -1, rfl, by norm_num⟩

/-- C6 (amended): for every plane model `(a, b, c, d)` that `estimateFromMPS` appends,
the camera origin satisfies `a*0 + b*0 + c*0 + d ≤ 0`. -/
theorem estimateFromMPS_origin_nonpos (self : PlaneAnnotator) (cas : CAS) (scene : Scene)
    (mps : PointCloud → List Normal → MpsResult) :
    ∃ em : List Plane,
      (estimateFromMPS self cas scene mps).scene.annotations =
        scene.annotations ++ em.map Annot.plane ∧
      (∀ p ∈ em, ∃ a b c d : ℚ, p.model = some [a, b, c, d] ∧
        a * 0 + b * 0 + c * 0 + d ≤ 0) ∧
      ((estimateFromMPS self cas scene mps).thrown = none →
        em.length = (mps cas.getCloud cas.getNormals).regions.length) := by
  obtain ⟨em, h1, h2, h3⟩ := estimateFromMPS_emits self cas scene mps
  refine ⟨em, h1, ?_, h3⟩
  intro p hp
  obtain ⟨r, hr⟩ := h2 p hp
  obtain ⟨a, b, c, d, hm, hd⟩ := mpsPlaneModel_form r
  exact ⟨a, b, c, d, by rw [hr, hm], by linarith⟩

/-- C10 (the code at the failing input): with `foundPlane` true before the call and a
segmenter that returns no region, `estimateFromMPS` appends no plane and raises
nothing, but `foundPlane` is still true afterwards. -/
theorem estimateFromMPS_zero_regions_flag_kept :
    (noRegionMps (sampleCas sampleCloud).getCloud (sampleCas sampleCloud).getNormals).regions
      = [] ∧
    (estimateFromMPS (sampleAnnotator Mode.MPS true) (sampleCas sampleCloud) emptyScene
      noRegionMps).scene = emptyScene ∧
    (estimateFromMPS (sampleAnnotator Mode.MPS true) (sampleCas sampleCloud) emptyScene
      noRegionMps).thrown = none ∧
    (estimateFromMPS (sampleAnnotator Mode.MPS true) (sampleCas sampleCloud) emptyScene
      noRegionMps).self.foundPlane = true := by
  decide

/-! ## Claims on the single-plane estimator -/

/-- C7: in single-plane mode, for an organized cloud with `width * height = N` points
and a non-empty solver result of distinct indices into the NaN-filtered cloud, the plane
appended by `estimateFromPCL` stores the sorted solver indices remapped through
`mapping_indices`; that list is strictly increasing and lies in `[0, N)`. -/
theorem estimateFromPCL_inliers_increasing (self : PlaneAnnotator) (cas : CAS)
    (scene : Scene) (segment : List PointXYZRGBA → SacResult) (N : Nat)
    (hpts : cas.getCloud.points.length = N)
    (horg : cas.getCloud.width * cas.getCloud.height = N)
    (hnodup : (segment (removeNaNFromPointCloud cas.getCloud).1).inliers.Nodup)
    (hidx : ∀ i ∈ (segment (removeNaNFromPointCloud cas.getCloud).1).inliers,
      0 ≤ i ∧ i < ((removeNaNFromPointCloud cas.getCloud).1.length : Int))
    (hne : (segment (removeNaNFromPointCloud cas.getCloud).1).inliers ≠ []) :
    ∃ plane inl,
      (estimateFromPCL self cas scene segment).scene = scene.append plane ∧
      (estimateFromPCL self cas scene segment).thrown = none ∧
      plane.inliers = some inl ∧
      inl = ((segment (removeNaNFromPointCloud cas.getCloud).1).inliers.insertionSort
          (· ≤ ·)).map (vecAt (removeNaNFromPointCloud cas.getCloud).2) ∧
      inl.Sorted (· < ·) ∧ ∀ i ∈ inl, 0 ≤ i ∧ i < (N : Int) := by
  obtain ⟨plane, mask, roi, h1, h2, -, h4, h5, -⟩ :=
    estimateFromPCL_emits self cas scene segment (by rw [hpts, horg]) hidx hne
  have hsidx : ∀ i ∈ (segment (removeNaNFromPointCloud cas.getCloud).1).inliers.insertionSort
      (· ≤ ·), 0 ≤ i ∧ i < ((removeNaNFromPointCloud cas.getCloud).1.length : Int) :=
    fun i hi => hidx i ((sorted_inliers_mem _ i).mp hi)
  have hsorted : ((segment (removeNaNFromPointCloud cas.getCloud).1).inliers.insertionSort
      (· ≤ ·)).Sorted (· < ·) :=
    (List.sorted_insertionSort (· ≤ ·) _).lt_of_le
      ((List.perm_insertionSort (· ≤ ·) _).nodup_iff.mpr hnodup)
  refine ⟨plane, _, h1, h2, by rw [h5, h4], rfl,
    remap_sorted cas.getCloud _ hsidx hsorted, ?_⟩
  intro i hi
  obtain ⟨a, b, -⟩ := remap_mem cas.getCloud _ hsidx i hi
  exact ⟨a, by rw [← hpts]; exact b⟩

theorem estimateFromPCL_inliers_increasing_witness :
    (sampleCas sampleCloud).getCloud.points.length = 4 ∧
    (sampleCas sampleCloud).getCloud.width * (sampleCas sampleCloud).getCloud.height = 4 ∧
    (sampleSegment (removeNaNFromPointCloud (sampleCas sampleCloud).getCloud).1).inliers.Nodup ∧
    ∃ plane inl,
      (estimateFromPCL (sampleAnnotator Mode.PCL false) (sampleCas sampleCloud) emptyScene
        sampleSegment).scene = emptyScene.append plane ∧
      (estimateFromPCL (sampleAnnotator Mode.PCL false) (sampleCas sampleCloud) emptyScene
        sampleSegment).thrown = none ∧
      plane.inliers = some inl ∧
      inl = ((sampleSegment
          (removeNaNFromPointCloud (sampleCas sampleCloud).getCloud).1).inliers.insertionSort
          (· ≤ ·)).map (vecAt (removeNaNFromPointCloud (sampleCas sampleCloud).getCloud).2) ∧
      inl.Sorted (· < ·) ∧ ∀ i ∈ inl, 0 ≤ i ∧ i < ((4 : Nat) : Int) :=
  ⟨by decide, by decide, by decide,
    estimateFromPCL_inliers_increasing (sampleAnnotator Mode.PCL false) (sampleCas sampleCloud)
      emptyScene sampleSegment 4 (by decide) (by decide) (by decide) (by decide) (by decide)⟩

/-- C8: in single-plane mode, for an organized cloud and a non-empty solver result that
indexes the NaN-filtered cloud, every index of the final remapped inlier list is a
position of the original grid holding a finite point, so dropping the originally-invalid
positions from the final list returns the same list. -/
theorem estimateFromPCL_inliers_valid (self : PlaneAnnotator) (cas : CAS)
    (scene : Scene) (segment : List PointXYZRGBA → SacResult)
    (horg : cas.getCloud.points.length = cas.getCloud.width * cas.getCloud.height)
    (hidx : ∀ i ∈ (segment (removeNaNFromPointCloud cas.getCloud).1).inliers,
      0 ≤ i ∧ i < ((removeNaNFromPointCloud cas.getCloud).1.length : Int))
    (hne : (segment (removeNaNFromPointCloud cas.getCloud).1).inliers ≠ []) :
    ∃ plane inl,
      (estimateFromPCL self cas scene segment).scene = scene.append plane ∧
      plane.inliers = some inl ∧
      (estimateFromPCL self cas scene segment).self.plane_inliers = inl ∧
      (∀ i ∈ inl, 0 ≤ i ∧
        ∃ p, cas.getCloud.points[i.toNat]? = some p ∧ p.isFinite = true) ∧
      cas.getCloud.dropInvalid inl = inl := by
  obtain ⟨plane, mask, roi, h1, -, -, h4, h5, -⟩ :=
    estimateFromPCL_emits self cas scene segment horg hidx hne
  have hsidx : ∀ i ∈ (segment (removeNaNFromPointCloud cas.getCloud).1).inliers.insertionSort
      (· ≤ ·), 0 ≤ i ∧ i < ((removeNaNFromPointCloud cas.getCloud).1.length : Int) :=
    fun i hi => hidx i ((sorted_inliers_mem _ i).mp hi)
  have hmem := remap_mem cas.getCloud _ hsidx
  rw [← h4] at hmem
  refine ⟨plane, _, h1, h5, rfl, ?_, ?_⟩
  · intro i hi
    obtain ⟨a, -, hv⟩ := hmem i hi
    refine ⟨a, ?_⟩
    simp only [PointCloud.validAt, Bool.and_eq_true, decide_eq_true_eq] at hv
    cases hp : cas.getCloud.points[i.toNat]? with
    | none => rw [hp] at hv; exact absurd hv.2 (by simp)
    | some p => rw [hp] at hv; exact ⟨p, rfl, hv.2⟩
  · unfold PointCloud.dropInvalid
    rw [List.filter_eq_self]
    exact fun i hi => (hmem i hi).2.2

theorem estimateFromPCL_inliers_valid_witness :
    (sampleCas sampleCloud).getCloud.points.length =
      (sampleCas sampleCloud).getCloud.width * (sampleCas sampleCloud).getCloud.height ∧
    ∃ plane inl,
      (estimateFromPCL (sampleAnnotator Mode.PCL false) (sampleCas sampleCloud) emptyScene
        sampleSegment).scene = emptyScene.append plane ∧
      plane.inliers = some inl ∧
      (estimateFromPCL (sampleAnnotator Mode.PCL false) (sampleCas sampleCloud) emptyScene
        sampleSegment).self.plane_inliers = inl ∧
      (∀ i ∈ inl, 0 ≤ i ∧
        ∃ p, (sampleCas sampleCloud).getCloud.points[i.toNat]? = some p ∧
          p.isFinite = true) ∧
      (sampleCas sampleCloud).getCloud.dropInvalid inl = inl :=
  ⟨by decide,
    estimateFromPCL_inliers_valid (sampleAnnotator Mode.PCL false) (sampleCas sampleCloud)
      emptyScene sampleSegment (by decide) (by decide) (by decide)⟩

theorem removeNaNLoop_all_nan (pts : List PointXYZRGBA) (i0 : Int)
    (hnan : ∀ p ∈ pts, p.isFinite = false) : removeNaNLoop pts i0 = [] := by
  induction pts generalizing i0 with
  | nil => rfl
  | cons p ps ih =>
    have hp : p.isFinite = false := hnan p (List.mem_cons_self p ps)
    simp only [removeNaNLoop, hp, Bool.false_eq_true, if_false]
    exact ih (i0 + 1) (fun q hq => hnan q (List.mem_cons_of_mem p hq))

theorem process_cloud_fst (self : PlaneAnnotator) (segment : List PointXYZRGBA → SacResult) :
    (process_cloud self segment).1 = false ↔
      (segment (removeNaNFromPointCloud self.cloud).1).inliers = [] := by
  unfold process_cloud
  simp only
  constructor
  · intro h
    by_contra hne
    have hlen : ¬ ((segment (removeNaNFromPointCloud self.cloud).1).inliers.insertionSort
        (· ≤ ·)).length = 0 := fun hl => hne ((sorted_inliers_ne_nil _).mp hl)
    rw [if_neg hlen] at h
    exact absurd h (by simp)
  · intro h
    rw [if_pos ((sorted_inliers_ne_nil _).mpr h)]

/-- C9: `process_cloud` returns false exactly when the solver's inlier list is empty;
on a cloud of NaN points only the filtered cloud is empty, so a solver that reports
indices into its input makes it return false; and whenever `process_cloud` returns
false, `estimateFromPCL` appends no plane, raises nothing and leaves `foundPlane` as it
was. -/
theorem process_cloud_false_iff_no_inliers (self : PlaneAnnotator) (cas : CAS)
    (scene : Scene) (segment : List PointXYZRGBA → SacResult) :
    ((process_cloud self segment).1 = false ↔
      (segment (removeNaNFromPointCloud self.cloud).1).inliers = []) ∧
    ((∀ p ∈ self.cloud.points, p.isFinite = false) →
      (∀ i ∈ (segment (removeNaNFromPointCloud self.cloud).1).inliers,
        0 ≤ i ∧ i < ((removeNaNFromPointCloud self.cloud).1.length : Int)) →
      (removeNaNFromPointCloud self.cloud).1 = [] ∧ (process_cloud self segment).1 = false) ∧
    ((process_cloud { self with cloud := cas.getCloud } segment).1 = false →
      (estimateFromPCL self cas scene segment).scene = scene ∧
      (estimateFromPCL self cas scene segment).thrown = none ∧
      (estimateFromPCL self cas scene segment).self.foundPlane = self.foundPlane) := by
  refine ⟨process_cloud_fst self segment, ?_, ?_⟩
  · intro hnan hidx
    have hempty : (removeNaNFromPointCloud self.cloud).1 = [] := by
      simp only [removeNaNFromPointCloud, removeNaNLoop_all_nan self.cloud.points 0 hnan,
        List.map_nil]
    refine ⟨hempty, (process_cloud_fst self segment).mpr ?_⟩
    rw [hempty] at hidx ⊢
    apply List.eq_nil_iff_forall_not_mem.mpr
    intro i hi
    have := hidx i hi
    simp only [List.length_nil, Int.ofNat_zero] at this
    omega
  · intro hfalse
    have hfst : (process_cloud { self with cloud := cas.getCloud } segment).1 = false := hfalse
    unfold estimateFromPCL
    simp only [hfst, Bool.false_eq_true, if_false]
    refine ⟨trivial, trivial, ?_⟩
    unfold process_cloud
    simp only
    split <;> rfl

theorem process_cloud_false_iff_no_inliers_witness :
    (∀ p ∈ nanCloud.points, p.isFinite = false) ∧
    (removeNaNFromPointCloud nanCloud).1 = [] ∧
    (process_cloud { sampleAnnotator Mode.PCL true with cloud := nanCloud }
      sampleSegment).1 = false ∧
    (estimateFromPCL { sampleAnnotator Mode.PCL true with cloud := nanCloud }
      (sampleCas nanCloud) emptyScene sampleSegment).scene = emptyScene ∧
    (estimateFromPCL { sampleAnnotator Mode.PCL true with cloud := nanCloud }
      (sampleCas nanCloud) emptyScene sampleSegment).thrown = none :=
  ⟨by decide,
    ((process_cloud_false_iff_no_inliers
      { sampleAnnotator Mode.PCL true with cloud := nanCloud } (sampleCas nanCloud)
      emptyScene sampleSegment).2.1 (by decide) (by decide)).1,
    ((process_cloud_false_iff_no_inliers
      { sampleAnnotator Mode.PCL true with cloud := nanCloud } (sampleCas nanCloud)
      emptyScene sampleSegment).2.1 (by decide) (by decide)).2,
    ((process_cloud_false_iff_no_inliers
      { sampleAnnotator Mode.PCL true with cloud := nanCloud } (sampleCas nanCloud)
      emptyScene sampleSegment).2.2 (by decide)).1,
    ((process_cloud_false_iff_no_inliers
      { sampleAnnotator Mode.PCL true with cloud := nanCloud } (sampleCas nanCloud)
      emptyScene sampleSegment).2.2 (by decide)).2.1⟩

/-! ## Claims on the board estimator -/

/-- C11: after `estimateFromBoard` the plane-found flag is true exactly when the scene
holds a board annotation; without a board the scene is unchanged, and with one exactly
one plane is appended, whose model comes from the pose solved for the first board and
whose inliers, ROI and mask are not set. -/
theorem estimateFromBoard_found_iff_board (self : PlaneAnnotator) (bm : BoardMembers)
    (camInfoHD : Option CameraInfo) (scene : Scene)
    (solvePnPRansac : Board → List ℚ → List ℚ → Option Pose → Pose)
    (Rodrigues : Vec3 → Mat3) :
    ((estimateFromBoard self bm camInfoHD scene solvePnPRansac Rodrigues).self.foundPlane
        = true ↔ scene.boards ≠ []) ∧
    (scene.boards = [] →
      (estimateFromBoard self bm camInfoHD scene solvePnPRansac Rodrigues).scene = scene) ∧
    (∀ b rest, scene.boards = b :: rest →
      ∃ plane : Plane,
        (estimateFromBoard self bm camInfoHD scene solvePnPRansac
          Rodrigues).scene.annotations = scene.annotations ++ [Annot.plane plane] ∧
        plane.model = some (boardPlaneModel
          (Rodrigues (boardPose bm camInfoHD solvePnPRansac b).rotation)
          (boardPose bm camInfoHD solvePnPRansac b).translation) ∧
        plane.inliers = none ∧ plane.roi = none ∧ plane.mask = none) := by
  refine ⟨?_, ?_, ?_⟩
  · unfold estimateFromBoard
    cases hb : scene.boards with
    | nil => simp
    | cons b rest => simp
  · intro hb
    unfold estimateFromBoard
    simp only [hb]
  · intro b rest hb
    unfold estimateFromBoard
    simp only [hb]
    exact ⟨_, rfl, rfl, rfl, rfl, rfl⟩

/-- C12: with a board in the scene, for the rotation matrix `R` and the translation `t`
obtained from the pose solver, `R * (0, 0, 1)ᵗ` is the third column `n` of `R` and the
appended plane has the model `(-n0, -n1, -n2, -(n · t))` and nothing else. -/
theorem estimateFromBoard_model (self : PlaneAnnotator) (bm : BoardMembers)
    (camInfoHD : Option CameraInfo) (scene : Scene)
    (solvePnPRansac : Board → List ℚ → List ℚ → Option Pose → Pose)
    (Rodrigues : Vec3 → Mat3) (b : Board) (rest : List Board) (R : Mat3) (t : Vec3)
    (hb : scene.boards = b :: rest)
    (hR : R = Rodrigues (boardPose bm camInfoHD solvePnPRansac b).rotation)
    (ht : t = (boardPose bm camInfoHD solvePnPRansac b).translation) :
    R.mulVec { v0 := 0, v1 := 0, v2 := 1 } = { v0 := R.m02, v1 := R.m12, v2 := R.m22 } ∧
    (estimateFromBoard self bm camInfoHD scene solvePnPRansac Rodrigues).scene =
      scene.append
        { model := some [-R.m02, -R.m12, -R.m22,
                         -(R.m02 * t.v0 + R.m12 * t.v1 + R.m22 * t.v2)],
          inliers := none, roi := none, mask := none } := by
  subst hR ht
  constructor
  · simp [Mat3.mulVec]
  · unfold estimateFromBoard
    simp only [hb]
    simp [Mat3.mulVec, Vec3.dot, boardPose]

theorem estimateFromBoard_model_witness :
    boardScene.boards = sampleBoard :: [] ∧
    sampleRodrigues { v0 := 1, v1 := 0, v2 := 0 } =
      sampleRodrigues (boardPose sampleBoardMembers none sampleSolvePnP sampleBoard).rotation ∧
    ({ v0 := 1, v1 := 2, v2 := 3 } : Vec3) =
      (boardPose sampleBoardMembers none sampleSolvePnP sampleBoard).translation ∧
    (sampleRodrigues { v0 := 1, v1 := 0, v2 := 0 }).mulVec { v0 := 0, v1 := 0, v2 := 1 } =
      { v0 := (sampleRodrigues { v0 := 1, v1 := 0, v2 := 0 }).m02,
        v1 := (sampleRodrigues { v0 := 1, v1 := 0, v2 := 0 }).m12,
        v2 := (sampleRodrigues { v0 := 1, v1 := 0, v2 := 0 }).m22 } ∧
    (estimateFromBoard (sampleAnnotator Mode.BOARD false) sampleBoardMembers none boardScene
      sampleSolvePnP sampleRodrigues).scene =
      boardScene.append
        { model := some [-(sampleRodrigues { v0 := 1, v1 := 0, v2 := 0 }).m02,
                         -(sampleRodrigues { v0 := 1, v1 := 0, v2 := 0 }).m12,
                         -(sampleRodrigues { v0 := 1, v1 := 0, v2 := 0 }).m22,
                         -((sampleRodrigues { v0 := 1, v1 := 0, v2 := 0 }).m02 * 1 +
                           (sampleRodrigues { v0 := 1, v1 := 0, v2 := 0 }).m12 * 2 +
                           (sampleRodrigues { v0 := 1, v1 := 0, v2 := 0 }).m22 * 3)],
          inliers := none, roi := none, mask := none } :=
  ⟨by decide, rfl, rfl,
    estimateFromBoard_model (sampleAnnotator Mode.BOARD false) sampleBoardMembers none
      boardScene sampleSolvePnP sampleRodrigues sampleBoard []
      (sampleRodrigues { v0 := 1, v1 := 0, v2 := 0 }) { v0 := 1, v1 := 2, v2 := 3 }
      (by decide) rfl rfl⟩

/-- The board estimator on the sample board: normal `(0, -1, 0)`, distance `-2`. -/
theorem estimateFromBoard_sample :
    (estimateFromBoard (sampleAnnotator Mode.BOARD false) sampleBoardMembers none boardScene
      sampleSolvePnP sampleRodrigues).scene.planes =
      [{ model := some [0, 1, 0, 2], inliers := none, roi := none, mask := none }] := by
  simp [estimateFromBoard, boardScene, Scene.boards, Scene.planes, Scene.append,
    sampleSolvePnP, sampleRodrigues, Mat3.mulVec, Vec3.dot]

/-! ## The loop of the multi-region estimator, iteration by iteration -/

theorem mpsBefore_zero (self : PlaneAnnotator) (cas : CAS) (scene : Scene)
    (mps : PointCloud → List Normal → MpsResult) :
    mpsBefore self cas scene mps 0 = mpsInit self cas scene mps := rfl

theorem mpsBefore_succ (self : PlaneAnnotator) (cas : CAS) (scene : Scene)
    (mps : PointCloud → List Normal → MpsResult) (n : Nat) :
    mpsBefore self cas scene mps (n + 1) = mpsStep (mpsBefore self cas scene mps n) n := by
  simp only [mpsBefore, List.range_succ, List.foldl_append, List.foldl_cons, List.foldl_nil]

/-- An iteration leaves the segmenter output, the cloud and the flag alone. -/
theorem mpsStep_frame (st : MpsState) (i : Nat) :
    (mpsStep st i).self.regions = st.self.regions ∧
    (mpsStep st i).self.inlierIndices = st.self.inlierIndices ∧
    (mpsStep st i).self.cloud = st.self.cloud ∧
    (mpsStep st i).self.foundPlane = st.self.foundPlane := by
  unfold mpsStep
  cases hth : st.thrown with
  | some e => simp
  | none =>
    simp only
    cases hg : getMask (st.self.inlierIndices.getD i []) st.self.cloud.size with
    | error e => simp
    | ok v => simp

theorem mpsBefore_frame (self : PlaneAnnotator) (cas : CAS) (scene : Scene)
    (mps : PointCloud → List Normal → MpsResult) (n : Nat) :
    (mpsBefore self cas scene mps n).self.regions = (mps cas.getCloud cas.getNormals).regions ∧
    (mpsBefore self cas scene mps n).self.inlierIndices =
      (mps cas.getCloud cas.getNormals).inlierIndices ∧
    (mpsBefore self cas scene mps n).self.cloud = cas.getCloud ∧
    (mpsBefore self cas scene mps n).self.foundPlane = self.foundPlane := by
  induction n with
  | zero => exact ⟨rfl, rfl, rfl, rfl⟩
  | succ n ih =>
    obtain ⟨a, b, c, d⟩ := mpsStep_frame (mpsBefore self cas scene mps n) n
    rw [mpsBefore_succ, a, b, c, d]
    exact ih

/-- An iteration keeps `biggest` or moves it to its own index, the latter only when the
region has more points than `regions[biggest]`. -/
theorem mpsStep_biggest (st : MpsState) (i : Nat) :
    (mpsStep st i).biggest = st.biggest ∨
    ((mpsStep st i).biggest = i ∧
      (regionAt st.self.regions i).count > (regionAt st.self.regions st.biggest).count) := by
  unfold mpsStep
  cases hth : st.thrown with
  | some e => simp
  | none =>
    simp only
    cases hg : getMask (st.self.inlierIndices.getD i []) st.self.cloud.size with
    | error e => simp
    | ok v =>
      simp only
      by_cases hc : (regionAt st.self.regions i).count >
          (regionAt st.self.regions st.biggest).count
      · right; simp [hc]
      · left; simp [hc]

/-- What an iteration does when no exception is pending and `getMask` returns. -/
theorem mpsStep_ok (st : MpsState) (i : Nat) (mask : Mat) (roi : Rect)
    (hth : st.thrown = none)
    (hg : getMask (st.self.inlierIndices.getD i []) st.self.cloud.size = .ok (mask, roi)) :
    (mpsStep st i).thrown = none ∧
    (mpsStep st i).scene = st.scene.append
      { model := some (mpsPlaneModel (regionAt st.self.regions i)),
        inliers := some (st.self.inlierIndices.getD i []),
        roi := some roi, mask := some mask } ∧
    (mpsStep st i).biggest =
      (if (regionAt st.self.regions i).count > (regionAt st.self.regions st.biggest).count
        then i else st.biggest) ∧
    (mpsStep st i).biggest_planeModel =
      (if (regionAt st.self.regions i).count > (regionAt st.self.regions st.biggest).count
        then mpsPlaneModel (regionAt st.self.regions i) else st.biggest_planeModel) ∧
    (mpsStep st i).self.plane_inliers =
      st.self.plane_inliers ++ st.self.inlierIndices.getD i [] := by
  unfold mpsStep
  simp only [hth, hg]
  by_cases hc : (regionAt st.self.regions i).count >
      (regionAt st.self.regions st.biggest).count
  · simp [hc]
  · simp [hc]

/-- The scene, the exception and the tracked region after `estimateFromMPS` are those
after the last iteration of its loop. -/
theorem estimateFromMPS_loop (self : PlaneAnnotator) (cas : CAS) (scene : Scene)
    (mps : PointCloud → List Normal → MpsResult) :
    (estimateFromMPS self cas scene mps).scene =
      (mpsBefore self cas scene mps (mps cas.getCloud cas.getNormals).regions.length).scene ∧
    (estimateFromMPS self cas scene mps).thrown =
      (mpsBefore self cas scene mps (mps cas.getCloud cas.getNormals).regions.length).thrown ∧
    (estimateFromMPS self cas scene mps).biggest =
      (mpsBefore self cas scene mps (mps cas.getCloud cas.getNormals).regions.length).biggest ∧
    (estimateFromMPS self cas scene mps).biggest_planeModel =
      (mpsBefore self cas scene mps
        (mps cas.getCloud cas.getNormals).regions.length).biggest_planeModel := by
  have hlen : (mpsInit self cas scene mps).self.regions.length =
      (mps cas.getCloud cas.getNormals).regions.length := rfl
  unfold estimateFromMPS mpsBefore
  simp only [hlen]
  split
  · exact ⟨rfl, rfl, rfl, rfl⟩
  · split <;> exact ⟨rfl, rfl, rfl, rfl⟩

/-- What the segmenter guarantees of its output on a cloud: one inlier list per region,
each list non-empty with indices of the grid. -/
def MpsResult.wellFormed (seg : MpsResult) (cloud : PointCloud) : Prop :=
  seg.inlierIndices.length = seg.regions.length ∧
  ∀ l ∈ seg.inlierIndices, l ≠ [] ∧
    ∀ i ∈ l, 0 ≤ i ∧ i < (cloud.width : Int) * (cloud.height : Int)

/-- On a well-formed segmenter output `getMask` returns for every region. -/
theorem mps_getMask_ok (seg : MpsResult) (cloud : PointCloud) (hwf : seg.wellFormed cloud)
    (i : Nat) (hi : i < seg.regions.length) :
    ∃ mask roi, getMask (seg.inlierIndices.getD i []) cloud.size = .ok (mask, roi) := by
  obtain ⟨hlen, hall⟩ := hwf
  have hil : i < seg.inlierIndices.length := by rw [hlen]; exact hi
  have hget : seg.inlierIndices.getD i [] = seg.inlierIndices[i] :=
    List.getD_eq_getElem _ _ hil
  obtain ⟨hne, hin⟩ := hall _ (List.getElem_mem hil)
  rw [hget]
  have hw : (0 : Int) < (cloud.width : Int) := by
    obtain ⟨a, ha⟩ := List.exists_mem_of_ne_nil _ hne
    obtain ⟨h0, h1⟩ := hin a ha
    have hwn : (0 : Int) ≤ (cloud.width : Int) := Int.ofNat_nonneg _
    rcases eq_or_lt_of_le hwn with h | h
    · rw [← h, zero_mul] at h1; omega
    · exact h
  obtain ⟨mask, hmask, -⟩ :=
    getMask_ok (cloud.width : Int) (cloud.height : Int) _ hw hne hin
  exact ⟨mask, _, hmask⟩

/-- After `n` iterations on a well-formed segmenter output no exception is pending and
the scene has gained one plane per region `0 .. n-1`, in order. -/
theorem mpsBefore_planes (self : PlaneAnnotator) (cas : CAS) (scene : Scene)
    (mps : PointCloud → List Normal → MpsResult)
    (hwf : (mps cas.getCloud cas.getNormals).wellFormed cas.getCloud) (n : Nat)
    (hn : n ≤ (mps cas.getCloud cas.getNormals).regions.length) :
    (mpsBefore self cas scene mps n).thrown = none ∧
    ∃ em : List Plane,
      (mpsBefore self cas scene mps n).scene.annotations =
        scene.annotations ++ em.map Annot.plane ∧
      em.length = n ∧
      ∀ i, i < n → ∃ p mask roi, em[i]? = some p ∧
        getMask ((mps cas.getCloud cas.getNormals).inlierIndices.getD i [])
          cas.getCloud.size = .ok (mask, roi) ∧
        p = { model := some (mpsPlaneModel
                (regionAt (mps cas.getCloud cas.getNormals).regions i)),
              inliers := some ((mps cas.getCloud cas.getNormals).inlierIndices.getD i []),
              roi := some roi, mask := some mask } := by
  induction n with
  | zero => exact ⟨rfl, [], by simp [mpsBefore_zero, mpsInit], rfl, by intro i hi; omega⟩
  | succ n ih =>
    obtain ⟨hth, em, hann, hlen, hall⟩ := ih (by omega)
    obtain ⟨fr1, fr2, fr3, -⟩ := mpsBefore_frame self cas scene mps n
    obtain ⟨mask, roi, hg⟩ := mps_getMask_ok _ _ hwf n (by omega)
    obtain ⟨s1, s2, -⟩ := mpsStep_ok (mpsBefore self cas scene mps n) n mask roi hth
      (by rw [fr2, fr3]; exact hg)
    rw [mpsBefore_succ]
    refine ⟨s1, em ++ [Plane.mk
      (some (mpsPlaneModel (regionAt (mps cas.getCloud cas.getNormals).regions n)))
      (some ((mps cas.getCloud cas.getNormals).inlierIndices.getD n []))
      (some roi) (some mask)], ?_, ?_, ?_⟩
    · rw [s2, fr1, fr2]
      simp only [Scene.append, hann, List.map_append, List.map_cons, List.map_nil,
        List.append_assoc]
    · simp only [List.length_append, List.length_cons, List.length_nil, hlen]
    · intro i hi
      by_cases hlt : i < n
      · obtain ⟨p, m, r, h1, h2, h3⟩ := hall i hlt
        refine ⟨p, m, r, ?_, h2, h3⟩
        rw [List.getElem?_append, if_pos (by rw [hlen]; exact hlt)]
        exact h1
      · have hin : i = n := by omega
        subst hin
        refine ⟨_, mask, roi, ?_, hg, rfl⟩
        rw [List.getElem?_append_right (by rw [hlen]), hlen, Nat.sub_self]
        rfl

/-- The index `biggest` is 0 or that of an earlier iteration, whatever the regions. -/
theorem mpsBefore_biggest_lt (self : PlaneAnnotator) (cas : CAS) (scene : Scene)
    (mps : PointCloud → List Normal → MpsResult) (n : Nat) :
    (mpsBefore self cas scene mps n).biggest = 0 ∨
    (mpsBefore self cas scene mps n).biggest < n := by
  induction n with
  | zero => left; rfl
  | succ n ih =>
    rw [mpsBefore_succ]
    rcases mpsStep_biggest (mpsBefore self cas scene mps n) n with h | ⟨h, -⟩
    · rw [h]
      rcases ih with ih | ih
      · left; exact ih
      · right; omega
    · right; rw [h]; omega

/-- When no region has more points than the first, `biggest` stays 0. -/
theorem mpsBefore_biggest_zero (self : PlaneAnnotator) (cas : CAS) (scene : Scene)
    (mps : PointCloud → List Normal → MpsResult)
    (hfirst : ∀ j, (regionAt (mps cas.getCloud cas.getNormals).regions j).count ≤
      (regionAt (mps cas.getCloud cas.getNormals).regions 0).count) (n : Nat) :
    (mpsBefore self cas scene mps n).biggest = 0 := by
  induction n with
  | zero => rfl
  | succ n ih =>
    rw [mpsBefore_succ]
    rcases mpsStep_biggest (mpsBefore self cas scene mps n) n with h | ⟨-, h⟩
    · rw [h]; exact ih
    · rw [(mpsBefore_frame self cas scene mps n).1, ih] at h
      have := hfirst n
      omega

/-- After `n` iterations on a well-formed segmenter output `biggest` is the first
region of maximal count among `0 .. n-1`, and `biggest_planeModel` is the model of that
region unless `biggest` is still 0, in which case it is still the vector of zeros. -/
theorem mpsBefore_biggest (self : PlaneAnnotator) (cas : CAS) (scene : Scene)
    (mps : PointCloud → List Normal → MpsResult)
    (hwf : (mps cas.getCloud cas.getNormals).wellFormed cas.getCloud) (n : Nat)
    (hn : n ≤ (mps cas.getCloud cas.getNormals).regions.length) :
    (∀ j, j < n → (regionAt (mps cas.getCloud cas.getNormals).regions j).count ≤
      (regionAt (mps cas.getCloud cas.getNormals).regions
        (mpsBefore self cas scene mps n).biggest).count) ∧
    (∀ j, j < (mpsBefore self cas scene mps n).biggest →
      (regionAt (mps cas.getCloud cas.getNormals).regions j).count <
      (regionAt (mps cas.getCloud cas.getNormals).regions
        (mpsBefore self cas scene mps n).biggest).count) ∧
    (mpsBefore self cas scene mps n).biggest_planeModel =
      (if (mpsBefore self cas scene mps n).biggest = 0 then [0, 0, 0, 0]
       else mpsPlaneModel (regionAt (mps cas.getCloud cas.getNormals).regions
        (mpsBefore self cas scene mps n).biggest)) := by
  induction n with
  | zero =>
    refine ⟨by intro j hj; omega, ?_, rfl⟩
    intro j hj
    rw [mpsBefore_zero] at hj
    exact absurd hj (Nat.not_lt_zero j)
  | succ n ih =>
    obtain ⟨i1, i2, i3⟩ := ih (by omega)
    obtain ⟨hth, -⟩ := mpsBefore_planes self cas scene mps hwf n (by omega)
    obtain ⟨fr1, fr2, fr3, -⟩ := mpsBefore_frame self cas scene mps n
    obtain ⟨mask, roi, hg⟩ := mps_getMask_ok _ _ hwf n (by omega)
    obtain ⟨-, -, s3, s4, -⟩ := mpsStep_ok (mpsBefore self cas scene mps n) n mask roi hth
      (by rw [fr2, fr3]; exact hg)
    rw [fr1] at s3 s4
    have hlt := mpsBefore_biggest_lt self cas scene mps n
    rw [mpsBefore_succ]
    by_cases hc : (regionAt (mps cas.getCloud cas.getNormals).regions n).count >
        (regionAt (mps cas.getCloud cas.getNormals).regions
          (mpsBefore self cas scene mps n).biggest).count
    · rw [if_pos hc] at s3 s4
      rw [s3, s4]
      have hn0 : n ≠ 0 := by
        intro h0
        subst h0
        rcases hlt with h | h
        · rw [h] at hc; omega
        · omega
      refine ⟨?_, ?_, by rw [if_neg hn0]⟩
      · intro j hj
        by_cases hjn : j < n
        · have := i1 j hjn; omega
        · have : j = n := by omega
          subst this; exact le_refl _
      · intro j hj
        have := i1 j hj
        omega
    · rw [if_neg hc] at s3 s4
      rw [s3, s4]
      refine ⟨?_, i2, i3⟩
      intro j hj
      by_cases hjn : j < n
      · exact i1 j hjn
      · have : j = n := by omega
        subst this; omega

/-! ## Claims on the regions of the multi-region estimator -/

/-- C13: when the segmenter returns `k` regions with one inlier list each (non-empty,
with indices of the grid), `estimateFromMPS` raises nothing and appends exactly `k`
planes in region order; plane `i` carries the inlier list of region `i` unchanged, the
mask and the ROI that `getMask` returns for that list, and the sign-normalised model of
region `i`. -/
theorem estimateFromMPS_one_plane_per_region (self : PlaneAnnotator) (cas : CAS)
    (scene : Scene) (mps : PointCloud → List Normal → MpsResult)
    (hlen : (mps cas.getCloud cas.getNormals).inlierIndices.length =
      (mps cas.getCloud cas.getNormals).regions.length)
    (hin : ∀ l ∈ (mps cas.getCloud cas.getNormals).inlierIndices, l ≠ [] ∧
      ∀ i ∈ l, 0 ≤ i ∧ i < (cas.getCloud.width : Int) * (cas.getCloud.height : Int)) :
    (estimateFromMPS self cas scene mps).thrown = none ∧
    ∃ em : List Plane,
      (estimateFromMPS self cas scene mps).scene.annotations =
        scene.annotations ++ em.map Annot.plane ∧
      em.length = (mps cas.getCloud cas.getNormals).regions.length ∧
      ∀ i, i < (mps cas.getCloud cas.getNormals).regions.length →
        ∃ p mask roi, em[i]? = some p ∧
          getMask ((mps cas.getCloud cas.getNormals).inlierIndices.getD i [])
            cas.getCloud.size = .ok (mask, roi) ∧
          p.inliers = some ((mps cas.getCloud cas.getNormals).inlierIndices.getD i []) ∧
          p.mask = some mask ∧ p.roi = some roi ∧
          p.model = some (mpsPlaneModel
            (regionAt (mps cas.getCloud cas.getNormals).regions i)) := by
  obtain ⟨l1, l2, -, -⟩ := estimateFromMPS_loop self cas scene mps
  obtain ⟨hth, em, hann, hl, hall⟩ :=
    mpsBefore_planes self cas scene mps ⟨hlen, hin⟩ _ (le_refl _)
  refine ⟨by rw [l2]; exact hth, em, by rw [l1]; exact hann, hl, ?_⟩
  intro i hi
  obtain ⟨p, mask, roi, h1, h2, h3⟩ := hall i hi
  exact ⟨p, mask, roi, h1, h2, by rw [h3], by rw [h3], by rw [h3], by rw [h3]⟩

theorem estimateFromMPS_one_plane_per_region_witness :
    (twoRegionMps (sampleCas sampleCloud).getCloud
        (sampleCas sampleCloud).getNormals).inlierIndices.length =
      (twoRegionMps (sampleCas sampleCloud).getCloud
        (sampleCas sampleCloud).getNormals).regions.length ∧
    (estimateFromMPS (sampleAnnotator Mode.MPS false) (sampleCas sampleCloud) emptyScene
      twoRegionMps).thrown = none ∧
    ∃ em : List Plane,
      (estimateFromMPS (sampleAnnotator Mode.MPS false) (sampleCas sampleCloud) emptyScene
        twoRegionMps).scene.annotations = emptyScene.annotations ++ em.map Annot.plane ∧
      em.length = (twoRegionMps (sampleCas sampleCloud).getCloud
        (sampleCas sampleCloud).getNormals).regions.length ∧
      ∀ i, i < (twoRegionMps (sampleCas sampleCloud).getCloud
          (sampleCas sampleCloud).getNormals).regions.length →
        ∃ p mask roi, em[i]? = some p ∧
          getMask ((twoRegionMps (sampleCas sampleCloud).getCloud
            (sampleCas sampleCloud).getNormals).inlierIndices.getD i [])
            (sampleCas sampleCloud).getCloud.size = .ok (mask, roi) ∧
          p.inliers = some ((twoRegionMps (sampleCas sampleCloud).getCloud
            (sampleCas sampleCloud).getNormals).inlierIndices.getD i []) ∧
          p.mask = some mask ∧ p.roi = some roi ∧
          p.model = some (mpsPlaneModel
            (regionAt (twoRegionMps (sampleCas sampleCloud).getCloud
              (sampleCas sampleCloud).getNormals).regions i)) :=
  ⟨by decide,
    estimateFromMPS_one_plane_per_region (sampleAnnotator Mode.MPS false)
      (sampleCas sampleCloud) emptyScene twoRegionMps (by decide) (by decide)⟩

/-- C18 (the code at the failing input): for two regions of which the first has more
points, the loop ends with `biggest = 0`, the index of the largest region, but with
`biggest_planeModel` still the vector of zeros, while the model appended for region 0
is `(0, 0, 1, -1)`. -/
theorem estimateFromMPS_first_largest_model_zero :
    (estimateFromMPS (sampleAnnotator Mode.MPS false) (sampleCas sampleCloud) emptyScene
      twoRegionMps).thrown = none ∧
    (estimateFromMPS (sampleAnnotator Mode.MPS false) (sampleCas sampleCloud) emptyScene
      twoRegionMps).biggest = 0 ∧
    (estimateFromMPS (sampleAnnotator Mode.MPS false) (sampleCas sampleCloud) emptyScene
      twoRegionMps).biggest_planeModel = [0, 0, 0, 0] ∧
    (estimateFromMPS (sampleAnnotator Mode.MPS false) (sampleCas sampleCloud) emptyScene
      twoRegionMps).scene.planes.map Plane.model =
      [some [0, 0, 1, -1], some [-1, 0, 0, -1]] := by
  decide

/-- C19 (counterexample): there is no list of regions, with the first region the
largest or not, for which an iteration of the loop of `estimateFromMPS` compares with
`regions[biggest]` at an index outside `[0, number of regions)`. -/
theorem estimateFromMPS_no_out_of_range_read :
    ¬ ∃ (self : PlaneAnnotator) (cas : CAS) (scene : Scene)
        (mps : PointCloud → List Normal → MpsResult) (i : Nat),
      (mps cas.getCloud cas.getNormals).regions ≠ [] ∧
      (∀ j, (regionAt (mps cas.getCloud cas.getNormals).regions j).count ≤
        (regionAt (mps cas.getCloud cas.getNormals).regions 0).count) ∧
      i < (mps cas.getCloud cas.getNormals).regions.length ∧
      ¬ mpsComparedIndex self cas scene mps i <
        (mps cas.getCloud cas.getNormals).regions.length := by
  rintro ⟨self, cas, scene, mps, i, -, -, hi, hout⟩
  apply hout
  unfold mpsComparedIndex
  rcases mpsBefore_biggest_lt self cas scene mps i with h | h
  · rw [h]; omega
  · omega

/-- C19 (amended): for every list of regions, each iteration `i` of the loop of
`estimateFromMPS` compares with `regions[biggest]` at an index inside
`[0, number of regions)`; when no region has more points than the first, that index
is 0. -/
theorem mpsComparedIndex_in_range (self : PlaneAnnotator) (cas : CAS) (scene : Scene)
    (mps : PointCloud → List Normal → MpsResult) (i : Nat)
    (hi : i < (mps cas.getCloud cas.getNormals).regions.length) :
    mpsComparedIndex self cas scene mps i <
      (mps cas.getCloud cas.getNormals).regions.length ∧
    mpsComparedIndex self cas scene mps i ≤ i ∧
    ((∀ j, (regionAt (mps cas.getCloud cas.getNormals).regions j).count ≤
        (regionAt (mps cas.getCloud cas.getNormals).regions 0).count) →
      mpsComparedIndex self cas scene mps i = 0) := by
  unfold mpsComparedIndex
  refine ⟨?_, ?_, fun hfirst => mpsBefore_biggest_zero self cas scene mps hfirst i⟩
  · rcases mpsBefore_biggest_lt self cas scene mps i with h | h
    · rw [h]; omega
    · omega
  · rcases mpsBefore_biggest_lt self cas scene mps i with h | h
    · rw [h]; omega
    · omega

theorem mpsComparedIndex_in_range_witness :
    1 < (twoRegionMps (sampleCas sampleCloud).getCloud
      (sampleCas sampleCloud).getNormals).regions.length ∧
    (mpsComparedIndex (sampleAnnotator Mode.MPS false) (sampleCas sampleCloud) emptyScene
        twoRegionMps 1 <
      (twoRegionMps (sampleCas sampleCloud).getCloud
        (sampleCas sampleCloud).getNormals).regions.length ∧
    mpsComparedIndex (sampleAnnotator Mode.MPS false) (sampleCas sampleCloud) emptyScene
        twoRegionMps 1 ≤ 1 ∧
    ((∀ j, (regionAt (twoRegionMps (sampleCas sampleCloud).getCloud
          (sampleCas sampleCloud).getNormals).regions j).count ≤
        (regionAt (twoRegionMps (sampleCas sampleCloud).getCloud
          (sampleCas sampleCloud).getNormals).regions 0).count) →
      mpsComparedIndex (sampleAnnotator Mode.MPS false) (sampleCas sampleCloud) emptyScene
        twoRegionMps 1 = 0)) :=
  ⟨by decide,
    mpsComparedIndex_in_range (sampleAnnotator Mode.MPS false) (sampleCas sampleCloud)
      emptyScene twoRegionMps 1 (by decide)⟩

/-! ## Claims on the models -/

theorem process_cloud_coefficients (self : PlaneAnnotator)
    (segment : List PointXYZRGBA → SacResult) :
    (process_cloud self segment).2.2 =
      (segment (removeNaNFromPointCloud self.cloud).1).coefficients := by
  unfold process_cloud
  simp only
  split <;> rfl

/-- Without solver inliers `estimateFromPCL` changes neither the scene nor the flag. -/
theorem estimateFromPCL_no_inliers (self : PlaneAnnotator) (cas : CAS) (scene : Scene)
    (segment : List PointXYZRGBA → SacResult)
    (hnone : (segment (removeNaNFromPointCloud cas.getCloud).1).inliers = []) :
    (estimateFromPCL self cas scene segment).scene = scene ∧
    (estimateFromPCL self cas scene segment).thrown = none ∧
    (estimateFromPCL self cas scene segment).self.foundPlane = self.foundPlane := by
  have hfst : (process_cloud { self with cloud := cas.getCloud } segment).1 = false :=
    (process_cloud_fst { self with cloud := cas.getCloud } segment).mpr hnone
  unfold estimateFromPCL
  simp only [hfst, Bool.false_eq_true, if_false]
  refine ⟨trivial, trivial, ?_⟩
  unfold process_cloud
  simp only
  split <;> rfl

/-- C16: in single-plane mode, when the solver returns the coefficients `(a, b, c, d)`,
`estimateFromPCL` either appends nothing or appends one plane whose model is
`(a, b, c, d)`, entry by entry and with the same signs; on an organized cloud with a
non-empty solver result that indexes the filtered cloud, the plane is appended. -/
theorem estimateFromPCL_model_unflipped (self : PlaneAnnotator) (cas : CAS) (scene : Scene)
    (segment : List PointXYZRGBA → SacResult) (a b c d : ℚ)
    (hcoef : (segment (removeNaNFromPointCloud cas.getCloud).1).coefficients = [a, b, c, d]) :
    ((estimateFromPCL self cas scene segment).scene = scene ∨
      ∃ plane : Plane,
        (estimateFromPCL self cas scene segment).scene.annotations =
          scene.annotations ++ [Annot.plane plane] ∧
        plane.model = some [a, b, c, d]) ∧
    (cas.getCloud.points.length = cas.getCloud.width * cas.getCloud.height →
      (∀ i ∈ (segment (removeNaNFromPointCloud cas.getCloud).1).inliers,
        0 ≤ i ∧ i < ((removeNaNFromPointCloud cas.getCloud).1.length : Int)) →
      (segment (removeNaNFromPointCloud cas.getCloud).1).inliers ≠ [] →
      ∃ plane : Plane,
        (estimateFromPCL self cas scene segment).scene.annotations =
          scene.annotations ++ [Annot.plane plane] ∧
        plane.model = some [a, b, c, d]) := by
  have hc : (process_cloud { self with cloud := cas.getCloud } segment).2.2 = [a, b, c, d] := by
    rw [process_cloud_coefficients]; exact hcoef
  constructor
  · unfold estimateFromPCL
    simp only
    split
    · split
      · left; rfl
      · right
        refine ⟨_, rfl, ?_⟩
        simp only [hc, List.getD_cons_zero, List.getD_cons_succ]
    · left; rfl
  · intro horg hidx hne
    obtain ⟨plane, mask, roi, h1, -, -, -, -, h6, -⟩ :=
      estimateFromPCL_emits self cas scene segment horg hidx hne
    refine ⟨plane, by rw [h1]; rfl, ?_⟩
    rw [h6, hcoef]
    simp only [List.getD_cons_zero, List.getD_cons_succ]

theorem estimateFromPCL_model_unflipped_witness :
    (sampleSegment (removeNaNFromPointCloud (sampleCas sampleCloud).getCloud).1).coefficients
      = [0, 0, 1, -1] ∧
    (((estimateFromPCL (sampleAnnotator Mode.PCL false) (sampleCas sampleCloud) emptyScene
        sampleSegment).scene = emptyScene ∨
      ∃ plane : Plane,
        (estimateFromPCL (sampleAnnotator Mode.PCL false) (sampleCas sampleCloud) emptyScene
          sampleSegment).scene.annotations = emptyScene.annotations ++ [Annot.plane plane] ∧
        plane.model = some [0, 0, 1, -1]) ∧
    ((sampleCas sampleCloud).getCloud.points.length =
        (sampleCas sampleCloud).getCloud.width * (sampleCas sampleCloud).getCloud.height →
      (∀ i ∈ (sampleSegment
          (removeNaNFromPointCloud (sampleCas sampleCloud).getCloud).1).inliers,
        0 ≤ i ∧
        i < ((removeNaNFromPointCloud (sampleCas sampleCloud).getCloud).1.length : Int)) →
      (sampleSegment (removeNaNFromPointCloud (sampleCas sampleCloud).getCloud).1).inliers
        ≠ [] →
      ∃ plane : Plane,
        (estimateFromPCL (sampleAnnotator Mode.PCL false) (sampleCas sampleCloud) emptyScene
          sampleSegment).scene.annotations = emptyScene.annotations ++ [Annot.plane plane] ∧
        plane.model = some [0, 0, 1, -1])) :=
  ⟨by decide,
    estimateFromPCL_model_unflipped (sampleAnnotator Mode.PCL false) (sampleCas sampleCloud)
      emptyScene sampleSegment 0 0 1 (-1) (by decide)⟩

/-- C17: the sign rule of the multi-region estimator keeps a region model `(a, b, c, d)`
when `d < 0` and negates all four entries otherwise; the result is the model or its
negation, and a point `(x, y, z)` satisfies the plane equation of the result exactly
when it satisfies that of the region model. -/
theorem mpsPlaneModel_sign_rule (r : PlanarRegion) :
    (r.c3 < 0 → mpsPlaneModel r = [r.c0, r.c1, r.c2, r.c3]) ∧
    (¬ r.c3 < 0 → mpsPlaneModel r = [-r.c0, -r.c1, -r.c2, -r.c3]) ∧
    (mpsPlaneModel r = [r.c0, r.c1, r.c2, r.c3] ∨
      mpsPlaneModel r = [-r.c0, -r.c1, -r.c2, -r.c3]) ∧
    ∃ a b c d : ℚ, mpsPlaneModel r = [a, b, c, d] ∧
      ∀ x y z : ℚ, a * x + b * y + c * z + d = 0 ↔
        r.c0 * x + r.c1 * y + r.c2 * z + r.c3 = 0 := by
  unfold mpsPlaneModel
  by_cases h : r.c3 < 0
  · refine ⟨fun _ => by rw [if_pos h], fun hn => absurd h hn, Or.inl (by rw [if_pos h]),
      r.c0, r.c1, r.c2, r.c3, by rw [if_pos h], fun x y z => Iff.rfl⟩
  · refine ⟨fun hp => absurd hp h, fun _ => by rw [if_neg h], Or.inr (by rw [if_neg h]),
      -r.c0, -r.c1, -r.c2, -r.c3, by rw [if_neg h], fun x y z => ?_⟩
    constructor
    · intro hx; linarith
    · intro hx; linarith

/-! ## Claims on configuration and dispatch -/

/-- C14 (counterexample): for a context with the mode name `FOO` and the distance
threshold `-1`, `initialize` returns `UIMA_ERR_NONE`, keeps the mode and stores the
negative threshold. -/
theorem initialize_accepts_invalid :
    (initializePlaneAnnotator (sampleAnnotator Mode.BOARD false) invalidContext).1
      = UIMA_ERR_NONE ∧
    (initializePlaneAnnotator (sampleAnnotator Mode.BOARD false) invalidContext).2.mode
      = Mode.BOARD ∧
    (initializePlaneAnnotator (sampleAnnotator Mode.BOARD false)
      invalidContext).2.distance_threshold = -1 := by
  decide

theorem selectMode_other (self : PlaneAnnotator) (m : String)
    (h1 : m ≠ "BOARD") (h2 : m ≠ "PCL") (h3 : m ≠ "MPS") : selectMode self m = self := by
  unfold selectMode
  rw [if_neg h1, if_neg h2, if_neg h3]

theorem readTunables_mode (s : PlaneAnnotator) (ctx : AnnotatorContext) :
    (readTunables s ctx).mode = s.mode := by
  obtain ⟨m, a, b, c, d, e⟩ := ctx
  cases a <;> cases b <;> cases c <;> cases d <;> cases e <;> rfl

theorem readTunables_distance_threshold (s : PlaneAnnotator) (ctx : AnnotatorContext)
    (v : ℚ) (hv : ctx.distance_threshold = some v) :
    (readTunables s ctx).distance_threshold = v := by
  obtain ⟨m, a, b, c, d, e⟩ := ctx
  simp only at hv
  subst hv
  cases a <;> cases b <;> cases d <;> cases e <;> rfl

theorem readTunables_max_curvature (s : PlaneAnnotator) (ctx : AnnotatorContext)
    (v : ℚ) (hv : ctx.max_curvature = some v) :
    (readTunables s ctx).max_curvature = v := by
  obtain ⟨m, a, b, c, d, e⟩ := ctx
  simp only at hv
  subst hv
  cases a <;> cases b <;> cases c <;> cases e <;> rfl

theorem readTunables_angular_threshold_deg (s : PlaneAnnotator) (ctx : AnnotatorContext)
    (v : ℚ) (hv : ctx.angular_threshold_deg = some v) :
    (readTunables s ctx).angular_threshold_deg = v := by
  obtain ⟨m, a, b, c, d, e⟩ := ctx
  simp only at hv
  subst hv
  cases a <;> cases b <;> cases c <;> cases d <;> rfl

/-- C14 (amended): `initialize` rejects no configuration: for every context it returns
`UIMA_ERR_NONE`; a mode name other than `BOARD`, `PCL` and `MPS` leaves the mode as it
was, and a threshold defined next to a mode name is stored as given, negative or not. -/
theorem initialize_never_rejects (self : PlaneAnnotator) (ctx : AnnotatorContext) :
    (initializePlaneAnnotator self ctx).1 = UIMA_ERR_NONE ∧
    (∀ m, ctx.mode = some m → m ≠ "BOARD" → m ≠ "PCL" → m ≠ "MPS" →
      (initializePlaneAnnotator self ctx).2.mode = self.mode) ∧
    (∀ m v, ctx.mode = some m → ctx.distance_threshold = some v →
      (initializePlaneAnnotator self ctx).2.distance_threshold = v) ∧
    (∀ m v, ctx.mode = some m → ctx.max_curvature = some v →
      (initializePlaneAnnotator self ctx).2.max_curvature = v) ∧
    (∀ m v, ctx.mode = some m → ctx.angular_threshold_deg = some v →
      (initializePlaneAnnotator self ctx).2.angular_threshold_deg = v) := by
  refine ⟨?_, ?_, ?_, ?_, ?_⟩
  · unfold initializePlaneAnnotator
    split <;> rfl
  · intro m hm h1 h2 h3
    unfold initializePlaneAnnotator
    simp only [hm]
    rw [readTunables_mode, selectMode_other self m h1 h2 h3]
  · intro m v hm hv
    unfold initializePlaneAnnotator
    simp only [hm]
    exact readTunables_distance_threshold _ ctx v hv
  · intro m v hm hv
    unfold initializePlaneAnnotator
    simp only [hm]
    exact readTunables_max_curvature _ ctx v hv
  · intro m v hm hv
    unfold initializePlaneAnnotator
    simp only [hm]
    exact readTunables_angular_threshold_deg _ ctx v hv

theorem firstPointSegment_in_range :
    ∀ pts, ∀ i ∈ (firstPointSegment pts).inliers, 0 ≤ i ∧ i < (pts.length : Int) := by
  intro pts i hi
  cases pts with
  | nil => exact absurd hi (List.not_mem_nil i)
  | cons p ps =>
    have h0 : i = 0 := by simpa [firstPointSegment] using hi
    subst h0
    refine ⟨le_refl _, ?_⟩
    have : (0 : Int) ≤ (ps.length : Int) := Int.ofNat_nonneg _
    simp only [List.length_cons, Nat.cast_add, Nat.cast_one]
    omega

/-- C15 (counterexample): in board mode, on a frame without the camera info view and
with a board in the scene, `processWithLock` still appends a plane, sets the
plane-found flag and returns `UIMA_ERR_NONE`. -/
theorem processWithLock_board_without_calibration :
    (processWithLock (sampleAnnotator Mode.BOARD false) sampleBoardMembers
      (sampleCas sampleCloud) none boardScene sampleSegment sampleMps sampleSolvePnP
      sampleRodrigues).scene.planes ≠ [] ∧
    (processWithLock (sampleAnnotator Mode.BOARD false) sampleBoardMembers
      (sampleCas sampleCloud) none boardScene sampleSegment sampleMps sampleSolvePnP
      sampleRodrigues).self.foundPlane = true ∧
    (processWithLock (sampleAnnotator Mode.BOARD false) sampleBoardMembers
      (sampleCas sampleCloud) none boardScene sampleSegment sampleMps sampleSolvePnP
      sampleRodrigues).result = .ok UIMA_ERR_NONE := by
  refine ⟨?_, rfl, rfl⟩
  simp [processWithLock, sampleAnnotator, estimateFromBoard, boardScene, Scene.boards,
    Scene.planes, Scene.append]

/-- C15 (amended): in single-plane mode with the cloud view missing (the solver
reporting only indices into its input) and in multi-region mode with the cloud or the
normals view missing (the segmenter reporting no region on an empty cloud or on empty
normals), `processWithLock` appends no plane and returns `UIMA_ERR_NONE`.  In board mode
the camera info view is not checked: present or missing, `processWithLock` returns
`UIMA_ERR_NONE`; without a board it appends nothing and clears the plane-found flag,
and with a board it appends one plane and sets the flag. -/
theorem processWithLock_missing_input (self : PlaneAnnotator) (bm : BoardMembers)
    (cas : CAS) (camInfoHD : Option CameraInfo) (scene : Scene)
    (segment : List PointXYZRGBA → SacResult)
    (mps : PointCloud → List Normal → MpsResult)
    (solvePnPRansac : Board → List ℚ → List ℚ → Option Pose → Pose)
    (Rodrigues : Vec3 → Mat3) :
    (self.mode = Mode.PCL → cas.cloud = none →
      (∀ pts, ∀ i ∈ (segment pts).inliers, 0 ≤ i ∧ i < (pts.length : Int)) →
      (processWithLock self bm cas camInfoHD scene segment mps solvePnPRansac
        Rodrigues).scene = scene ∧
      (processWithLock self bm cas camInfoHD scene segment mps solvePnPRansac
        Rodrigues).result = .ok UIMA_ERR_NONE) ∧
    (self.mode = Mode.MPS → (cas.cloud = none ∨ cas.normals = none) →
      (∀ cloud normals, cloud.points = [] ∨ normals = [] → (mps cloud normals).regions = []) →
      (processWithLock self bm cas camInfoHD scene segment mps solvePnPRansac
        Rodrigues).scene = scene ∧
      (processWithLock self bm cas camInfoHD scene segment mps solvePnPRansac
        Rodrigues).result = .ok UIMA_ERR_NONE) ∧
    (self.mode = Mode.BOARD →
      (processWithLock self bm cas camInfoHD scene segment mps solvePnPRansac
        Rodrigues).result = .ok UIMA_ERR_NONE ∧
      (scene.boards = [] →
        (processWithLock self bm cas camInfoHD scene segment mps solvePnPRansac
          Rodrigues).scene = scene ∧
        (processWithLock self bm cas camInfoHD scene segment mps solvePnPRansac
          Rodrigues).self.foundPlane = false) ∧
      (scene.boards ≠ [] →
        (∃ plane : Plane,
          (processWithLock self bm cas camInfoHD scene segment mps solvePnPRansac
            Rodrigues).scene = scene.append plane) ∧
        (processWithLock self bm cas camInfoHD scene segment mps solvePnPRansac
          Rodrigues).self.foundPlane = true)) := by
  refine ⟨?_, ?_, ?_⟩
  · intro hmode hcloud hsolver
    have hempty : (removeNaNFromPointCloud cas.getCloud).1 = [] := by
      simp [CAS.getCloud, hcloud, PointCloud.empty, removeNaNFromPointCloud, removeNaNLoop]
    have hnone : (segment (removeNaNFromPointCloud cas.getCloud).1).inliers = [] := by
      rw [hempty]
      apply List.eq_nil_iff_forall_not_mem.mpr
      intro i hi
      have := hsolver [] i hi
      simp only [List.length_nil, Int.ofNat_zero] at this
      omega
    obtain ⟨h1, h2, -⟩ := estimateFromPCL_no_inliers self cas scene segment hnone
    unfold processWithLock
    simp only [hmode, h1, h2]
    exact ⟨trivial, trivial⟩
  · intro hmode hmissing hseg
    have hzero : (mps cas.getCloud cas.getNormals).regions = [] := by
      apply hseg
      rcases hmissing with h | h
      · left; simp [CAS.getCloud, h, PointCloud.empty]
      · right; simp [CAS.getNormals, h]
    obtain ⟨h1, h2, -⟩ := estimateFromMPS_no_regions self cas scene mps hzero
    unfold processWithLock
    simp only [hmode, h1, h2]
    exact ⟨trivial, trivial⟩
  · intro hmode
    unfold processWithLock
    simp only [hmode]
    refine ⟨trivial, ?_, ?_⟩
    · intro hb
      unfold estimateFromBoard
      simp only [hb]
      exact ⟨trivial, trivial⟩
    · intro hb
      unfold estimateFromBoard
      cases hbs : scene.boards with
      | nil => exact absurd hbs hb
      | cons b rest => exact ⟨⟨_, rfl⟩, rfl⟩

theorem processWithLock_missing_input_witness :
    ((sampleAnnotator Mode.PCL false).mode = Mode.PCL ∧
      ({ cloud := none, normals := none } : CAS).cloud = none ∧
      (∀ pts, ∀ i ∈ (firstPointSegment pts).inliers, 0 ≤ i ∧ i < (pts.length : Int)) ∧
      (processWithLock (sampleAnnotator Mode.PCL false) sampleBoardMembers
        { cloud := none, normals := none } none emptyScene firstPointSegment noRegionMps
        sampleSolvePnP sampleRodrigues).scene = emptyScene ∧
      (processWithLock (sampleAnnotator Mode.PCL false) sampleBoardMembers
        { cloud := none, normals := none } none emptyScene firstPointSegment noRegionMps
        sampleSolvePnP sampleRodrigues).result = .ok UIMA_ERR_NONE) ∧
    ((sampleAnnotator Mode.MPS false).mode = Mode.MPS ∧
      (processWithLock (sampleAnnotator Mode.MPS false) sampleBoardMembers
        { cloud := none, normals := none } none emptyScene firstPointSegment noRegionMps
        sampleSolvePnP sampleRodrigues).scene = emptyScene ∧
      (processWithLock (sampleAnnotator Mode.MPS false) sampleBoardMembers
        { cloud := none, normals := none } none emptyScene firstPointSegment noRegionMps
        sampleSolvePnP sampleRodrigues).result = .ok UIMA_ERR_NONE) :=
  ⟨⟨rfl, rfl, firstPointSegment_in_range,
    (processWithLock_missing_input (sampleAnnotator Mode.PCL false) sampleBoardMembers
      { cloud := none, normals := none } none emptyScene firstPointSegment noRegionMps
      sampleSolvePnP sampleRodrigues).1 rfl rfl firstPointSegment_in_range⟩,
   ⟨rfl,
    (processWithLock_missing_input (sampleAnnotator Mode.MPS false) sampleBoardMembers
      { cloud := none, normals := none } none emptyScene firstPointSegment noRegionMps
      sampleSolvePnP sampleRodrigues).2.1 rfl (Or.inl rfl) (fun _ _ _ => rfl)⟩⟩

/-! ## Claims on the lookup tables -/

/-- With non-empty `lookupX` one call of `createCloud` keeps both lookup rows. -/
theorem createCloud_keeps_lookup (self : ImagePreprocessor) (cas : CAS)
    (camInfoView : Option CameraInfo)
    (project : List (List Nat) → List (List Nat) → Mat → List ℚ → List ℚ → PointCloud)
    (hne : self.lookupX ≠ []) :
    (createCloud self cas camInfoView project).1.lookupX = self.lookupX ∧
    (createCloud self cas camInfoView project).1.lookupY = self.lookupY := by
  have hemp : self.lookupX.isEmpty = false := by
    cases hx : self.lookupX with
    | nil => exact absurd hx hne
    | cons a l => rfl
  unfold createCloud
  simp only [hemp, Bool.false_eq_true, if_false]
  split <;> exact ⟨rfl, rfl⟩

/-- C20: once `lookupX` is non-empty, a call of `createCloud` leaves `lookupX` and
`lookupY` unchanged whatever the frame and its camera info, the same as the one the rows
were built from or another, and so does every sequence of later calls: no rebuild
happens.  The rows are the ones `createLookup` computes when `createCloud` first finds
`lookupX` empty and a camera info in the frame. -/
theorem createCloud_lookup_cached (self : ImagePreprocessor)
    (project : List (List Nat) → List (List Nat) → Mat → List ℚ → List ℚ → PointCloud)
    (hne : self.lookupX ≠ []) :
    (∀ (cas : CAS) (camInfoView : Option CameraInfo),
      (createCloud self cas camInfoView project).1.lookupX = self.lookupX ∧
      (createCloud self cas camInfoView project).1.lookupY = self.lookupY) ∧
    (∀ frames : List (CAS × Option CameraInfo),
      (createCloudFrames self project frames).lookupX = self.lookupX ∧
      (createCloudFrames self project frames).lookupY = self.lookupY) ∧
    (∀ (s0 : ImagePreprocessor) (cas : CAS) (camInfo : CameraInfo), s0.lookupX = [] →
      (createCloud s0 cas (some camInfo) project).1.lookupX = (createLookup camInfo).1 ∧
      (createCloud s0 cas (some camInfo) project).1.lookupY = (createLookup camInfo).2 ∧
      (createCloud s0 cas (some camInfo) project).1.lookupX.length = camInfo.width ∧
      (createCloud s0 cas (some camInfo) project).1.lookupY.length = camInfo.height) := by
  refine ⟨fun cas camInfoView => createCloud_keeps_lookup self cas camInfoView project hne,
    ?_, ?_⟩
  · intro frames
    unfold createCloudFrames
    induction frames generalizing self with
    | nil => exact ⟨rfl, rfl⟩
    | cons f rest ih =>
      obtain ⟨h1, h2⟩ := createCloud_keeps_lookup self f.1 f.2 project hne
      obtain ⟨r1, r2⟩ := ih (createCloud self f.1 f.2 project).1 (by rw [h1]; exact hne)
      simp only [List.foldl_cons]
      exact ⟨by rw [r1, h1], by rw [r2, h2]⟩
  · intro s0 cas camInfo hempty
    have hemp : s0.lookupX.isEmpty = true := by rw [hempty]; rfl
    have hx : (createCloud s0 cas (some camInfo) project).1.lookupX =
        (createLookup camInfo).1 := by
      unfold createCloud
      simp only [hemp, if_true]
      split <;> rfl
    have hy : (createCloud s0 cas (some camInfo) project).1.lookupY =
        (createLookup camInfo).2 := by
      unfold createCloud
      simp only [hemp, if_true]
      split <;> rfl
    refine ⟨hx, hy, ?_, ?_⟩
    · rw [hx]; simp only [createLookup, List.length_map, List.length_range]
    · rw [hy]; simp only [createLookup, List.length_map, List.length_range]

theorem createCloud_lookup_cached_witness :
    samplePreprocessor.lookupX ≠ [] ∧
    (createCloud samplePreprocessor (sampleCas sampleCloud) (some otherCamInfo)
      sampleProject).1.lookupX = samplePreprocessor.lookupX ∧
    (createCloud samplePreprocessor (sampleCas sampleCloud) (some otherCamInfo)
      sampleProject).1.lookupY = samplePreprocessor.lookupY ∧
    (createCloudFrames samplePreprocessor sampleProject
      [(sampleCas sampleCloud, some sampleCamInfo), (sampleCas sampleCloud, none),
       (sampleCas sampleCloud, some otherCamInfo)]).lookupX = samplePreprocessor.lookupX :=
  ⟨by decide,
    ((createCloud_lookup_cached samplePreprocessor sampleProject (by decide)).1
      (sampleCas sampleCloud) (some otherCamInfo)).1,
    ((createCloud_lookup_cached samplePreprocessor sampleProject (by decide)).1
      (sampleCas sampleCloud) (some otherCamInfo)).2,
    ((createCloud_lookup_cached samplePreprocessor sampleProject (by decide)).2.1
      [(sampleCas sampleCloud, some sampleCamInfo), (sampleCas sampleCloud, none),
       (sampleCas sampleCloud, some otherCamInfo)]).1⟩

/-- The lookup rows built for the sample camera info. -/
theorem createLookup_sample : createLookup sampleCamInfo = ([-1, 0], [-1, 0, 1]) := by
  simp [createLookup, sampleCamInfo, List.range_succ]
  norm_num

/-! ## Claims on the bounds and the input order of getMask -/

/-- C21: on a grid of width `w > 0` and height `h`, for a non-empty inlier list with
indices in `[0, w*h)`, the rectangle `getMask` computes lies inside the grid
(`0 ≤ roi.x`, `0 ≤ roi.y`, `roi.width ≥ 1`, `roi.height ≥ 1`, `roi.x + roi.width ≤ w`,
`roi.y + roi.height ≤ h`); the extraction `tmp(roi)` passes its range check and every
write `tmp.at(y, x)` of the loop addresses a cell of the `h` x `w` image. -/
theorem getMask_roi_in_grid (w h : Int) (inliers : List Int) (hw : 0 < w)
    (hne : inliers ≠ []) (hin : ∀ i ∈ inliers, 0 ≤ i ∧ i < w * h) :
    ∃ mask roi, getMask inliers ⟨w, h⟩ = .ok (mask, roi) ∧
      roi = getMaskRoi inliers ⟨w, h⟩ ∧
      0 ≤ roi.x ∧ 0 ≤ roi.y ∧ 1 ≤ roi.width ∧ 1 ≤ roi.height ∧
      roi.x + roi.width ≤ w ∧ roi.y + roi.height ≤ h ∧
      (getMaskScan inliers ⟨w, h⟩).tmp.rows = h ∧
      (getMaskScan inliers ⟨w, h⟩).tmp.cols = w ∧
      (getMaskScan inliers ⟨w, h⟩).tmp.roi roi = .ok mask ∧
      ∀ i ∈ inliers, 0 ≤ pixelY i w ∧ pixelY i w < h ∧ 0 ≤ pixelX i w ∧ pixelX i w < w := by
  obtain ⟨mask, hmask, -⟩ := getMask_ok w h inliers hw hne hin
  obtain ⟨b1, b2, b3, b4, b5, b6⟩ := getMaskRoi_bounds w h inliers hw hne hin
  have hh : 0 ≤ h := by omega
  obtain ⟨-, t2, t3, -⟩ := scan_tmp ⟨w, h⟩ inliers (getMaskInit ⟨w, h⟩) hw
    (Mat.zeros_WF h w hh (le_of_lt hw)) rfl rfl hin
  refine ⟨mask, _, hmask, rfl, b1, b4, b2, b5, b3, b6, t2, t3, ?_, ?_⟩
  · have hg := hmask
    unfold getMask at hg
    simp only at hg
    cases hr : (getMaskScan inliers ⟨w, h⟩).tmp.roi (getMaskRoi inliers ⟨w, h⟩) with
    | error e => rw [hr] at hg; exact absurd hg (by simp)
    | ok m =>
      rw [hr] at hg
      simp only [Except.ok.injEq, Prod.mk.injEq, and_true] at hg
      rw [hg]
  · intro i hi
    obtain ⟨c1, c2, c3, c4⟩ := inlier_col_row w h i hw (hin i hi)
    rw [pixelX_eq i w (hin i hi).1 hw, pixelY_eq i w (hin i hi).1 hw]
    exact ⟨c3, c4, c1, c2⟩

theorem getMask_roi_in_grid_witness :
    (0 : Int) < 4 ∧ ([5, 7, 10] : List Int) ≠ [] ∧
    (∀ i ∈ ([5, 7, 10] : List Int), 0 ≤ i ∧ i < 4 * 3) ∧
    ∃ mask roi, getMask [5, 7, 10] ⟨4, 3⟩ = .ok (mask, roi) ∧
      roi = getMaskRoi [5, 7, 10] ⟨4, 3⟩ ∧
      0 ≤ roi.x ∧ 0 ≤ roi.y ∧ 1 ≤ roi.width ∧ 1 ≤ roi.height ∧
      roi.x + roi.width ≤ 4 ∧ roi.y + roi.height ≤ 3 ∧
      (getMaskScan [5, 7, 10] ⟨4, 3⟩).tmp.rows = 3 ∧
      (getMaskScan [5, 7, 10] ⟨4, 3⟩).tmp.cols = 4 ∧
      (getMaskScan [5, 7, 10] ⟨4, 3⟩).tmp.roi roi = .ok mask ∧
      ∀ i ∈ ([5, 7, 10] : List Int),
        0 ≤ pixelY i 4 ∧ pixelY i 4 < 3 ∧ 0 ≤ pixelX i 4 ∧ pixelX i 4 < 4 :=
  ⟨by decide, by decide, by decide,
    getMask_roi_in_grid 4 3 [5, 7, 10] (by decide) (by decide) (by decide)⟩

/-- Two matrices of the same announced shape with the same cells are equal. -/
theorem Mat.ext_at (m1 m2 : Mat) (h1 : m1.WF) (h2 : m2.WF)
    (hrows : m1.rows = m2.rows) (hcols : m1.cols = m2.cols)
    (hat : ∀ y x : Int, 0 ≤ y → 0 ≤ x → x < m1.cols → m1.at y x = m2.at y x) :
    m1 = m2 := by
  obtain ⟨r1, c1, l1, w1⟩ := h1
  obtain ⟨r2, c2, l2, w2⟩ := h2
  have hdata : m1.data = m2.data := by
    apply List.ext_getElem (by rw [l1, l2, hrows])
    intro i hi1 hi2
    have wa := w1 _ (List.getElem_mem hi1)
    have wb := w2 _ (List.getElem_mem hi2)
    apply List.ext_getElem (by rw [wa, wb, hcols])
    intro j hj1 hj2
    have hj : (j : Int) < m1.cols := by
      rw [wa] at hj1
      omega
    have := hat (i : Int) (j : Int) (Int.ofNat_nonneg i) (Int.ofNat_nonneg j) hj
    unfold Mat.at at this
    rw [if_pos ⟨Int.ofNat_nonneg i, Int.ofNat_nonneg j⟩,
      if_pos ⟨Int.ofNat_nonneg i, Int.ofNat_nonneg j⟩] at this
    simp only [Int.toNat_ofNat, List.getD_eq_getElem?_getD] at this
    rw [List.getElem?_eq_getElem hi1, List.getElem?_eq_getElem hi2] at this
    simp only [Option.getD_some] at this
    rw [List.getElem?_eq_getElem hj1, List.getElem?_eq_getElem hj2] at this
    simpa using this
  cases m1
  cases m2
  simp only at hrows hcols hdata
  subst hrows hcols hdata
  rfl

/-- The image scanned by `getMask` depends only on the set of in-range inliers. -/
theorem getMaskScan_tmp_of_same_set (w h : Int) (l1 l2 : List Int) (hw : 0 < w)
    (hh : 0 ≤ h) (hin1 : ∀ i ∈ l1, 0 ≤ i ∧ i < w * h)
    (hin2 : ∀ i ∈ l2, 0 ≤ i ∧ i < w * h) (hset : ∀ i, i ∈ l1 ↔ i ∈ l2) :
    (getMaskScan l1 ⟨w, h⟩).tmp = (getMaskScan l2 ⟨w, h⟩).tmp := by
  obtain ⟨a1, a2, a3, a4⟩ := scan_tmp ⟨w, h⟩ l1 (getMaskInit ⟨w, h⟩) hw
    (Mat.zeros_WF h w hh (le_of_lt hw)) rfl rfl hin1
  obtain ⟨b1, b2, b3, b4⟩ := scan_tmp ⟨w, h⟩ l2 (getMaskInit ⟨w, h⟩) hw
    (Mat.zeros_WF h w hh (le_of_lt hw)) rfl rfl hin2
  show (List.foldl (getMaskStep ⟨w, h⟩) (getMaskInit ⟨w, h⟩) l1).tmp =
    (List.foldl (getMaskStep ⟨w, h⟩) (getMaskInit ⟨w, h⟩) l2).tmp
  apply Mat.ext_at _ _ a1 b1
  · rw [a2, b2]
  · rw [a3, b3]
  · intro y x hy hx hxw
    have hxw2 : x < w := by
      rw [a3] at hxw
      exact hxw
    rw [a4 y x hy hx hxw2, b4 y x hy hx hxw2]
    by_cases hm : y * w + x ∈ l1
    · rw [if_pos hm, if_pos ((hset _).mp hm)]
    · rw [if_neg hm, if_neg (fun hc => hm ((hset _).mpr hc))]

/-- The rectangle of `getMask` depends only on the set of in-range inliers. -/
theorem getMaskRoi_of_same_set (w h : Int) (l1 l2 : List Int) (hw : 0 < w)
    (hne : l1 ≠ []) (hin1 : ∀ i ∈ l1, 0 ≤ i ∧ i < w * h)
    (hset : ∀ i, i ∈ l1 ↔ i ∈ l2) :
    getMaskRoi l1 ⟨w, h⟩ = getMaskRoi l2 ⟨w, h⟩ := by
  have hne2 : l2 ≠ [] := by
    obtain ⟨a, ha⟩ := List.exists_mem_of_ne_nil l1 hne
    exact List.ne_nil_of_mem ((hset a).mp ha)
  have hin2 : ∀ i ∈ l2, 0 ≤ i ∧ i < w * h := fun i hi => hin1 i ((hset i).mpr hi)
  obtain ⟨p, ⟨i1, m1, e1⟩, ⟨i2, m2, e2⟩, ⟨i3, m3, e3⟩, ⟨i4, m4, e4⟩⟩ :=
    getMaskRoi_spec w h l1 hw hne hin1
  obtain ⟨q, ⟨j1, n1, f1⟩, ⟨j2, n2, f2⟩, ⟨j3, n3, f3⟩, ⟨j4, n4, f4⟩⟩ :=
    getMaskRoi_spec w h l2 hw hne2 hin2
  have p1 := p j1 ((hset j1).mpr n1)
  have p2 := p j2 ((hset j2).mpr n2)
  have p3 := p j3 ((hset j3).mpr n3)
  have p4 := p j4 ((hset j4).mpr n4)
  have q1 := q i1 ((hset i1).mp m1)
  have q2 := q i2 ((hset i2).mp m2)
  have q3 := q i3 ((hset i3).mp m3)
  have q4 := q i4 ((hset i4).mp m4)
  cases hr1 : getMaskRoi l1 ⟨w, h⟩ with
  | mk x1 y1 wd1 ht1 =>
    cases hr2 : getMaskRoi l2 ⟨w, h⟩ with
    | mk x2 y2 wd2 ht2 =>
      rw [hr1] at p1 p2 p3 p4 e1 e2 e3 e4
      rw [hr2] at q1 q2 q3 q4 f1 f2 f3 f4
      simp only at p1 p2 p3 p4 e1 e2 e3 e4 q1 q2 q3 q4 f1 f2 f3 f4
      simp only [Rect.mk.injEq]
      refine ⟨?_, ?_, ?_, ?_⟩ <;> omega

/-- C22: on a grid of width `w ≥ 0`, two inlier lists with the same set of in-range
indices, in any order and with any repetitions, make `getMask` return the same result:
the same mask and the same rectangle (or, for two empty lists, the same failure). -/
theorem getMask_depends_on_set (w h : Int) (l1 l2 : List Int) (hw : 0 ≤ w)
    (hin : ∀ i ∈ l1, 0 ≤ i ∧ i < w * h) (hset : ∀ i, i ∈ l1 ↔ i ∈ l2) :
    getMask l1 ⟨w, h⟩ = getMask l2 ⟨w, h⟩ ∧
    (l1 ≠ [] → ∃ mask roi, getMask l1 ⟨w, h⟩ = .ok (mask, roi) ∧
      getMask l2 ⟨w, h⟩ = .ok (mask, roi)) := by
  by_cases hne : l1 = []
  · have hl2 : l2 = [] := by
      apply List.eq_nil_iff_forall_not_mem.mpr
      intro i hi
      have := (hset i).mpr hi
      rw [hne] at this
      exact absurd this (List.not_mem_nil i)
    rw [hne, hl2]
    exact ⟨rfl, fun hc => absurd rfl hc⟩
  · obtain ⟨a, ha⟩ := List.exists_mem_of_ne_nil l1 hne
    obtain ⟨a0, a1⟩ := hin a ha
    have hw0 : 0 < w := by
      rcases eq_or_lt_of_le hw with h0 | h0
      · rw [← h0, zero_mul] at a1; omega
      · exact h0
    have hh : 0 ≤ h := by
      by_contra hc
      have hneg : h < 0 := not_le.mp hc
      have : w * h < 0 := mul_neg_of_pos_of_neg hw0 hneg
      omega
    have hin2 : ∀ i ∈ l2, 0 ≤ i ∧ i < w * h := fun i hi => hin i ((hset i).mpr hi)
    have htmp := getMaskScan_tmp_of_same_set w h l1 l2 hw0 hh hin hin2 hset
    have hroi := getMaskRoi_of_same_set w h l1 l2 hw0 hne hin hset
    have heq : getMask l1 ⟨w, h⟩ = getMask l2 ⟨w, h⟩ := by
      unfold getMask
      simp only [htmp, hroi]
    refine ⟨heq, fun _ => ?_⟩
    obtain ⟨mask, hmask, -⟩ := getMask_ok w h l1 hw0 hne hin
    exact ⟨mask, _, hmask, by rw [← heq]; exact hmask⟩

theorem getMask_depends_on_set_witness :
    (0 : Int) ≤ 4 ∧
    (∀ i ∈ ([5, 7, 10] : List Int), 0 ≤ i ∧ i < 4 * 3) ∧
    (∀ i, i ∈ ([5, 7, 10] : List Int) ↔ i ∈ ([10, 5, 7, 5] : List Int)) ∧
    getMask [5, 7, 10] ⟨4, 3⟩ = getMask [10, 5, 7, 5] ⟨4, 3⟩ ∧
    (([5, 7, 10] : List Int) ≠ [] → ∃ mask roi, getMask [5, 7, 10] ⟨4, 3⟩ = .ok (mask, roi) ∧
      getMask [10, 5, 7, 5] ⟨4, 3⟩ = .ok (mask, roi)) :=
  ⟨by decide, by decide, by intro i; simp only [List.mem_cons, List.mem_singleton,
      List.not_mem_nil, or_false]; tauto,
    getMask_depends_on_set 4 3 [5, 7, 10] [10, 5, 7, 5] (by decide) (by decide)
      (by intro i; simp only [List.mem_cons, List.mem_singleton, List.not_mem_nil,
        or_false]; tauto)⟩

/-! ## Claims on the depth display -/

theorem dispDepthPixel_eq (d : Nat) : dispDepthPixel d = (d * 255 / 10000) % 256 := by
  unfold dispDepthPixel maxInt maxValue
  rw [Int.tdiv_eq_ediv (by positivity) (by decide)]
  have h : ((d : Int) * 255) / 10000 % 256 = ((d * 255 / 10000 % 256 : Nat) : Int) := by
    push_cast
    rfl
  rw [h, Int.toNat_ofNat]

theorem dispDepthPixel_small (d : Nat) (hd : d ≤ 10000) :
    dispDepthPixel d = d * 255 / 10000 ∧ d * 255 / 10000 ≤ 255 := by
  have hq : d * 255 / 10000 < 256 := by omega
  rw [dispDepthPixel_eq, Nat.mod_eq_of_lt hq]
  exact ⟨rfl, by omega⟩

/-- C25: the scaling of `dispDepth` maps a 16-bit depth `d` to `(d * 255 / 10000) mod 256`
with integer division; for `d` in `[0, 10000]` that is `floor(d * 255 / 10000)`, lies in
`[0, 255]` and does not decrease with `d`; for `d ≥ 10040` the quotient exceeds 255 and
the stored value is smaller than it, and `d = 10040` gives 0.  Every pixel of the loop
is scaled this way. -/
theorem dispDepthPixel_scaling :
    (∀ d, d < 65536 → dispDepthPixel d = (d * 255 / 10000) % 256) ∧
    (∀ d, d ≤ 10000 → dispDepthPixel d = d * 255 / 10000 ∧ dispDepthPixel d ≤ 255) ∧
    (∀ d1 d2, d1 ≤ d2 → d2 ≤ 10000 → dispDepthPixel d1 ≤ dispDepthPixel d2) ∧
    (∀ d, 10040 ≤ d → d < 65536 →
      255 < d * 255 / 10000 ∧ dispDepthPixel d < d * 255 / 10000) ∧
    dispDepthPixel 10040 = 0 ∧
    (∀ (tmpDepth : List (List Nat)) (r c : Nat) (row : List Nat) (d : Nat),
      tmpDepth[r]? = some row → row[c]? = some d →
      ∃ out, (dispDepthScale tmpDepth)[r]? = some out ∧ out[c]? = some (dispDepthPixel d)) := by
  refine ⟨fun d _ => dispDepthPixel_eq d, ?_, ?_, ?_, ?_, ?_⟩
  · intro d hd
    obtain ⟨h1, h2⟩ := dispDepthPixel_small d hd
    exact ⟨h1, by rw [h1]; exact h2⟩
  · intro d1 d2 h12 h2
    rw [(dispDepthPixel_small d1 (le_trans h12 h2)).1, (dispDepthPixel_small d2 h2).1]
    exact Nat.div_le_div_right (Nat.mul_le_mul_right 255 h12)
  · intro d hd hlt
    have hq : 255 < d * 255 / 10000 := by omega
    refine ⟨hq, ?_⟩
    rw [dispDepthPixel_eq]
    have hm : d * 255 / 10000 % 256 < 256 := Nat.mod_lt _ (by decide)
    omega
  · rw [dispDepthPixel_eq]
  · intro tmpDepth r c row d hr hc
    refine ⟨row.map dispDepthPixel, ?_, ?_⟩
    · simp only [dispDepthScale, List.getElem?_map, hr, Option.map_some']
    · simp only [List.getElem?_map, hc, Option.map_some']

theorem dispDepthPixel_scaling_witness :
    dispDepthPixel 5000 = 5000 * 255 / 10000 ∧ dispDepthPixel 5000 ≤ 255 ∧
    dispDepthPixel 5000 ≤ dispDepthPixel 10000 ∧
    (255 < 20000 * 255 / 10000 ∧ dispDepthPixel 20000 < 20000 * 255 / 10000) ∧
    dispDepthPixel 10040 = 0 :=
  ⟨(dispDepthPixel_scaling.2.1 5000 (by decide)).1,
    (dispDepthPixel_scaling.2.1 5000 (by decide)).2,
    dispDepthPixel_scaling.2.2.1 5000 10000 (by decide) (by decide),
    dispDepthPixel_scaling.2.2.2.1 20000 (by decide) (by decide),
    dispDepthPixel_scaling.2.2.2.2.1⟩

/-- The depth display on a one-row image. -/
theorem dispDepth_sample :
    dispDepth DisplayMode.RGBD [[0, 5000, 10000, 10039, 10040, 65535]] [] =
      DispImage.colorMapJet [[0, 127, 255, 255, 0, 135]] := by
  decide

/-! ## Claims on the plane-found flag and on the configuration -/

theorem process_cloud_members (s : PlaneAnnotator)
    (segment : List PointXYZRGBA → SacResult) :
    (process_cloud s segment).2.1.foundPlane = s.foundPlane ∧
    (process_cloud s segment).2.1.mode = s.mode := by
  unfold process_cloud
  simp only
  split <;> exact ⟨rfl, rfl⟩

/-- The single-plane estimator keeps the mode and never clears the flag. -/
theorem estimateFromPCL_members (self : PlaneAnnotator) (cas : CAS) (scene : Scene)
    (segment : List PointXYZRGBA → SacResult) :
    (estimateFromPCL self cas scene segment).self.mode = self.mode ∧
    (self.foundPlane = true →
      (estimateFromPCL self cas scene segment).self.foundPlane = true) := by
  obtain ⟨hf, hm⟩ := process_cloud_members { self with cloud := cas.getCloud } segment
  unfold estimateFromPCL
  simp only
  split
  · split
    · exact ⟨hm, fun _ => rfl⟩
    · exact ⟨hm, fun _ => rfl⟩
  · exact ⟨hm, fun h => hf.trans h⟩

theorem mpsStep_mode (st : MpsState) (i : Nat) :
    (mpsStep st i).self.mode = st.self.mode := by
  unfold mpsStep
  cases hth : st.thrown with
  | some e => simp
  | none =>
    simp only
    cases hg : getMask (st.self.inlierIndices.getD i []) st.self.cloud.size with
    | error e => simp
    | ok v => simp

theorem mpsBefore_mode (self : PlaneAnnotator) (cas : CAS) (scene : Scene)
    (mps : PointCloud → List Normal → MpsResult) (n : Nat) :
    (mpsBefore self cas scene mps n).self.mode = self.mode := by
  induction n with
  | zero => rfl
  | succ n ih => rw [mpsBefore_succ, mpsStep_mode, ih]

/-- The multi-region estimator keeps the mode and never clears the flag. -/
theorem estimateFromMPS_members (self : PlaneAnnotator) (cas : CAS) (scene : Scene)
    (mps : PointCloud → List Normal → MpsResult) :
    (estimateFromMPS self cas scene mps).self.mode = self.mode ∧
    (self.foundPlane = true →
      (estimateFromMPS self cas scene mps).self.foundPlane = true) := by
  have hlen : (mpsInit self cas scene mps).self.regions.length =
      (mps cas.getCloud cas.getNormals).regions.length := rfl
  have hm := mpsBefore_mode self cas scene mps (mps cas.getCloud cas.getNormals).regions.length
  have hf := (mpsBefore_frame self cas scene mps
    (mps cas.getCloud cas.getNormals).regions.length).2.2.2
  unfold mpsBefore at hm hf
  unfold estimateFromMPS
  simp only [hlen]
  split
  · exact ⟨hm, fun h => hf.trans h⟩
  · split
    · exact ⟨hm, fun h => hf.trans h⟩
    · exact ⟨hm, fun _ => rfl⟩

/-- In single-plane or multi-region mode a frame keeps the mode and a set flag. -/
theorem processWithLock_members (self : PlaneAnnotator) (bm : BoardMembers) (cas : CAS)
    (camInfoHD : Option CameraInfo) (scene : Scene)
    (segment : List PointXYZRGBA → SacResult)
    (mps : PointCloud → List Normal → MpsResult)
    (solvePnPRansac : Board → List ℚ → List ℚ → Option Pose → Pose)
    (Rodrigues : Vec3 → Mat3)
    (hmode : self.mode = Mode.PCL ∨ self.mode = Mode.MPS)
    (hfound : self.foundPlane = true) :
    ((processWithLock self bm cas camInfoHD scene segment mps solvePnPRansac
        Rodrigues).self.mode = Mode.PCL ∨
      (processWithLock self bm cas camInfoHD scene segment mps solvePnPRansac
        Rodrigues).self.mode = Mode.MPS) ∧
    (processWithLock self bm cas camInfoHD scene segment mps solvePnPRansac
      Rodrigues).self.foundPlane = true := by
  rcases hmode with h | h
  · obtain ⟨a, b⟩ := estimateFromPCL_members self cas scene segment
    unfold processWithLock
    simp only [h]
    exact ⟨Or.inl (a.trans h), b hfound⟩
  · obtain ⟨a, b⟩ := estimateFromMPS_members self cas scene mps
    unfold processWithLock
    simp only [h]
    exact ⟨Or.inr (a.trans h), b hfound⟩

/-- C23: `estimateFromPCL` and `estimateFromMPS` never clear the plane-found flag: if
`foundPlane` is true before the call it is true after it, whatever the input; hence in
single-plane or multi-region mode the flag stays true over every sequence of later
frames.  `estimateFromBoard` does clear it when the scene holds no board. -/
theorem foundPlane_never_cleared (self : PlaneAnnotator) (cas : CAS) (scene : Scene)
    (segment : List PointXYZRGBA → SacResult)
    (mps : PointCloud → List Normal → MpsResult) (hfound : self.foundPlane = true) :
    (estimateFromPCL self cas scene segment).self.foundPlane = true ∧
    (estimateFromMPS self cas scene mps).self.foundPlane = true ∧
    (∀ (bm : BoardMembers) (solvePnPRansac : Board → List ℚ → List ℚ → Option Pose → Pose)
        (Rodrigues : Vec3 → Mat3) (frames : List (CAS × Option CameraInfo × Scene)),
      self.mode = Mode.PCL ∨ self.mode = Mode.MPS →
      (processFrames self bm segment mps solvePnPRansac Rodrigues frames).1.foundPlane
        = true) ∧
    (∀ (bm : BoardMembers) (camInfoHD : Option CameraInfo)
        (solvePnPRansac : Board → List ℚ → List ℚ → Option Pose → Pose)
        (Rodrigues : Vec3 → Mat3), scene.boards = [] →
      (estimateFromBoard self bm camInfoHD scene solvePnPRansac Rodrigues).self.foundPlane
        = false) := by
  refine ⟨(estimateFromPCL_members self cas scene segment).2 hfound,
    (estimateFromMPS_members self cas scene mps).2 hfound, ?_, ?_⟩
  · intro bm solvePnPRansac Rodrigues frames hmode
    unfold processFrames
    have key : ∀ (fs : List (CAS × Option CameraInfo × Scene))
        (s : PlaneAnnotator × BoardMembers),
        (s.1.mode = Mode.PCL ∨ s.1.mode = Mode.MPS) → s.1.foundPlane = true →
        (fs.foldl
          (fun s f =>
            ((processWithLock s.1 s.2 f.1 f.2.1 f.2.2 segment mps solvePnPRansac
                Rodrigues).self,
             (processWithLock s.1 s.2 f.1 f.2.1 f.2.2 segment mps solvePnPRansac
                Rodrigues).board)) s).1.foundPlane = true := by
      intro fs
      induction fs with
      | nil => intro s _ hf; exact hf
      | cons f rest ih =>
        intro s hm hf
        obtain ⟨m1, f1⟩ := processWithLock_members s.1 s.2 f.1 f.2.1 f.2.2 segment mps
          solvePnPRansac Rodrigues hm hf
        simp only [List.foldl_cons]
        exact ih _ m1 f1
    exact key frames (self, bm) hmode hfound
  · intro bm camInfoHD solvePnPRansac Rodrigues hb
    unfold estimateFromBoard
    simp only [hb]

theorem foundPlane_never_cleared_witness :
    (sampleAnnotator Mode.MPS true).foundPlane = true ∧
    (estimateFromPCL (sampleAnnotator Mode.MPS true) (sampleCas nanCloud) emptyScene
      sampleSegment).self.foundPlane = true ∧
    (estimateFromMPS (sampleAnnotator Mode.MPS true) (sampleCas nanCloud) emptyScene
      noRegionMps).self.foundPlane = true ∧
    (processFrames (sampleAnnotator Mode.MPS true) sampleBoardMembers sampleSegment
      noRegionMps sampleSolvePnP sampleRodrigues
      [(sampleCas nanCloud, none, emptyScene),
       (sampleCas sampleCloud, none, emptyScene)]).1.foundPlane = true ∧
    (estimateFromBoard (sampleAnnotator Mode.MPS true) sampleBoardMembers none emptyScene
      sampleSolvePnP sampleRodrigues).self.foundPlane = false :=
  ⟨rfl,
    (foundPlane_never_cleared (sampleAnnotator Mode.MPS true) (sampleCas nanCloud)
      emptyScene sampleSegment noRegionMps rfl).1,
    (foundPlane_never_cleared (sampleAnnotator Mode.MPS true) (sampleCas nanCloud)
      emptyScene sampleSegment noRegionMps rfl).2.1,
    (foundPlane_never_cleared (sampleAnnotator Mode.MPS true) (sampleCas nanCloud)
      emptyScene sampleSegment noRegionMps rfl).2.2.1 sampleBoardMembers sampleSolvePnP
      sampleRodrigues
      [(sampleCas nanCloud, none, emptyScene), (sampleCas sampleCloud, none, emptyScene)]
      (Or.inr rfl),
    (foundPlane_never_cleared (sampleAnnotator Mode.MPS true) (sampleCas nanCloud)
      emptyScene sampleSegment noRegionMps rfl).2.2.2 sampleBoardMembers none
      sampleSolvePnP sampleRodrigues rfl⟩

theorem selectMode_known (self : PlaneAnnotator) :
    (selectMode self "BOARD").mode = Mode.BOARD ∧
    (selectMode self "PCL").mode = Mode.PCL ∧
    (selectMode self "MPS").mode = Mode.MPS := by
  refine ⟨?_, ?_, ?_⟩
  · unfold selectMode
    rw [if_pos rfl]
  · unfold selectMode
    rw [if_neg (by decide), if_pos rfl]
  · unfold selectMode
    rw [if_neg (by decide), if_neg (by decide), if_pos rfl]

/-- C24: `initialize` reads the tunables only under the mode parameter.  When `mode` is
not defined in the context the annotator is left as it was, so after the constructor the
mode is still `BOARD` and the five tunables keep their values even when the context
defines them; when `mode` is defined, `"BOARD"`, `"PCL"` and `"MPS"` select the mode of
that name and any other string leaves the mode as it was. -/
theorem initialize_reads_under_mode (self : PlaneAnnotator) (ctx : AnnotatorContext) :
    (ctx.mode = none → initializePlaneAnnotator self ctx = (UIMA_ERR_NONE, self)) ∧
    (∀ (f : Bool) (a b : Int) (c d e : ℚ), ctx.mode = none →
      (initializePlaneAnnotator (PlaneAnnotator.ctor f a b c d e) ctx).2.mode = Mode.BOARD ∧
      (initializePlaneAnnotator (PlaneAnnotator.ctor f a b c d e) ctx).2.min_plane_inliers
        = a ∧
      (initializePlaneAnnotator (PlaneAnnotator.ctor f a b c d e) ctx).2.max_iterations = b ∧
      (initializePlaneAnnotator (PlaneAnnotator.ctor f a b c d e) ctx).2.distance_threshold
        = c ∧
      (initializePlaneAnnotator (PlaneAnnotator.ctor f a b c d e) ctx).2.max_curvature = d ∧
      (initializePlaneAnnotator (PlaneAnnotator.ctor f a b c d e)
        ctx).2.angular_threshold_deg = e) ∧
    (ctx.mode = some "BOARD" → (initializePlaneAnnotator self ctx).2.mode = Mode.BOARD) ∧
    (ctx.mode = some "PCL" → (initializePlaneAnnotator self ctx).2.mode = Mode.PCL) ∧
    (ctx.mode = some "MPS" → (initializePlaneAnnotator self ctx).2.mode = Mode.MPS) ∧
    (∀ m, ctx.mode = some m → m ≠ "BOARD" → m ≠ "PCL" → m ≠ "MPS" →
      (initializePlaneAnnotator self ctx).2.mode = self.mode) := by
  have hnone : ∀ s : PlaneAnnotator, ctx.mode = none →
      initializePlaneAnnotator s ctx = (UIMA_ERR_NONE, s) := by
    intro s h
    unfold initializePlaneAnnotator
    simp only [h]
  have hsome : ∀ m, ctx.mode = some m →
      (initializePlaneAnnotator self ctx).2.mode = (selectMode self m).mode := by
    intro m h
    unfold initializePlaneAnnotator
    simp only [h]
    exact readTunables_mode _ ctx
  refine ⟨hnone self, ?_, ?_, ?_, ?_, ?_⟩
  · intro f a b c d e h
    rw [hnone _ h]
    exact ⟨rfl, rfl, rfl, rfl, rfl, rfl⟩
  · intro h; rw [hsome _ h]; exact (selectMode_known self).1
  · intro h; rw [hsome _ h]; exact (selectMode_known self).2.1
  · intro h; rw [hsome _ h]; exact (selectMode_known self).2.2
  · intro m h h1 h2 h3
    rw [hsome _ h, selectMode_other self m h1 h2 h3]

theorem initialize_reads_under_mode_witness :
    (initializePlaneAnnotator (PlaneAnnotator.ctor false 7 8 1 2 3)
      { mode := none, min_plane_inliers := some 100, max_iterations := some 200,
        distance_threshold := some 4, max_curvature := some 5,
        angular_threshold_deg := some 6 }).2 = PlaneAnnotator.ctor false 7 8 1 2 3 ∧
    (initializePlaneAnnotator (PlaneAnnotator.ctor false 7 8 1 2 3)
      { mode := some "PCL", min_plane_inliers := none, max_iterations := none,
        distance_threshold := none, max_curvature := none,
        angular_threshold_deg := none }).2.mode = Mode.PCL :=
  ⟨congrArg Prod.snd
      ((initialize_reads_under_mode (PlaneAnnotator.ctor false 7 8 1 2 3)
        { mode := none, min_plane_inliers := some 100, max_iterations := some 200,
          distance_threshold := some 4, max_curvature := some 5,
          angular_threshold_deg := some 6 }).1 rfl),
    (initialize_reads_under_mode (PlaneAnnotator.ctor false 7 8 1 2 3)
      { mode := some "PCL", min_plane_inliers := none, max_iterations := none,
        distance_threshold := none, max_curvature := none,
        angular_threshold_deg := none }).2.2.2.1 rfl⟩

end RoboSherlock
